import Mathlib

/-!
# Query construction and request signing of the `googlemaps` client

A shallow embedding of `net/googlemaps.go`.  A Go `string` is its sequence of
bytes, so it is embedded as a list of natural numbers below 256; a `[]byte` is
embedded the same way.  The standard-library functions the program calls
(`url.Values`, `url.QueryEscape`, `url.Parse`, `strings.Replace`,
`encoding/base64`, `crypto/hmac`, `crypto/sha1`) are embedded from their
documented behaviour in the Go standard library.
-/

namespace GoogleMaps

/-! ## Strings and bytes -/

/-- A Go string: the list of its bytes. -/
abbrev GoString := List Nat

/-- The byte of an ASCII character of the source text. -/
def ch (c : Char) : Nat := c.toNat

/-- An ASCII string literal of the source text as a Go string. -/
def lit (s : String) : GoString := s.data.map Char.toNat

/-- Go's `strings.Replace(s, old, new, -1)` for one-byte `old` and `new`, the
only way the program calls it: every occurrence of the byte is replaced. -/
def Replace (s : GoString) (old new : Nat) : GoString :=
  s.map (fun c => if c = old then new else c)

/-- Go's `<` on strings: bytewise lexicographic order. -/
def strLess : GoString → GoString → Bool
  | [], [] => false
  | [], _ :: _ => true
  | _ :: _, [] => false
  | a :: as, b :: bs => if a < b then true else if b < a then false else strLess as bs

/-- Go's `sort.Strings`: the keys in ascending order.  Every sorting
algorithm returns the same list, because the order is total and equal strings
are indistinguishable. -/
def sortStrings (keys : List GoString) : List GoString :=
  keys.insertionSort (fun a b => strLess b a = false)

/-! ## `net/url`: escaping -/

/-- The escaping modes of `net/url` that the program reaches. -/
inductive encoding where
  | encodePath
  | encodeHost
  | encodeQueryComponent
  | encodeFragment
  deriving DecidableEq, Repr

/-- The function `shouldEscape` of `net/url`: whether the byte `c` has to be
percent-escaped when it occurs in the part of a URL that `mode` names. -/
def shouldEscape (c : Nat) (mode : encoding) : Bool :=
  if (ch 'a' ≤ c ∧ c ≤ ch 'z') ∨ (ch 'A' ≤ c ∧ c ≤ ch 'Z') ∨ (ch '0' ≤ c ∧ c ≤ ch '9') then
    false
  else if mode = encoding.encodeHost ∧
      c ∈ [ch '!', ch '$', ch '&', 39, ch '(', ch ')', ch '*', ch '+', ch ',', ch ';',
           ch '=', ch ':', ch '[', ch ']', ch '<', ch '>', ch '"'] then
    false
  else if c ∈ [ch '-', ch '_', ch '.', ch '~'] then
    false
  else if c ∈ [ch '$', ch '&', ch '+', ch ',', ch '/', ch ':', ch ';', ch '=', ch '?', ch '@'] then
    match mode with
    | encoding.encodePath => c = ch '?'
    | encoding.encodeQueryComponent => true
    | encoding.encodeFragment => false
    | encoding.encodeHost => true
  else if mode = encoding.encodeFragment ∧ c ∈ [ch '!', ch '(', ch ')', ch '*'] then
    false
  else
    true

/-- The table `upperhex` of `net/url`, indexed by a number below 16. -/
def upperhex (n : Nat) : Nat :=
  (lit "0123456789ABCDEF").getD n 0

/-- What `escape` writes for one byte. -/
def escapeByte (c : Nat) (mode : encoding) : GoString :=
  if c = ch ' ' ∧ mode = encoding.encodeQueryComponent then [ch '+']
  else if shouldEscape c mode then [ch '%', upperhex (c >>> 4), upperhex (c &&& 15)]
  else [c]

/-- The function `escape` of `net/url`. -/
def escape (s : GoString) (mode : encoding) : GoString :=
  s.flatMap (fun c => escapeByte c mode)

/-- Go's `url.QueryEscape`. -/
def QueryEscape (s : GoString) : GoString :=
  escape s encoding.encodeQueryComponent

/-- The function `ishex` of `net/url`. -/
def ishex (c : Nat) : Bool :=
  (ch '0' ≤ c ∧ c ≤ ch '9') ∨ (ch 'a' ≤ c ∧ c ≤ ch 'f') ∨ (ch 'A' ≤ c ∧ c ≤ ch 'F')

/-- The function `unhex` of `net/url`. -/
def unhex (c : Nat) : Nat :=
  if ch '0' ≤ c ∧ c ≤ ch '9' then c - ch '0'
  else if ch 'a' ≤ c ∧ c ≤ ch 'f' then c - ch 'a' + 10
  else if ch 'A' ≤ c ∧ c ≤ ch 'F' then c - ch 'A' + 10
  else 0

/-- The function `unescape` of `net/url`: it fails on a `%` that is not
followed by two hexadecimal digits and, in a host, on a byte that may not
stand there; otherwise every `%XX` is replaced by the byte it denotes (and, in
a query component, `+` by a space). -/
def unescape : GoString → encoding → Option GoString
  | [], _ => some []
  | c :: rest, mode =>
    if c = ch '%' then
      match rest with
      | h1 :: h2 :: rest2 =>
        if ishex h1 ∧ ishex h2 then
          if mode = encoding.encodeHost ∧ unhex h1 < 8 ∧ ¬ (h1 = ch '2' ∧ h2 = ch '5') then none
          else (unescape rest2 mode).map (fun t => (unhex h1 <<< 4 ||| unhex h2) :: t)
        else none
      | _ => none
    else if c = ch '+' then
      (unescape rest mode).map
        (fun t => (if mode = encoding.encodeQueryComponent then ch ' ' else ch '+') :: t)
    else if mode = encoding.encodeHost ∧ c < 128 ∧ shouldEscape c encoding.encodeHost then none
    else (unescape rest mode).map (fun t => c :: t)

/-! ## `net/url`: `Values` -/

/-- Go's `url.Values`, a `map[string][]string`, as an association list.  The
order of the entries stands for the unspecified iteration order of the Go
map; a Go map holds every key once. -/
abbrev Values := List (GoString × List GoString)

namespace Values

/-- The map lookup `v[key]`: the empty slice when the key is absent. -/
def lookup (v : Values) (key : GoString) : List GoString :=
  match v.find? (fun e => e.1 = key) with
  | some e => e.2
  | none => []

/-- The keys of the map, `for k := range v`. -/
def keys (v : Values) : List GoString := v.map Prod.fst

/-- Whether the association list is a Go map: no key occurs twice. -/
def WF (v : Values) : Prop := (keys v).Nodup

instance WF.decidable (v : Values) : Decidable (WF v) :=
  inferInstanceAs (Decidable (keys v).Nodup)

/-- Go's `Values.Del`: deletes the key and its values. -/
def Del (v : Values) (key : GoString) : Values :=
  v.filter (fun e => e.1 ≠ key)

/-- The map assignment `v[key] = vs`. -/
def set (v : Values) (key : GoString) (vs : List GoString) : Values :=
  if v.any (fun e => e.1 = key) then v.map (fun e => if e.1 = key then (e.1, vs) else e)
  else v ++ [(key, vs)]

/-- Go's `Values.Add`: `v[key] = append(v[key], value)`. -/
def Add (v : Values) (key value : GoString) : Values :=
  set v key (lookup v key ++ [value])

/-- The inner loop of `Values.Encode`: the pairs of one key are appended to
the buffer, after a `&` when the buffer is not empty. -/
def encodeKey (buf : GoString) (keyEscaped : GoString) (vs : List GoString) : GoString :=
  vs.foldl
    (fun buf v => (if buf.length > 0 then buf ++ [ch '&'] else buf)
      ++ keyEscaped ++ [ch '='] ++ QueryEscape v)
    buf

/-- Go's `Values.Encode`: the keys are sorted, and for every key its values
are written in their order as `key=value`, escaped, separated by `&`. -/
def Encode (v : Values) : GoString :=
  (sortStrings (keys v)).foldl (fun buf k => encodeKey buf (QueryEscape k) (lookup v k)) []

end Values

/-! ## `net/url`: `Parse` -/

/-- Go's `strings.Cut(s, sep)` for a one-byte separator: the text before the
first occurrence of the separator and the text after it; the whole string and
the empty string when the separator does not occur. -/
def Cut (s : GoString) (sep : Nat) : GoString × GoString :=
  (s.takeWhile (fun c => c ≠ sep), (s.dropWhile (fun c => c ≠ sep)).drop 1)

/-- Go's `strings.ToLower` on ASCII text, which a scheme is. -/
def ToLower (s : GoString) : GoString :=
  s.map (fun c => if ch 'A' ≤ c ∧ c ≤ ch 'Z' then c + 32 else c)

/-- The function `stringContainsCTLByte` of `net/url`. -/
def stringContainsCTLByte (s : GoString) : Bool :=
  s.any (fun b => b < 32 ∨ b = 127)

/-- The loop of `getScheme`: `i` is the index of the first byte of `rest` in
`rawURL`. -/
def getSchemeFrom (rawURL : GoString) : Nat → GoString → Option (GoString × GoString)
  | _, [] => some ([], rawURL)
  | i, c :: rest =>
    if (ch 'a' ≤ c ∧ c ≤ ch 'z') ∨ (ch 'A' ≤ c ∧ c ≤ ch 'Z') then
      getSchemeFrom rawURL (i + 1) rest
    else if (ch '0' ≤ c ∧ c ≤ ch '9') ∨ c = ch '+' ∨ c = ch '-' ∨ c = ch '.' then
      if i = 0 then some ([], rawURL) else getSchemeFrom rawURL (i + 1) rest
    else if c = ch ':' then
      if i = 0 then none else some (rawURL.take i, rest)
    else some ([], rawURL)

/-- The function `getScheme` of `net/url`: the scheme before the first `:`
and the rest of the URL; it fails on a URL that starts with `:`. -/
def getScheme (rawURL : GoString) : Option (GoString × GoString) :=
  getSchemeFrom rawURL 0 rawURL

/-- The function `validOptionalPort` of `net/url`. -/
def validOptionalPort (port : GoString) : Bool :=
  match port with
  | [] => true
  | c :: digits => c = ch ':' ∧ digits.all (fun b => ch '0' ≤ b ∧ b ≤ ch '9')

/-- The text of `host` from its last `:` on, `none` when it has no `:`. -/
def lastColon : GoString → Option GoString
  | [] => none
  | c :: rest =>
    match lastColon rest with
    | some p => some p
    | none => if c = ch ':' then some (c :: rest) else none

/-- The function `parseAuthority` of `net/url` for an authority without user
information and without a bracketed IP literal, the only kind the program
gives it (the authority of the program's URLs is always
`maps.googleapis.com`); any other authority is reported as a failure here. -/
def parseAuthority (authority : GoString) : Option GoString :=
  if ch '@' ∈ authority ∨ authority.head? = some (ch '[') then none
  else
    match lastColon authority with
    | some colonPort =>
      if validOptionalPort colonPort then unescape authority encoding.encodeHost else none
    | none => unescape authority encoding.encodeHost

/-- The fields of Go's `url.URL` that `Parse` fills in here. -/
structure URL where
  Scheme : GoString
  Opaque : GoString
  Host : GoString
  Path : GoString
  RawQuery : GoString
  Fragment : GoString
  deriving DecidableEq, Repr

/-- The function `parse` of `net/url` (with `viaRequest` false), for a URL
from which the fragment has been cut off. -/
def parse (rawURL : GoString) : Option URL :=
  if stringContainsCTLByte rawURL then none
  else if rawURL = [ch '*'] then some ⟨[], [], [], [ch '*'], [], []⟩
  else
    match getScheme rawURL with
    | none => none
    | some (scheme0, rest0) =>
      let scheme := ToLower scheme0
      let rest := (Cut rest0 (ch '?')).1
      let rawQuery := (Cut rest0 (ch '?')).2
      if rest.head? ≠ some (ch '/') ∧ scheme ≠ [] then
        some ⟨scheme, rest, [], [], rawQuery, []⟩
      else if rest.head? ≠ some (ch '/') ∧ ch ':' ∈ (Cut rest (ch '/')).1 then none
      else if (scheme ≠ [] ∨ (rest.take 3 ≠ lit "///")) ∧ rest.take 2 = lit "//" then
        let authority := (rest.drop 2).takeWhile (fun c => c ≠ ch '/')
        let rest2 := (rest.drop 2).dropWhile (fun c => c ≠ ch '/')
        match parseAuthority authority with
        | none => none
        | some host =>
          match unescape rest2 encoding.encodePath with
          | none => none
          | some path => some ⟨scheme, [], host, path, rawQuery, []⟩
      else
        match unescape rest encoding.encodePath with
        | none => none
        | some path => some ⟨scheme, [], [], path, rawQuery, []⟩

/-- Go's `url.Parse`: the fragment after the first `#` is cut off and
unescaped, the rest is parsed by `parse`. -/
def Parse (rawURL : GoString) : Option URL :=
  let u := (Cut rawURL (ch '#')).1
  let frag := (Cut rawURL (ch '#')).2
  match parse u with
  | none => none
  | some url =>
    if frag = [] then some url
    else
      match unescape frag encoding.encodeFragment with
      | none => none
      | some f => some { url with Fragment := f }

/-! ## `encoding/base64` -/

/-- The decoding table of the standard alphabet: the six-bit value of a
character of the alphabet, `none` for every other byte. -/
def decodeMap (c : Nat) : Option Nat :=
  if ch 'A' ≤ c ∧ c ≤ ch 'Z' then some (c - ch 'A')
  else if ch 'a' ≤ c ∧ c ≤ ch 'z' then some (c - ch 'a' + 26)
  else if ch '0' ≤ c ∧ c ≤ ch '9' then some (c - ch '0' + 52)
  else if c = ch '+' then some 62
  else if c = ch '/' then some 63
  else none

/-- The decoding loop of `encoding/base64` for the padded standard encoding:
groups of four characters of the alphabet give three bytes each; the last
group may end in `=` or `==` and gives two bytes or one; anything else is
corrupt input. -/
def decode : GoString → Option (List Nat)
  | [] => some []
  | a :: b :: c :: d :: rest =>
    match decodeMap a, decodeMap b with
    | some x, some y =>
      if c = ch '=' then
        if d = ch '=' ∧ rest = [] then some [(x <<< 2 ||| y >>> 4) % 256] else none
      else
        match decodeMap c with
        | none => none
        | some z =>
          if d = ch '=' then
            if rest = [] then some [(x <<< 2 ||| y >>> 4) % 256, (y <<< 4 ||| z >>> 2) % 256]
            else none
          else
            match decodeMap d with
            | none => none
            | some w =>
              (decode rest).map (fun t =>
                (x <<< 2 ||| y >>> 4) % 256 :: (y <<< 4 ||| z >>> 2) % 256
                  :: (z <<< 6 ||| w) % 256 :: t)
    | _, _ => none
  | _ => none

/-- Go's `base64.StdEncoding.DecodeString`: carriage returns and line feeds
are ignored ("New line characters (\r and \n) are ignored", says the
documentation of `Encoding.Decode`), the rest is decoded; `none` stands for
`CorruptInputError`. -/
def DecodeString (s : GoString) : Option (List Nat) :=
  decode (s.filter (fun c => c ≠ 10 ∧ c ≠ 13))

/-- The standard alphabet `encodeStd`, indexed by a six-bit value. -/
def encodeStd (n : Nat) : Nat :=
  (lit "ABCDEFGHIJKLMNOPQRSTUVWXYZabcdefghijklmnopqrstuvwxyz0123456789+/").getD n 0

/-- Go's `base64.StdEncoding.EncodeToString`: three bytes give four
characters; a last group of one or two bytes is padded with `=`. -/
def EncodeToString : List Nat → GoString
  | [] => []
  | [a] =>
    [encodeStd ((a <<< 16) >>> 18 &&& 63), encodeStd ((a <<< 16) >>> 12 &&& 63), ch '=', ch '=']
  | [a, b] =>
    [encodeStd ((a <<< 16 ||| b <<< 8) >>> 18 &&& 63),
     encodeStd ((a <<< 16 ||| b <<< 8) >>> 12 &&& 63),
     encodeStd ((a <<< 16 ||| b <<< 8) >>> 6 &&& 63), ch '=']
  | a :: b :: c :: rest =>
    encodeStd ((a <<< 16 ||| b <<< 8 ||| c) >>> 18 &&& 63)
      :: encodeStd ((a <<< 16 ||| b <<< 8 ||| c) >>> 12 &&& 63)
      :: encodeStd ((a <<< 16 ||| b <<< 8 ||| c) >>> 6 &&& 63)
      :: encodeStd ((a <<< 16 ||| b <<< 8 ||| c) &&& 63)
      :: EncodeToString rest

/-! ## `crypto/sha1` and `crypto/hmac` -/

/-- Rotation of a 32-bit word to the left. -/
def rotl (x n : Nat) : Nat :=
  ((x <<< n) ||| (x >>> (32 - n))) % 2 ^ 32

/-- The big-endian 32-bit words of a list of bytes. -/
def toWords : List Nat → List Nat
  | a :: b :: c :: d :: rest => (a <<< 24 ||| b <<< 16 ||| c <<< 8 ||| d) :: toWords rest
  | _ => []

/-- The four big-endian bytes of a 32-bit word. -/
def wordBytes (w : Nat) : List Nat :=
  [(w >>> 24) % 256, (w >>> 16) % 256, (w >>> 8) % 256, w % 256]

/-- The padding of SHA-1: a byte `0x80`, zero bytes up to 56 modulo 64, and
the length of the message in bits as a 64-bit big-endian number. -/
def sha1Pad (msg : List Nat) : List Nat :=
  msg ++ [128] ++ List.replicate ((119 - msg.length % 64) % 64) 0
    ++ wordBytes ((8 * msg.length) >>> 32 % 2 ^ 32) ++ wordBytes ((8 * msg.length) % 2 ^ 32)

/-- The message schedule of SHA-1: the sixteen words of a block extended to
eighty. -/
def schedule (block : List Nat) : List Nat :=
  (List.range 64).foldl
    (fun w i =>
      w ++ [rotl (w.getD (i + 13) 0 ^^^ w.getD (i + 8) 0 ^^^ w.getD (i + 2) 0 ^^^ w.getD i 0) 1])
    block

/-- The five chaining words of SHA-1. -/
structure digest where
  h0 : Nat
  h1 : Nat
  h2 : Nat
  h3 : Nat
  h4 : Nat
  deriving DecidableEq, Repr

/-- One of the eighty rounds of SHA-1. -/
def round (w : List Nat) (s : digest) (i : Nat) : digest :=
  let f :=
    if i < 20 then (s.h1 &&& s.h2) ||| ((s.h1 ^^^ (2 ^ 32 - 1)) &&& s.h3)
    else if i < 40 then s.h1 ^^^ s.h2 ^^^ s.h3
    else if i < 60 then (s.h1 &&& s.h2) ||| (s.h1 &&& s.h3) ||| (s.h2 &&& s.h3)
    else s.h1 ^^^ s.h2 ^^^ s.h3
  let k :=
    if i < 20 then 0x5A827999 else if i < 40 then 0x6ED9EBA1
    else if i < 60 then 0x8F1BBCDC else 0xCA62C1D6
  ⟨(rotl s.h0 5 + f + s.h4 + k + w.getD i 0) % 2 ^ 32, s.h0, rotl s.h1 30, s.h2, s.h3⟩

/-- The compression of one 64-byte block into the chaining words. -/
def block (h : digest) (p : List Nat) : digest :=
  let t := (List.range 80).foldl (round (schedule (toWords p))) h
  ⟨(h.h0 + t.h0) % 2 ^ 32, (h.h1 + t.h1) % 2 ^ 32, (h.h2 + t.h2) % 2 ^ 32,
   (h.h3 + t.h3) % 2 ^ 32, (h.h4 + t.h4) % 2 ^ 32⟩

/-- The SHA-1 digest of a message: twenty bytes. -/
def sha1 (msg : List Nat) : List Nat :=
  let padded := sha1Pad msg
  let h := (List.range (padded.length / 64)).foldl
    (fun h i => block h ((padded.drop (64 * i)).take 64))
    ⟨0x67452301, 0xEFCDAB89, 0x98BADCFE, 0x10325476, 0xC3D2E1F0⟩
  wordBytes h.h0 ++ wordBytes h.h1 ++ wordBytes h.h2 ++ wordBytes h.h3 ++ wordBytes h.h4

/-- The digest that `hmac.New(sha1.New, key)` returns after `msg` has been
written to it: HMAC-SHA1 of RFC 2104. -/
def hmacSha1 (key msg : List Nat) : List Nat :=
  let k0 := if key.length > 64 then sha1 key else key
  let k := k0 ++ List.replicate (64 - k0.length) 0
  sha1 (k.map (fun b => b ^^^ 0x5c) ++ sha1 (k.map (fun b => b ^^^ 0x36) ++ msg))

/-! ## The service -/

/-- The constant `GOOGLEMAPS_AUTH_CLIENT`. -/
def GOOGLEMAPS_AUTH_CLIENT : GoString := lit "client"

/-- The constant `GOOGLEMAPS_AUTH_KEY`. -/
def GOOGLEMAPS_AUTH_KEY : GoString := lit "key"

/-- The constant `GOOGLEMAPS_AUTH_EMPTY`. -/
def GOOGLEMAPS_AUTH_EMPTY : GoString := lit ""

/-- The constant `GOOGLEMAPS_URL`. -/
def GOOGLEMAPS_URL : GoString := lit "https://maps.googleapis.com/maps/api/"

/-- The constant `GOOGLEMAPS_RESPONSE_JSON`. -/
def GOOGLEMAPS_RESPONSE_JSON : GoString := lit "json"

/-- The constant `GOOGLEMAPS_RESPONSE_XML`. -/
def GOOGLEMAPS_RESPONSE_XML : GoString := lit "xml"

/-- The errors the program returns: one made by `errors.New` with its
message, the `*url.Error` of `url.Parse`, and the `CorruptInputError` of the
base64 decoder (the last two without their details). -/
inductive GoError where
  | errorString (msg : GoString)
  | urlError
  | corruptInputError
  deriving DecidableEq, Repr

/-- The struct `Service`.  The field `params` is never the nil map in a
service made by `NewService`. -/
structure Service where
  servicePath : GoString
  requestMethod : GoString
  requestType : GoString
  authType : GoString
  apiKey : GoString
  clientId : GoString
  clientSecret : GoString
  business : Bool
  params : Values
  deriving DecidableEq, Repr

/-- The function `inSlice`. -/
def inSlice (key : GoString) : List GoString → Bool
  | [] => false
  | val :: slice => if val = key then true else inSlice key slice

/-- The method `SetServicePath`. -/
def SetServicePath (s : Service) (sPath : GoString) : Service :=
  { s with servicePath := sPath }

/-- The method `SetApiKey`. -/
def SetApiKey (s : Service) (aKey : GoString) : Service :=
  { s with apiKey := aKey }

/-- The method `SetClientId`. -/
def SetClientId (s : Service) (cId : GoString) : Service :=
  { s with clientId := cId }

/-- The method `SetClientSecret`. -/
def SetClientSecret (s : Service) (cSecret : GoString) : Service :=
  { s with clientSecret := cSecret }

/-- The method `SetRequestMethod`: the service after the call and the error
returned. -/
def SetRequestMethod (s : Service) (rMethod : GoString) : Service × Option GoError :=
  if ! inSlice rMethod [lit "POST", lit "GET"] then
    (s, some (GoError.errorString
      (lit "Invalid request method passed. Should be either POST or GET")))
  else ({ s with requestMethod := rMethod }, none)

/-- The method `SetAuthType`: the service after the call and the error
returned. -/
def SetAuthType (s : Service) (aType : GoString) : Service × Option GoError :=
  if ! inSlice aType [GOOGLEMAPS_AUTH_EMPTY, GOOGLEMAPS_AUTH_KEY, GOOGLEMAPS_AUTH_CLIENT] then
    (s, some (GoError.errorString
      (lit "Invalid authentication type passed. Should be either \"\", \"client\" or \"key\"")))
  else
    ({ s with authType := aType, business := decide (aType ≠ GOOGLEMAPS_AUTH_EMPTY) }, none)

/-- The method `setRequestType`: the service after the call and the error
returned. -/
def setRequestType (s : Service) (rType : GoString) : Service × Option GoError :=
  if ! inSlice rType [GOOGLEMAPS_RESPONSE_XML, GOOGLEMAPS_RESPONSE_JSON] then
    (s, some (GoError.errorString
      (lit "Invalid request type passed. Should be either " ++ GOOGLEMAPS_RESPONSE_JSON
        ++ lit " or " ++ GOOGLEMAPS_RESPONSE_XML)))
  else ({ s with requestType := rType }, none)

/-- The method `AddParam`. -/
def AddParam (s : Service) (key value : GoString) : Service :=
  { s with params := s.params.Add key value }

/-- The method `RemoveParam`. -/
def RemoveParam (s : Service) (key : GoString) : Service :=
  { s with params := s.params.Del key }

/-- The function `NewService`: the service (if any) and the error returned. -/
def NewService (sPath rMethod aType : GoString) : Option Service × Option GoError :=
  let s : Service := ⟨sPath, [], [], [], [], [], [], false, []⟩
  match setRequestType s GOOGLEMAPS_RESPONSE_JSON with
  | (_, some err) => (none, some err)
  | (s1, none) =>
    match SetRequestMethod s1 rMethod with
    | (_, some err) => (none, some err)
    | (s2, none) =>
      match SetAuthType s2 aType with
      | (_, some err) => (none, some err)
      | (s3, none) => (some { s3 with params := [] }, none)

/-- The parameter set after the three `Del` calls that open `constructQuery`. -/
def stripReserved (v : Values) : Values :=
  ((v.Del (lit "client")).Del (lit "signature")).Del (lit "key")

/-- The local `tempUrl` of `constructQuery`. -/
def tempUrl (s : Service) : GoString :=
  GOOGLEMAPS_URL ++ s.servicePath ++ lit "/" ++ s.requestType ++ lit "?"

/-- What a call of `constructQuery` does: the service after the call, the two
values returned, and what was given to the MAC, if anything (the key of
`hmac.New` and the bytes of `mac.Write`). -/
structure QueryResult where
  service : Service
  url : GoString
  err : Option GoError
  signed : Option (List Nat × GoString)
  deriving DecidableEq, Repr

/-- The method `constructQuery`. -/
def constructQuery (s : Service) : QueryResult :=
  let p := stripReserved s.params
  if s.business then
    if s.authType = GOOGLEMAPS_AUTH_CLIENT then
      if s.clientId = lit "" ∨ s.clientSecret = lit "" then
        ⟨{ s with params := p }, lit "", some (GoError.errorString (lit
          "Client ID and/or Client Secret are not set. You should set them if you wish to use the \"client\" authentication method.")),
          none⟩
      else
        let p1 := p.Add (lit "client") s.clientId
        match Parse (tempUrl s) with
        | none => ⟨{ s with params := p1 }, lit "", some GoError.urlError, none⟩
        | some parsedUrl =>
          let pathQuery := parsedUrl.Path ++ lit "?" ++ p1.Encode
          let newSecret := Replace (Replace s.clientSecret (ch '-') (ch '+')) (ch '_') (ch '/')
          match DecodeString newSecret with
          | none => ⟨{ s with params := p1 }, lit "", some GoError.corruptInputError, none⟩
          | some decodedSecret =>
            let secretResult := hmacSha1 decodedSecret pathQuery
            let newSignature :=
              Replace (Replace (EncodeToString secretResult) (ch '+') (ch '-')) (ch '/') (ch '_')
            let p2 := p1.Add (lit "signature") newSignature
            ⟨{ s with params := p2 }, tempUrl s ++ p2.Encode, none,
              some (decodedSecret, pathQuery)⟩
    else if s.authType = GOOGLEMAPS_AUTH_KEY then
      if s.apiKey = lit "" then
        ⟨{ s with params := p }, lit "", some (GoError.errorString (lit
          "API Key is not set. You should set them if you wish to use the \"key\" authentication method.")),
          none⟩
      else
        ⟨{ s with params := p.Add (lit "key") s.apiKey },
          tempUrl s ++ (p.Add (lit "key") s.apiKey).Encode, none, none⟩
    else ⟨{ s with params := p }, tempUrl s ++ p.Encode, none, none⟩
  else ⟨{ s with params := p }, tempUrl s ++ p.Encode, none, none⟩

/-- The derived field tracks the authentication type: `business` is true
exactly when `authType` is not the empty value. -/
def Service.consistent (s : Service) : Prop :=
  s.business = decide (s.authType ≠ GOOGLEMAPS_AUTH_EMPTY)

instance Service.decidableConsistent (s : Service) : Decidable s.consistent :=
  inferInstanceAs (Decidable (s.business = decide (s.authType ≠ GOOGLEMAPS_AUTH_EMPTY)))

/-! ## Notions used to state the properties -/

/-- The secret as `constructQuery` hands it to the base64 decoder: the local
`newSecret`. -/
def translateSecret (secret : GoString) : GoString :=
  Replace (Replace secret (ch '-') (ch '+')) (ch '_') (ch '/')

/-- The signature as `constructQuery` derives it from the digest: the local
`newSignature`. -/
def translateSignature (digest : List Nat) : GoString :=
  Replace (Replace (EncodeToString digest) (ch '+') (ch '-')) (ch '/') (ch '_')

/-- The names that `constructQuery` deletes from the parameter set. -/
def reserved (k : GoString) : Prop :=
  k = lit "client" ∨ k = lit "signature" ∨ k = lit "key"

instance reserved.decidable (k : GoString) : Decidable (reserved k) :=
  inferInstanceAs (Decidable (k = lit "client" ∨ k = lit "signature" ∨ k = lit "key"))

/-- A text that `url.Parse` takes as it stands when it is part of a path: no
`%`, `?` or `#` and no control byte. -/
def plain (x : GoString) : Prop :=
  ∀ c ∈ x, c ≠ ch '%' ∧ c ≠ ch '?' ∧ c ≠ ch '#' ∧ 32 ≤ c ∧ c ≠ 127

instance plain.decidable (x : GoString) : Decidable (plain x) :=
  inferInstanceAs (Decidable (∀ c ∈ x, c ≠ ch '%' ∧ c ≠ ch '?' ∧ c ≠ ch '#' ∧ 32 ≤ c ∧ c ≠ 127))

/-- Two association lists that stand for the same Go map: the same keys, in
any order, and the same values under every key. -/
def Values.equiv (v w : Values) : Prop :=
  (Values.keys v).Perm (Values.keys w) ∧ ∀ k, Values.lookup v k = Values.lookup w k

/-- Whether a byte is a character of the standard base64 alphabet: a letter,
a digit, `+` or `/`. -/
def inStdAlphabet (c : Nat) : Bool :=
  c ∈ lit "ABCDEFGHIJKLMNOPQRSTUVWXYZabcdefghijklmnopqrstuvwxyz0123456789+/"

/-- Padded standard base64 in the words of RFC 4648: the length is a multiple
of four, and the text consists of characters of the standard alphabet followed
by no, one or two padding characters `=`. -/
def validStdBase64 (x : GoString) : Bool :=
  x.length % 4 = 0 ∧ (x.takeWhile (fun c => c ≠ ch '=')).all inStdAlphabet ∧
    (x.dropWhile (fun c => c ≠ ch '=') = [] ∨ x.dropWhile (fun c => c ≠ ch '=') = lit "="
      ∨ x.dropWhile (fun c => c ≠ ch '=') = lit "==")

/-- The pairs that `Values.Encode` writes, in the order in which it writes
them: the names in ascending order, the values of a name in their order. -/
def Values.pairs (v : Values) : List (GoString × GoString) :=
  (sortStrings (Values.keys v)).flatMap (fun k => (Values.lookup v k).map (fun x => (k, x)))

/-- The text of one pair in a query: the escaped name, `=`, the escaped
value. -/
def renderPair (p : GoString × GoString) : GoString :=
  QueryEscape p.1 ++ [ch '='] ++ QueryEscape p.2

/-- Texts joined by `&`. -/
def joinAmp : List GoString → GoString
  | [] => []
  | [a] => a
  | a :: b :: rest => a ++ [ch '&'] ++ joinAmp (b :: rest)

/-! ## Services of the test file -/

/-- The service of `TestExecute_forClientAuth` with the client id `foo` of the
reference vector: the service that `NewService("elevation", "GET", "client")`
returns, after the two `AddParam` calls and the two credential setters. -/
def clientExample : Service :=
  SetClientSecret
    (SetClientId
      (AddParam
        (AddParam
          ⟨lit "elevation", lit "GET", lit "json", lit "client", lit "", lit "", lit "", true, []⟩
          (lit "sensor") (lit "false"))
        (lit "locations") (lit "40.714728,-73.998672"))
      (lit "foo"))
    (lit "vNIXE0xscrmjlyV-12Nj_BvUPaw=")

/-- The service of `TestExecute_forKeyAuth`. -/
def keyExample : Service :=
  SetApiKey
    (AddParam
      (AddParam
        ⟨lit "geocode", lit "GET", lit "json", lit "key", lit "", lit "", lit "", true, []⟩
        (lit "sensor") (lit "false"))
      (lit "address") (lit "5 James Bourchier, Sofia, Bulgaria"))
    (lit "TEST_API_KEY")

/-- The service of `TestExecute_forEmptyAuth`. -/
def emptyExample : Service :=
  AddParam
    (AddParam
      (AddParam
        ⟨lit "distancematrix", lit "GET", lit "json", lit "", lit "", lit "", lit "", false, []⟩
        (lit "sensor") (lit "false"))
      (lit "origins") (lit "Sofia, Bulgaria"))
    (lit "destinations") (lit "Berlin, Germany")

/-- The client service with the service path `%`. -/
def percentPathExample : Service :=
  SetServicePath clientExample (lit "%")

/-- The client service with the service path `geocode%zz`. -/
def badEscapeExample : Service :=
  SetServicePath clientExample (lit "geocode%zz")

/-- The client service with the service path `a%20b`, a path with an escaped
space. -/
def escapedPathExample : Service :=
  SetServicePath clientExample (lit "a%20b")

/-- The client service with the client secret `AAAA` followed by a line
feed. -/
def newlineSecretExample : Service :=
  SetClientSecret clientExample (lit "AAAA\n")

/-- A parameter set in which the caller has stored a value under `key`. -/
def injectedParamsA : Values :=
  [(lit "sensor", [lit "false"]), (lit "key", [lit "evil"])]

/-- The same parameters with other values under the reserved names, in
another order. -/
def injectedParamsB : Values :=
  [(lit "key", [lit "other"]), (lit "client", [lit "x", lit "y"]), (lit "sensor", [lit "false"])]

/-! ## The exported operations and the states they reach -/

/-- The method `String`: the service after the call and the text returned.
`Error` stands for the method `Error()` of the error values, whose text for
the errors of the standard library is not part of this embedding. -/
def Service.String (Error : GoError → GoString) (s : Service) : Service × GoString :=
  match (constructQuery s).err with
  | some err => ((constructQuery s).service, Error err)
  | none =>
    ((constructQuery s).service,
      s.requestMethod ++ lit " " ++ (constructQuery s).url ++ lit "\n")

/-- The effect of the method `Execute` on the service: `executeReal` calls
`constructQuery` and after that only talks to the network and decodes the
answer. -/
def Service.afterExecute (s : Service) : Service :=
  (constructQuery s).service

/-- A call of one of the exported operations on a service. -/
inductive Op where
  | SetServicePath (sPath : GoString)
  | SetApiKey (aKey : GoString)
  | SetClientId (cId : GoString)
  | SetClientSecret (cSecret : GoString)
  | SetRequestMethod (rMethod : GoString)
  | SetAuthType (aType : GoString)
  | AddParam (key value : GoString)
  | RemoveParam (key : GoString)
  | String
  | Execute
  deriving DecidableEq, Repr

/-- The service after a call; a setter that returns an error is a call too. -/
def Op.apply (Error : GoError → GoString) : Op → Service → Service
  | Op.SetServicePath sPath, s => GoogleMaps.SetServicePath s sPath
  | Op.SetApiKey aKey, s => GoogleMaps.SetApiKey s aKey
  | Op.SetClientId cId, s => GoogleMaps.SetClientId s cId
  | Op.SetClientSecret cSecret, s => GoogleMaps.SetClientSecret s cSecret
  | Op.SetRequestMethod rMethod, s => (GoogleMaps.SetRequestMethod s rMethod).1
  | Op.SetAuthType aType, s => (GoogleMaps.SetAuthType s aType).1
  | Op.AddParam key value, s => GoogleMaps.AddParam s key value
  | Op.RemoveParam key, s => GoogleMaps.RemoveParam s key
  | Op.String, s => (s.String Error).1
  | Op.Execute, s => s.afterExecute

/-- The service after a sequence of calls. -/
def run (Error : GoError → GoString) (ops : List Op) (s : Service) : Service :=
  ops.foldl (fun s op => op.apply Error s) s

/-- The services that a program can hold: what `NewService` returned, after
any sequence of calls of the exported operations. -/
def Reachable (Error : GoError → GoString) (s : Service) : Prop :=
  ∃ (sPath rMethod aType : GoString) (s0 : Service) (ops : List Op),
    (NewService sPath rMethod aType).1 = some s0 ∧ s = run Error ops s0

/-- Whether a byte is a character of the URL-safe base64 alphabet: a letter,
a digit, `-` or `_`. -/
def inUrlSafeAlphabet (c : Nat) : Bool :=
  c ∈ lit "ABCDEFGHIJKLMNOPQRSTUVWXYZabcdefghijklmnopqrstuvwxyz0123456789-_"

/-- How the examples print an error: the message of an `errors.New` error,
and nothing for the two library errors. -/
def errorText : GoError → GoString
  | GoError.errorString msg => msg
  | GoError.urlError => []
  | GoError.corruptInputError => []

/-- The service that `NewService("geocode", "GET", "")` returns. -/
def newExample : Service :=
  ⟨lit "geocode", lit "GET", lit "json", lit "", [], [], [], false, []⟩

/-- A sequence of calls with two rejected setter calls (`SetAuthType("KEY")`
and `SetRequestMethod("PUT")`), a `String` and an `Execute`. -/
def sessionOps : List Op :=
  [Op.SetAuthType (lit "KEY"), Op.SetApiKey (lit "TEST_API_KEY"),
    Op.AddParam (lit "sensor") (lit "false"), Op.String, Op.SetAuthType (lit "key"),
    Op.SetRequestMethod (lit "PUT"), Op.Execute, Op.RemoveParam (lit "sensor"),
    Op.SetServicePath (lit "elevation")]

/-- The service of `TestExecute_forEmptyAuth` after `AddParam("signature", "a")`
and `AddParam("signature", "b")`. -/
def reservedTwiceExample : Service :=
  AddParam (AddParam emptyExample (lit "signature") (lit "a")) (lit "signature") (lit "b")

/-- The client service with the service path `a?b`. -/
def questionPathExample : Service :=
  SetServicePath clientExample (lit "a?b")

/-- The client service with one more parameter, `zoom`, a name that sorts
after `signature`. -/
def lateNameExample : Service :=
  AddParam clientExample (lit "zoom") (lit "3")

/-! ## Lemmas -/

theorem key_ne_client : GOOGLEMAPS_AUTH_KEY ≠ GOOGLEMAPS_AUTH_CLIENT := by decide

theorem client_ne_empty : GOOGLEMAPS_AUTH_CLIENT ≠ GOOGLEMAPS_AUTH_EMPTY := by decide

theorem key_ne_empty : GOOGLEMAPS_AUTH_KEY ≠ GOOGLEMAPS_AUTH_EMPTY := by decide

theorem constructQuery_not_business (s : Service) (hb : s.business = false) :
    constructQuery s =
      ⟨{ s with params := stripReserved s.params }, tempUrl s ++ (stripReserved s.params).Encode,
        none, none⟩ := by
  simp [constructQuery, hb]

theorem constructQuery_key_missing (s : Service) (hb : s.business = true)
    (hm : s.authType = GOOGLEMAPS_AUTH_KEY) (hk : s.apiKey = lit "") :
    constructQuery s =
      ⟨{ s with params := stripReserved s.params }, lit "", some (GoError.errorString (lit
        "API Key is not set. You should set them if you wish to use the \"key\" authentication method.")),
        none⟩ := by
  simp only [constructQuery, hb, hm, if_true, if_neg key_ne_client, hk]

theorem constructQuery_key (s : Service) (hb : s.business = true)
    (hm : s.authType = GOOGLEMAPS_AUTH_KEY) (hk : s.apiKey ≠ lit "") :
    constructQuery s =
      ⟨{ s with params := (stripReserved s.params).Add (lit "key") s.apiKey },
        tempUrl s ++ ((stripReserved s.params).Add (lit "key") s.apiKey).Encode, none, none⟩ := by
  simp only [constructQuery, hb, hm, if_true, if_neg key_ne_client, if_neg hk]

theorem constructQuery_client_missing (s : Service) (hb : s.business = true)
    (hm : s.authType = GOOGLEMAPS_AUTH_CLIENT) (hk : s.clientId = lit "" ∨ s.clientSecret = lit "") :
    constructQuery s =
      ⟨{ s with params := stripReserved s.params }, lit "", some (GoError.errorString (lit
        "Client ID and/or Client Secret are not set. You should set them if you wish to use the \"client\" authentication method.")),
        none⟩ := by
  simp only [constructQuery, hb, hm, if_true, if_pos hk]

theorem constructQuery_client_parse (s : Service) (hb : s.business = true)
    (hm : s.authType = GOOGLEMAPS_AUTH_CLIENT) (hid : s.clientId ≠ lit "")
    (hsec : s.clientSecret ≠ lit "") (hp : Parse (tempUrl s) = none) :
    constructQuery s =
      ⟨{ s with params := (stripReserved s.params).Add (lit "client") s.clientId }, lit "",
        some GoError.urlError, none⟩ := by
  have hk : ¬ (s.clientId = lit "" ∨ s.clientSecret = lit "") := by
    rintro (h | h)
    · exact hid h
    · exact hsec h
  simp only [constructQuery, hb, hm, if_true, if_neg hk, hp]

theorem constructQuery_client_decode (s : Service) (hb : s.business = true)
    (hm : s.authType = GOOGLEMAPS_AUTH_CLIENT) (hid : s.clientId ≠ lit "")
    (hsec : s.clientSecret ≠ lit "") (u : URL) (hp : Parse (tempUrl s) = some u)
    (hd : DecodeString (translateSecret s.clientSecret) = none) :
    constructQuery s =
      ⟨{ s with params := (stripReserved s.params).Add (lit "client") s.clientId }, lit "",
        some GoError.corruptInputError, none⟩ := by
  have hk : ¬ (s.clientId = lit "" ∨ s.clientSecret = lit "") := by
    rintro (h | h)
    · exact hid h
    · exact hsec h
  unfold translateSecret at hd
  simp only [constructQuery, hb, hm, if_true, if_neg hk, hp, hd]

theorem constructQuery_client (s : Service) (hb : s.business = true)
    (hm : s.authType = GOOGLEMAPS_AUTH_CLIENT) (hid : s.clientId ≠ lit "")
    (hsec : s.clientSecret ≠ lit "") (u : URL) (hp : Parse (tempUrl s) = some u)
    (key : List Nat) (hd : DecodeString (translateSecret s.clientSecret) = some key)
    (p1 : Values) (hp1 : p1 = (stripReserved s.params).Add (lit "client") s.clientId)
    (msg : GoString) (hmsg : msg = u.Path ++ lit "?" ++ p1.Encode)
    (p2 : Values) (hp2 : p2 = p1.Add (lit "signature") (translateSignature (hmacSha1 key msg))) :
    constructQuery s = ⟨{ s with params := p2 }, tempUrl s ++ p2.Encode, none, some (key, msg)⟩ := by
  have hk : ¬ (s.clientId = lit "" ∨ s.clientSecret = lit "") := by
    rintro (h | h)
    · exact hid h
    · exact hsec h
  unfold translateSecret at hd
  subst hp1 hmsg hp2
  simp only [constructQuery, hb, hm, if_true, if_neg hk, hp, hd, translateSignature]

theorem business_of_consistent (s : Service) (hc : s.consistent) :
    s.business = true ↔ s.authType ≠ GOOGLEMAPS_AUTH_EMPTY := by
  unfold Service.consistent at hc
  rw [hc]; simp

theorem unescape_path_clean (x : GoString) (h : ∀ c ∈ x, c ≠ ch '%') :
    unescape x encoding.encodePath = some x := by
  induction x with
  | nil => rfl
  | cons c rest ih =>
    have hc : c ≠ ch '%' := h c (List.mem_cons_self _ _)
    have ih2 := ih (fun d hd => h d (List.mem_cons_of_mem _ hd))
    rw [unescape.eq_def]
    simp only [if_neg hc, ih2]
    by_cases hp : c = ch '+'
    · simp [hp]
    · simp [hp]

theorem getScheme_https (z : GoString) :
    getScheme (lit "https:" ++ z) = some (lit "https", z) := by
  show getSchemeFrom (lit "https:" ++ z) 0 (104 :: 116 :: 116 :: 112 :: 115 :: 58 :: z) = _
  simp [getSchemeFrom, ch]
  rfl

theorem parseAuthority_host :
    parseAuthority (lit "maps.googleapis.com") = some (lit "maps.googleapis.com") := by
  decide

theorem url_split : GOOGLEMAPS_URL = lit "https:" ++ lit "//maps.googleapis.com/maps/api/" := by
  decide


theorem rest_shape (t : GoString) :
    lit "//maps.googleapis.com/maps/api/" ++ t
      = ch '/' :: ch '/' :: (lit "maps.googleapis.com" ++ (lit "/maps/api/" ++ t)) := by
  rfl

theorem authority_take (t : GoString) :
    (lit "maps.googleapis.com" ++ (lit "/maps/api/" ++ t)).takeWhile (fun c => c ≠ ch '/')
      = lit "maps.googleapis.com" := by
  rw [List.takeWhile_append_of_pos (by decide)]
  show lit "maps.googleapis.com" ++ List.takeWhile _ (47 :: (lit "maps/api/" ++ t)) = _
  simp [List.takeWhile, ch]

theorem authority_drop (t : GoString) :
    (lit "maps.googleapis.com" ++ (lit "/maps/api/" ++ t)).dropWhile (fun c => c ≠ ch '/')
      = lit "/maps/api/" ++ t := by
  rw [List.dropWhile_append_of_pos (by decide)]
  show List.dropWhile _ (47 :: (lit "maps/api/" ++ t)) = _
  simp [List.dropWhile, ch]
  rfl

theorem cut_query (u : GoString) :
    Cut (lit "//maps.googleapis.com/maps/api/" ++ u) (ch '?')
      = (lit "//maps.googleapis.com/maps/api/" ++ u.takeWhile (fun c => c ≠ ch '?'),
         (u.dropWhile (fun c => c ≠ ch '?')).drop 1) := by
  unfold Cut
  rw [List.takeWhile_append_of_pos (by decide), List.dropWhile_append_of_pos (by decide)]

/-- The function `parse` on a URL of the program from which the fragment has been cut off. -/
theorem parse_googlemaps (u : GoString) :
    parse (GOOGLEMAPS_URL ++ u) =
      if stringContainsCTLByte u then none
      else
        match unescape (lit "/maps/api/" ++ u.takeWhile (fun c => c ≠ ch '?')) encoding.encodePath with
        | none => none
        | some path =>
          some ⟨lit "https", [], lit "maps.googleapis.com", path,
            (u.dropWhile (fun c => c ≠ ch '?')).drop 1, []⟩ := by
  have hctl : stringContainsCTLByte (GOOGLEMAPS_URL ++ u) = stringContainsCTLByte u := by
    unfold stringContainsCTLByte
    rw [List.any_append]
    have : List.any GOOGLEMAPS_URL (fun b => decide (b < 32 ∨ b = 127)) = false := by decide
    rw [this, Bool.false_or]
  have hstar : GOOGLEMAPS_URL ++ u ≠ [ch '*'] := by
    intro h
    have := congrArg List.head? h
    revert this
    show some 104 = some 42 → False
    decide
  unfold parse
  rw [hctl]
  by_cases hc : stringContainsCTLByte u = true
  · simp [hc]
  · simp only [hc, if_false, if_neg hstar, Bool.false_eq_true]
    rw [url_split, List.append_assoc, getScheme_https]
    have hlow : ToLower (lit "https") = lit "https" := by decide
    simp only [cut_query, hlow]
    rw [rest_shape]
    simp only [List.head?_cons, List.drop_succ_cons, List.drop_zero, authority_take,
      authority_drop, parseAuthority_host]
    have h2 : List.take 2 (ch '/' :: ch '/' :: (lit "maps.googleapis.com" ++ (lit "/maps/api/"
        ++ List.takeWhile (fun c => decide (c ≠ ch '?')) u))) = lit "//" := rfl
    have h3 : lit "https" ≠ [] := by decide
    rw [if_neg (by simp), if_neg (by simp), if_pos ⟨Or.inl h3, h2⟩]

theorem Parse_googlemaps (y : GoString) :
    Parse (GOOGLEMAPS_URL ++ y) =
      match parse (GOOGLEMAPS_URL ++ y.takeWhile (fun c => c ≠ ch '#')) with
      | none => none
      | some url =>
        if (y.dropWhile (fun c => c ≠ ch '#')).drop 1 = [] then some url
        else
          match unescape ((y.dropWhile (fun c => c ≠ ch '#')).drop 1) encoding.encodeFragment with
          | none => none
          | some f => some { url with Fragment := f } := by
  unfold Parse Cut
  simp only []
  rw [List.takeWhile_append_of_pos (by decide), List.dropWhile_append_of_pos (by decide)]

theorem Parse_plain (x : GoString) (hx : plain x) :
    Parse (GOOGLEMAPS_URL ++ x ++ lit "?") =
      some ⟨lit "https", [], lit "maps.googleapis.com", lit "/maps/api/" ++ x, [], []⟩ := by
  have hnoHash : ∀ c ∈ x ++ lit "?", (fun c => decide (c ≠ ch '#')) c = true := by
    intro c hc
    rcases List.mem_append.1 hc with h | h
    · simpa using (hx c h).2.2.1
    · have : c = 63 := by simpa [lit] using h
      subst this; decide
  have htake : (x ++ lit "?").takeWhile (fun c => decide (c ≠ ch '#')) = x ++ lit "?" :=
    List.takeWhile_eq_self_iff.2 hnoHash
  have hdrop : (x ++ lit "?").dropWhile (fun c => decide (c ≠ ch '#')) = [] :=
    List.dropWhile_eq_nil_iff.2 hnoHash
  have hctl : stringContainsCTLByte (x ++ lit "?") = false := by
    unfold stringContainsCTLByte
    rw [List.any_eq_false]
    intro c hc
    rcases List.mem_append.1 hc with h | h
    · have := hx c h
      simp only [decide_eq_true_eq, not_or]
      omega
    · have : c = 63 := by simpa [lit] using h
      subst this; decide
  have hq : (x ++ lit "?").takeWhile (fun c => decide (c ≠ ch '?')) = x := by
    rw [List.takeWhile_append_of_pos (fun c hc => by simpa using (hx c hc).2.1)]
    simp [lit, List.takeWhile, ch]
  have hq2 : ((x ++ lit "?").dropWhile (fun c => decide (c ≠ ch '?'))).drop 1 = [] := by
    rw [List.dropWhile_append_of_pos (fun c hc => by simpa using (hx c hc).2.1)]
    simp [lit, List.dropWhile, ch]
  have hun : unescape (lit "/maps/api/" ++ x) encoding.encodePath = some (lit "/maps/api/" ++ x) := by
    apply unescape_path_clean
    intro c hc
    rcases List.mem_append.1 hc with h | h
    · have hall : ∀ d ∈ lit "/maps/api/", d ≠ ch '%' := by decide
      exact hall c h
    · exact (hx c h).1
  rw [List.append_assoc, Parse_googlemaps, htake, hdrop, parse_googlemaps, hctl, hq, hq2, hun]
  rfl

namespace Values

theorem Del_comm (v : Values) (a b : GoString) : (v.Del a).Del b = (v.Del b).Del a := by
  unfold Del
  rw [List.filter_filter, List.filter_filter]
  congr 1
  funext e
  exact Bool.and_comm _ _

theorem Del_Del (v : Values) (a : GoString) : (v.Del a).Del a = v.Del a := by
  unfold Del
  rw [List.filter_filter]
  congr 1
  funext e
  exact Bool.and_self _

theorem filter_update (v : Values) (k : GoString) (vs : List GoString) :
    List.filter (fun e => decide (e.1 ≠ k)) (v.map (fun e => if e.1 = k then (e.1, vs) else e))
      = List.filter (fun e => decide (e.1 ≠ k)) v := by
  induction v with
  | nil => rfl
  | cons e rest ih =>
    by_cases h : e.1 = k
    · rw [List.map_cons, if_pos h, List.filter_cons_of_neg (by simp [h]),
        List.filter_cons_of_neg (by simp [h]), ih]
    · rw [List.map_cons, if_neg h, List.filter_cons_of_pos (by simp [h]),
        List.filter_cons_of_pos (by simp [h]), ih]

theorem Del_set (v : Values) (k : GoString) (vs : List GoString) : (v.set k vs).Del k = v.Del k := by
  unfold set Del
  split
  · exact filter_update v k vs
  · rw [List.filter_append]
    simp

theorem Del_Add (v : Values) (k x : GoString) : (v.Add k x).Del k = v.Del k :=
  Del_set v k _

end Values

theorem stripReserved_idem (v : Values) : stripReserved (stripReserved v) = stripReserved v := by
  unfold stripReserved
  simp only [Values.Del_comm _ (lit "key") (lit "client"),
    Values.Del_comm _ (lit "signature") (lit "client"), Values.Del_Del,
    Values.Del_comm _ (lit "key") (lit "signature")]

theorem stripReserved_Add_client (v : Values) (x : GoString) :
    stripReserved (v.Add (lit "client") x) = stripReserved v := by
  unfold stripReserved
  rw [Values.Del_Add]

theorem stripReserved_Add_signature (v : Values) (x : GoString) :
    stripReserved (v.Add (lit "signature") x) = stripReserved v := by
  unfold stripReserved
  rw [Values.Del_comm _ (lit "client") (lit "signature"), Values.Del_Add,
    Values.Del_comm _ (lit "signature") (lit "client")]

theorem stripReserved_Add_key (v : Values) (x : GoString) :
    stripReserved (v.Add (lit "key") x) = stripReserved v := by
  unfold stripReserved
  rw [Values.Del_comm _ (lit "signature") (lit "key"), Values.Del_comm _ (lit "client") (lit "key"),
    Values.Del_Add, Values.Del_comm _ (lit "key") (lit "client"),
    Values.Del_comm _ (lit "key") (lit "signature")]

/-- The result of `constructQuery` depends on the parameter set only through
what the three `Del` calls leave of it. -/
theorem constructQuery_params (s : Service) (P : Values)
    (h : stripReserved P = stripReserved s.params) :
    constructQuery { s with params := P } = constructQuery s := by
  simp only [constructQuery, tempUrl, h]

namespace Values

theorem not_mem_keys_Del (v : Values) (k : GoString) : k ∉ keys (v.Del k) := by
  unfold keys Del
  intro h
  rcases List.mem_map.1 h with ⟨e, he, hk⟩
  have := (List.mem_filter.1 he).2
  simp [hk] at this

theorem not_mem_keys_Del_of (v : Values) (k j : GoString) (h : j ∉ keys v) : j ∉ keys (v.Del k) := by
  unfold keys Del at *
  intro hj
  rcases List.mem_map.1 hj with ⟨e, he, hk⟩
  exact h (List.mem_map.2 ⟨e, (List.mem_filter.1 he).1, hk⟩)

theorem any_eq_false_of_not_mem (v : Values) (k : GoString) (h : k ∉ keys v) :
    v.any (fun e => decide (e.1 = k)) = false := by
  rw [List.any_eq_false]
  intro e he
  have : e.1 ≠ k := fun hk => h (List.mem_map.2 ⟨e, he, hk⟩)
  simp [this]

theorem find_eq_none_of_not_mem (v : Values) (k : GoString) (h : k ∉ keys v) :
    v.find? (fun e => decide (e.1 = k)) = none := by
  rw [List.find?_eq_none]
  intro e he
  have : e.1 ≠ k := fun hk => h (List.mem_map.2 ⟨e, he, hk⟩)
  simp [this]

theorem lookup_of_not_mem (v : Values) (k : GoString) (h : k ∉ keys v) : lookup v k = [] := by
  unfold lookup
  rw [find_eq_none_of_not_mem v k h]

theorem Add_of_not_mem (v : Values) (k x : GoString) (h : k ∉ keys v) :
    v.Add k x = v ++ [(k, [x])] := by
  unfold Add set
  rw [any_eq_false_of_not_mem v k h, lookup_of_not_mem v k h]
  simp

theorem lookup_append_new (v : Values) (k : GoString) (vs : List GoString) (h : k ∉ keys v) :
    lookup (v ++ [(k, vs)]) k = vs := by
  unfold lookup
  rw [List.find?_append, find_eq_none_of_not_mem v k h]
  simp

theorem lookup_append_other (v : Values) (k j : GoString) (vs : List GoString) (h : j ≠ k) :
    lookup (v ++ [(k, vs)]) j = lookup v j := by
  unfold lookup
  rw [List.find?_append]
  cases hf : v.find? (fun e => decide (e.1 = j)) with
  | some e => simp
  | none => simp [List.find?, h.symm]

theorem keys_append (v w : Values) : keys (v ++ w) = keys v ++ keys w := by
  unfold keys
  rw [List.map_append]

end Values

theorem client_not_mem_strip (v : Values) : lit "client" ∉ Values.keys (stripReserved v) := by
  unfold stripReserved
  exact Values.not_mem_keys_Del_of _ _ _ (Values.not_mem_keys_Del_of _ _ _ (Values.not_mem_keys_Del _ _))

theorem signature_not_mem_strip (v : Values) : lit "signature" ∉ Values.keys (stripReserved v) := by
  unfold stripReserved
  exact Values.not_mem_keys_Del_of _ _ _ (Values.not_mem_keys_Del _ _)

theorem key_not_mem_strip (v : Values) : lit "key" ∉ Values.keys (stripReserved v) := by
  unfold stripReserved
  exact Values.not_mem_keys_Del _ _

theorem constructQuery_service (s : Service) :
    ∃ P, (constructQuery s).service = { s with params := P } ∧
      stripReserved P = stripReserved s.params := by
  unfold constructQuery
  simp only []
  split
  · split
    · split
      · exact ⟨_, rfl, stripReserved_idem _⟩
      · split
        · exact ⟨_, rfl, by rw [stripReserved_Add_client, stripReserved_idem]⟩
        · split
          · exact ⟨_, rfl, by rw [stripReserved_Add_client, stripReserved_idem]⟩
          · exact ⟨_, rfl, by
              rw [stripReserved_Add_signature, stripReserved_Add_client, stripReserved_idem]⟩
    · split
      · split
        · exact ⟨_, rfl, stripReserved_idem _⟩
        · exact ⟨_, rfl, by rw [stripReserved_Add_key, stripReserved_idem]⟩
      · exact ⟨_, rfl, stripReserved_idem _⟩
  · exact ⟨_, rfl, stripReserved_idem _⟩

theorem constructQuery_twice (s : Service) :
    constructQuery (constructQuery s).service = constructQuery s := by
  obtain ⟨P, hP, hs⟩ := constructQuery_service s
  rw [hP]
  exact constructQuery_params s P hs

theorem strLess_asymm : ∀ a b : GoString, strLess a b = true → strLess b a = false
  | [], [] => by simp [strLess]
  | [], _ :: _ => by simp [strLess]
  | _ :: _, [] => by simp [strLess]
  | x :: as, y :: bs => by
    have ih := strLess_asymm as bs
    simp only [strLess]
    split_ifs <;> first | omega | simp | exact ih

theorem strLess_antisymm : ∀ a b : GoString, strLess a b = false → strLess b a = false → a = b
  | [], [] => by simp
  | [], _ :: _ => by simp [strLess]
  | _ :: _, [] => by simp [strLess]
  | x :: as, y :: bs => by
    have ih := strLess_antisymm as bs
    simp only [strLess]
    split_ifs with h1 h2 h3 <;> first | omega | simp
    intro ha hb
    have : x = y := by omega
    exact ⟨this, ih ha hb⟩

theorem strLess_trans : ∀ a b c : GoString, strLess a b = true → strLess b c = true →
    strLess a c = true
  | [], b, [] => by
    intro _ hbc
    cases b <;> simp [strLess] at hbc
  | [], _, _ :: _ => by simp [strLess]
  | _ :: _, [], _ => by simp [strLess]
  | _ :: _, _ :: _, [] => by simp [strLess]
  | x :: as, y :: bs, z :: cs => by
    have ih := strLess_trans as bs cs
    simp only [strLess]
    split_ifs <;> first | omega | simp | exact ih

theorem strLess_total (a b : GoString) : strLess b a = false ∨ strLess a b = false := by
  cases h : strLess b a
  · exact Or.inl rfl
  · exact Or.inr (strLess_asymm b a h)

/-- Negated transitivity: the order `a ≤ b` that `sortStrings` sorts by is transitive. -/
theorem strLe_trans (a b c : GoString) (hab : strLess b a = false) (hbc : strLess c b = false) :
    strLess c a = false := by
  cases hca : strLess c a
  · rfl
  · -- c < a; compare a and b
    cases hab2 : strLess a b
    · have : a = b := strLess_antisymm a b hab2 hab
      subst this
      rw [hca] at hbc
      exact absurd hbc (by simp)
    · have := strLess_trans c a b hca hab2
      rw [this] at hbc
      exact absurd hbc (by simp)

theorem sortStrings_perm (l₁ l₂ : List GoString) (h : l₁.Perm l₂) :
    sortStrings l₁ = sortStrings l₂ := by
  unfold sortStrings
  haveI : IsTotal GoString (fun a b => strLess b a = false) := ⟨fun a b => strLess_total a b⟩
  haveI : IsTrans GoString (fun a b => strLess b a = false) := ⟨fun a b c => strLe_trans a b c⟩
  haveI : IsAntisymm GoString (fun a b => strLess b a = false) :=
    ⟨fun a b hab hba => strLess_antisymm a b hba hab⟩
  exact List.eq_of_perm_of_sorted
    (((List.perm_insertionSort _ l₁).trans h).trans (List.perm_insertionSort _ l₂).symm)
    (List.sorted_insertionSort (fun a b => strLess b a = false) l₁)
    (List.sorted_insertionSort (fun a b => strLess b a = false) l₂)

theorem mem_sortStrings (l : List GoString) (k : GoString) : k ∈ sortStrings l ↔ k ∈ l :=
  (List.perm_insertionSort _ l).mem_iff

namespace Values

theorem foldl_congr_mem {α β : Type} (f g : β → α → β) (l : List α) (b : β)
    (h : ∀ b, ∀ a ∈ l, f b a = g b a) : l.foldl f b = l.foldl g b := by
  induction l generalizing b with
  | nil => rfl
  | cons a rest ih =>
    rw [List.foldl_cons, List.foldl_cons, h b a (List.mem_cons_self _ _)]
    exact ih _ (fun b x hx => h b x (List.mem_cons_of_mem _ hx))

theorem Encode_equiv (v w : Values) (h : Values.equiv v w) : Encode v = Encode w := by
  unfold Encode
  rw [sortStrings_perm _ _ h.1]
  apply foldl_congr_mem
  intro b k _
  rw [h.2 k]

theorem keys_Del (v : Values) (k : GoString) :
    keys (v.Del k) = (keys v).filter (fun j => decide (j ≠ k)) := by
  unfold keys Del
  rw [List.filter_map]
  rfl

theorem WF_Del (v : Values) (k : GoString) (h : WF v) : WF (v.Del k) := by
  unfold WF at *
  rw [keys_Del]
  exact h.filter _

theorem mem_keys_Del (v : Values) (k j : GoString) : j ∈ keys (v.Del k) ↔ j ∈ keys v ∧ j ≠ k := by
  rw [keys_Del, List.mem_filter]
  simp

theorem lookup_Del_other (v : Values) (k j : GoString) (h : j ≠ k) :
    lookup (v.Del k) j = lookup v j := by
  unfold lookup Del
  induction v with
  | nil => rfl
  | cons e rest ih =>
    by_cases hk : e.1 = k
    · have hj : e.1 ≠ j := fun hh => h (hh ▸ hk)
      rw [List.filter_cons_of_neg (by simp [hk]), List.find?_cons_of_neg _ (by simp [hj])]
      exact ih
    · rw [List.filter_cons_of_pos (by simp [hk])]
      by_cases hj : e.1 = j
      · rw [List.find?_cons_of_pos _ (by simp [hj]), List.find?_cons_of_pos _ (by simp [hj])]
      · rw [List.find?_cons_of_neg _ (by simp [hj]), List.find?_cons_of_neg _ (by simp [hj])]
        exact ih

theorem lookup_Del_self (v : Values) (k : GoString) : lookup (v.Del k) k = [] :=
  lookup_of_not_mem _ _ (not_mem_keys_Del v k)

theorem equiv_append_new (v w : Values) (k : GoString) (vs : List GoString) (h : equiv v w)
    (hk : k ∉ keys v) : equiv (v ++ [(k, vs)]) (w ++ [(k, vs)]) := by
  have hk2 : k ∉ keys w := fun hh => hk (h.1.mem_iff.2 hh)
  refine ⟨?_, ?_⟩
  · rw [keys_append, keys_append]
    exact h.1.append_right _
  · intro j
    by_cases hj : j = k
    · subst hj
      rw [lookup_append_new v j vs hk, lookup_append_new w j vs hk2]
    · rw [lookup_append_other v k j vs hj, lookup_append_other w k j vs hj]
      exact h.2 j

theorem equiv_Add_new (v w : Values) (k x : GoString) (h : equiv v w) (hk : k ∉ keys v) :
    equiv (v.Add k x) (w.Add k x) := by
  have hk2 : k ∉ keys w := fun hh => hk (h.1.mem_iff.2 hh)
  rw [Add_of_not_mem v k x hk, Add_of_not_mem w k x hk2]
  exact equiv_append_new v w k _ h hk

end Values

theorem mem_keys_strip (v : Values) (k : GoString) :
    k ∈ Values.keys (stripReserved v) ↔ k ∈ Values.keys v ∧ ¬ reserved k := by
  unfold stripReserved reserved
  rw [Values.mem_keys_Del, Values.mem_keys_Del, Values.mem_keys_Del]
  tauto

theorem lookup_strip (v : Values) (k : GoString) (h : ¬ reserved k) :
    Values.lookup (stripReserved v) k = Values.lookup v k := by
  unfold reserved at h
  unfold stripReserved
  rw [Values.lookup_Del_other _ _ _ (fun hh => h (Or.inr (Or.inr hh))),
    Values.lookup_Del_other _ _ _ (fun hh => h (Or.inr (Or.inl hh))),
    Values.lookup_Del_other _ _ _ (fun hh => h (Or.inl hh))]

theorem lookup_strip_reserved (v : Values) (k : GoString) (h : reserved k) :
    Values.lookup (stripReserved v) k = [] := by
  apply Values.lookup_of_not_mem
  rw [mem_keys_strip]
  tauto

theorem WF_strip (v : Values) (h : Values.WF v) : Values.WF (stripReserved v) := by
  unfold stripReserved
  exact Values.WF_Del _ _ (Values.WF_Del _ _ (Values.WF_Del _ _ h))

theorem equiv_strip (P Q : Values) (hP : Values.WF P) (hQ : Values.WF Q)
    (h : ∀ k, ¬ reserved k → (k ∈ Values.keys P ↔ k ∈ Values.keys Q) ∧
      Values.lookup P k = Values.lookup Q k) :
    Values.equiv (stripReserved P) (stripReserved Q) := by
  refine ⟨?_, ?_⟩
  · rw [List.perm_ext_iff_of_nodup (WF_strip P hP) (WF_strip Q hQ)]
    intro k
    rw [mem_keys_strip, mem_keys_strip]
    by_cases hk : reserved k
    · tauto
    · have := (h k hk).1
      tauto
  · intro k
    by_cases hk : reserved k
    · rw [lookup_strip_reserved P k hk, lookup_strip_reserved Q k hk]
    · rw [lookup_strip P k hk, lookup_strip Q k hk]
      exact (h k hk).2

theorem inStdAlphabet_of_decodeMap (c v : Nat) (h : decodeMap c = some v) :
    inStdAlphabet c = true ∧ c ≠ ch '=' := by
  unfold decodeMap at h
  simp only [ch] at h
  have hc : (65 ≤ c ∧ c ≤ 90) ∨ (97 ≤ c ∧ c ≤ 122) ∨ (48 ≤ c ∧ c ≤ 57) ∨ c = 43 ∨ c = 47 := by
    by_contra hn
    simp only [not_or] at hn
    obtain ⟨h1, h2, h3, h4, h5⟩ := hn
    have e1 : ('A'.toNat ≤ c ∧ c ≤ 'Z'.toNat) = (65 ≤ c ∧ c ≤ 90) := rfl
    have e2 : ('a'.toNat ≤ c ∧ c ≤ 'z'.toNat) = (97 ≤ c ∧ c ≤ 122) := rfl
    have e3 : ('0'.toNat ≤ c ∧ c ≤ '9'.toNat) = (48 ≤ c ∧ c ≤ 57) := rfl
    have e4 : (c = '+'.toNat) = (c = 43) := rfl
    have e5 : (c = '/'.toNat) = (c = 47) := rfl
    simp only [e1, e2, e3, e4, e5] at h
    rw [if_neg h1, if_neg h2, if_neg h3, if_neg h4, if_neg h5] at h
    exact absurd h (by simp)
  rcases hc with ⟨h1, h2⟩ | ⟨h1, h2⟩ | ⟨h1, h2⟩ | h1 | h1
  · interval_cases c <;> decide
  · interval_cases c <;> decide
  · interval_cases c <;> decide
  · subst h1; decide
  · subst h1; decide

theorem decodeMap_pad : decodeMap (ch '=') = none := by decide

theorem valid_cons4 (a b c d : Nat) (rest : GoString)
    (ha : inStdAlphabet a = true ∧ a ≠ ch '=') (hb : inStdAlphabet b = true ∧ b ≠ ch '=')
    (hc : inStdAlphabet c = true ∧ c ≠ ch '=') (hd : inStdAlphabet d = true ∧ d ≠ ch '=')
    (h : validStdBase64 rest = true) : validStdBase64 (a :: b :: c :: d :: rest) = true := by
  unfold validStdBase64 at *
  simp only [decide_eq_true_eq, Bool.and_eq_true, Bool.or_eq_true, Bool.decide_and,
    Bool.decide_or] at h ⊢
  have ta : ∀ (x : Nat) (l : GoString), x ≠ ch '=' →
      List.takeWhile (fun c => decide (c ≠ ch '=')) (x :: l)
        = x :: List.takeWhile (fun c => decide (c ≠ ch '=')) l := by
    intro x l hx
    rw [List.takeWhile_cons_of_pos (by simpa using hx)]
  have da : ∀ (x : Nat) (l : GoString), x ≠ ch '=' →
      List.dropWhile (fun c => decide (c ≠ ch '=')) (x :: l)
        = List.dropWhile (fun c => decide (c ≠ ch '=')) l := by
    intro x l hx
    rw [List.dropWhile_cons_of_pos (by simpa using hx)]
  rw [ta a _ ha.2, ta b _ hb.2, ta c _ hc.2, ta d _ hd.2, da a _ ha.2, da b _ hb.2, da c _ hc.2,
    da d _ hd.2]
  refine ⟨?_, ?_, h.2.2⟩
  · have := h.1
    simp only [List.length_cons]
    omega
  · simp only [List.all_cons, Bool.and_eq_true]
    exact ⟨ha.1, hb.1, hc.1, hd.1, h.2.1⟩

theorem decode_valid : ∀ (x : GoString) (bytes : List Nat), decode x = some bytes →
    validStdBase64 x = true
  | [], _, _ => by decide
  | [_], _, h => by simp [decode] at h
  | [_, _], _, h => by simp [decode] at h
  | [_, _, _], _, h => by simp [decode] at h
  | a :: b :: c :: d :: rest, bytes, h => by
    rw [decode] at h
    cases ha : decodeMap a with
    | none => simp [ha] at h
    | some x =>
      cases hb : decodeMap b with
      | none => simp [ha, hb] at h
      | some y =>
        simp only [ha, hb] at h
        have va := inStdAlphabet_of_decodeMap a x ha
        have vb := inStdAlphabet_of_decodeMap b y hb
        by_cases hc : c = ch '='
        · rw [if_pos hc] at h
          by_cases hd : d = ch '=' ∧ rest = []
          · obtain ⟨hd1, hd2⟩ := hd
            subst hc hd1 hd2
            unfold validStdBase64
            rw [List.takeWhile_cons_of_pos (by simpa using va.2),
              List.takeWhile_cons_of_pos (by simpa using vb.2),
              List.dropWhile_cons_of_pos (by simpa using va.2),
              List.dropWhile_cons_of_pos (by simpa using vb.2)]
            have t : List.takeWhile (fun c => decide (c ≠ ch '=')) [ch '=', ch '='] = [] := by
              decide
            have dd : List.dropWhile (fun c => decide (c ≠ ch '=')) [ch '=', ch '=']
                = lit "==" := by decide
            rw [t, dd]
            simp [va.1, vb.1]
          · rw [if_neg hd] at h
            exact absurd h (by simp)
        · rw [if_neg hc] at h
          cases hcm : decodeMap c with
          | none => simp [hcm] at h
          | some z =>
            simp only [hcm] at h
            have vc := inStdAlphabet_of_decodeMap c z hcm
            by_cases hd : d = ch '='
            · rw [if_pos hd] at h
              by_cases hr : rest = []
              · subst hd hr
                unfold validStdBase64
                rw [List.takeWhile_cons_of_pos (by simpa using va.2),
                  List.takeWhile_cons_of_pos (by simpa using vb.2),
                  List.takeWhile_cons_of_pos (by simpa using vc.2),
                  List.dropWhile_cons_of_pos (by simpa using va.2),
                  List.dropWhile_cons_of_pos (by simpa using vb.2),
                  List.dropWhile_cons_of_pos (by simpa using vc.2)]
                have t : List.takeWhile (fun c => decide (c ≠ ch '=')) [ch '='] = [] := by
                  decide
                have dd : List.dropWhile (fun c => decide (c ≠ ch '=')) [ch '=']
                    = lit "=" := by decide
                rw [t, dd]
                simp [va.1, vb.1, vc.1]
              · rw [if_neg hr] at h
                exact absurd h (by simp)
            · rw [if_neg hd] at h
              cases hdm : decodeMap d with
              | none => simp [hdm] at h
              | some w =>
                simp only [hdm] at h
                have vd := inStdAlphabet_of_decodeMap d w hdm
                cases hrest : decode rest with
                | none => simp [hrest] at h
                | some t =>
                  exact valid_cons4 a b c d rest va vb vc vd (decode_valid rest t hrest)

/-- What the decoder accepts is valid padded standard base64 once carriage
returns and line feeds are dropped. -/
theorem DecodeString_valid (s : GoString) (bytes : List Nat) (h : DecodeString s = some bytes) :
    validStdBase64 (s.filter (fun c => c ≠ 10 ∧ c ≠ 13)) = true :=
  decode_valid _ bytes h

theorem decodeMap_of_inStdAlphabet (c : Nat) (h : inStdAlphabet c = true) :
    ∃ v, decodeMap c = some v := by
  have hall : ∀ d ∈ lit "ABCDEFGHIJKLMNOPQRSTUVWXYZabcdefghijklmnopqrstuvwxyz0123456789+/",
      (decodeMap d).isSome = true := by decide
  have hm : c ∈ lit "ABCDEFGHIJKLMNOPQRSTUVWXYZabcdefghijklmnopqrstuvwxyz0123456789+/" := by
    simpa [inStdAlphabet] using h
  exact Option.isSome_iff_exists.1 (hall c hm)

theorem valid_decode : ∀ (x : GoString), validStdBase64 x = true → ∃ bytes, decode x = some bytes
  | [], _ => ⟨[], rfl⟩
  | [_], h => by simp [validStdBase64] at h
  | [_, _], h => by simp [validStdBase64] at h
  | [_, _, _], h => by simp [validStdBase64] at h
  | a :: b :: c :: d :: rest, h => by
    unfold validStdBase64 at h
    simp only [decide_eq_true_eq, Bool.and_eq_true, Bool.or_eq_true, Bool.decide_and,
      Bool.decide_or] at h
    obtain ⟨hlen, hall, hpad⟩ := h
    have hlit1 : lit "=" = [ch '='] := rfl
    have hlit2 : lit "==" = [ch '=', ch '='] := rfl
    rw [hlit1, hlit2] at hpad
    have hrlen : rest.length % 4 = 0 := by
      simp only [List.length_cons] at hlen
      omega
    by_cases ha : a = ch '='
    · rw [List.dropWhile_cons_of_neg (by simp [ha])] at hpad
      simp at hpad
    rw [List.takeWhile_cons_of_pos (by simpa using ha), List.all_cons, Bool.and_eq_true] at hall
    rw [List.dropWhile_cons_of_pos (by simpa using ha)] at hpad
    obtain ⟨x, hx⟩ := decodeMap_of_inStdAlphabet a hall.1
    by_cases hb : b = ch '='
    · rw [List.dropWhile_cons_of_neg (by simp [hb])] at hpad
      simp at hpad
    have hall2 := hall.2
    rw [List.takeWhile_cons_of_pos (by simpa using hb), List.all_cons, Bool.and_eq_true] at hall2
    rw [List.dropWhile_cons_of_pos (by simpa using hb)] at hpad
    obtain ⟨y, hy⟩ := decodeMap_of_inStdAlphabet b hall2.1
    by_cases hc : c = ch '='
    · rw [List.dropWhile_cons_of_neg (by simp [hc])] at hpad
      have hd : d = ch '=' ∧ rest = [] := by
        have : c = ch '=' ∧ d = ch '=' ∧ rest = [] := by simpa using hpad
        exact this.2
      rw [decode]
      simp [hx, hy, hc, hd.1, hd.2]
    have hall3 := hall2.2
    rw [List.takeWhile_cons_of_pos (by simpa using hc), List.all_cons, Bool.and_eq_true] at hall3
    rw [List.dropWhile_cons_of_pos (by simpa using hc)] at hpad
    obtain ⟨z, hz⟩ := decodeMap_of_inStdAlphabet c hall3.1
    by_cases hd : d = ch '='
    · rw [List.dropWhile_cons_of_neg (by simp [hd])] at hpad
      have hr : rest = [] := by
        rcases hpad with h1 | h1 | h1
        · simp at h1
        · have : d = ch '=' ∧ rest = [] := by simpa using h1
          exact this.2
        · have hl := congrArg List.length h1
          simp only [List.length_cons, List.length_nil] at hl
          omega
      rw [decode]
      simp [hx, hy, hz, hc, hd, hr]
    have hall4 := hall3.2
    rw [List.takeWhile_cons_of_pos (by simpa using hd), List.all_cons, Bool.and_eq_true] at hall4
    rw [List.dropWhile_cons_of_pos (by simpa using hd)] at hpad
    obtain ⟨w, hw⟩ := decodeMap_of_inStdAlphabet d hall4.1
    have hvrest : validStdBase64 rest = true := by
      unfold validStdBase64
      simp only [decide_eq_true_eq, Bool.and_eq_true, Bool.or_eq_true, Bool.decide_and,
        Bool.decide_or]
      rw [hlit1, hlit2]
      exact ⟨hrlen, hall4.2, hpad⟩
    obtain ⟨t, ht⟩ := valid_decode rest hvrest
    rw [decode]
    simp [hx, hy, hz, hw, hc, hd, ht]

/-- The decoder accepts exactly the texts that are valid padded standard
base64 once carriage returns and line feeds are dropped. -/
theorem DecodeString_isSome_iff (s : GoString) :
    (DecodeString s).isSome = true ↔
      validStdBase64 (s.filter (fun c => c ≠ 10 ∧ c ≠ 13)) = true := by
  constructor
  · intro h
    obtain ⟨bytes, hb⟩ := Option.isSome_iff_exists.1 h
    exact DecodeString_valid s bytes hb
  · intro h
    obtain ⟨bytes, hb⟩ := valid_decode _ h
    exact Option.isSome_iff_exists.2 ⟨bytes, hb⟩

theorem filter_eq_nil_of_not_mem (v : Values) (k : GoString) (h : k ∉ Values.keys v) :
    v.filter (fun e => decide (e.1 = k)) = [] := by
  rw [List.filter_eq_nil_iff]
  intro e he
  have : e.1 ≠ k := fun hk => h (List.mem_map.2 ⟨e, he, hk⟩)
  simp [this]

theorem filter_append_new (v : Values) (k : GoString) (vs : List GoString)
    (h : k ∉ Values.keys v) :
    (v ++ [(k, vs)]).filter (fun e => decide (e.1 = k)) = [(k, vs)] := by
  rw [List.filter_append, filter_eq_nil_of_not_mem v k h]
  simp

theorem filter_append_other (v : Values) (k j : GoString) (vs : List GoString) (h : k ≠ j) :
    (v ++ [(k, vs)]).filter (fun e => decide (e.1 = j)) = v.filter (fun e => decide (e.1 = j)) := by
  rw [List.filter_append]
  simp [h]

theorem not_mem_keys_append (v : Values) (k j : GoString) (vs : List GoString)
    (h : j ∉ Values.keys v) (hne : j ≠ k) : j ∉ Values.keys (v ++ [(k, vs)]) := by
  rw [Values.keys_append]
  intro hm
  rcases List.mem_append.1 hm with h1 | h1
  · exact h h1
  · have : j = k := by simpa [Values.keys] using h1
    exact hne this

theorem client_ne_signature : lit "client" ≠ lit "signature" := by decide

theorem client_ne_key : lit "client" ≠ lit "key" := by decide

theorem signature_ne_key : lit "signature" ≠ lit "key" := by decide

/-- The parameter set with `client` added, as an explicit list. -/
theorem clientParams_eq (v : Values) (x : GoString) :
    (stripReserved v).Add (lit "client") x = stripReserved v ++ [(lit "client", [x])] :=
  Values.Add_of_not_mem _ _ _ (client_not_mem_strip v)

theorem signature_not_mem_clientParams (v : Values) (x : GoString) :
    lit "signature" ∉ Values.keys ((stripReserved v).Add (lit "client") x) := by
  rw [clientParams_eq]
  exact not_mem_keys_append _ _ _ _ (signature_not_mem_strip v) (Ne.symm client_ne_signature)

theorem signedParams_eq (v : Values) (x y : GoString) :
    ((stripReserved v).Add (lit "client") x).Add (lit "signature") y
      = stripReserved v ++ [(lit "client", [x])] ++ [(lit "signature", [y])] := by
  rw [Values.Add_of_not_mem _ _ _ (signature_not_mem_clientParams v x), clientParams_eq]

theorem keyParams_eq (v : Values) (x : GoString) :
    (stripReserved v).Add (lit "key") x = stripReserved v ++ [(lit "key", [x])] :=
  Values.Add_of_not_mem _ _ _ (key_not_mem_strip v)

/-- The values returned by `constructQuery` are the same for two parameter
sets whose stripped versions stand for the same map. -/
theorem constructQuery_equiv (s : Service) (P Q : Values)
    (h : Values.equiv (stripReserved P) (stripReserved Q)) :
    (constructQuery { s with params := P }).url = (constructQuery { s with params := Q }).url ∧
    (constructQuery { s with params := P }).err = (constructQuery { s with params := Q }).err ∧
    (constructQuery { s with params := P }).signed
      = (constructQuery { s with params := Q }).signed := by
  have e0 : (stripReserved P).Encode = (stripReserved Q).Encode := Values.Encode_equiv _ _ h
  have h1 : Values.equiv ((stripReserved P).Add (lit "client") s.clientId)
      ((stripReserved Q).Add (lit "client") s.clientId) :=
    Values.equiv_Add_new _ _ _ _ h (client_not_mem_strip P)
  have e1 := Values.Encode_equiv _ _ h1
  have e2 : ∀ sig, (((stripReserved P).Add (lit "client") s.clientId).Add (lit "signature")
      sig).Encode = (((stripReserved Q).Add (lit "client") s.clientId).Add (lit "signature")
      sig).Encode := fun sig =>
    Values.Encode_equiv _ _
      (Values.equiv_Add_new _ _ _ _ h1 (signature_not_mem_clientParams P s.clientId))
  have e3 : ((stripReserved P).Add (lit "key") s.apiKey).Encode
      = ((stripReserved Q).Add (lit "key") s.apiKey).Encode :=
    Values.Encode_equiv _ _ (Values.equiv_Add_new _ _ _ _ h (key_not_mem_strip P))
  unfold constructQuery
  simp only [tempUrl, e0, e1, e2, e3]
  split
  · split
    · split
      · exact ⟨rfl, rfl, rfl⟩
      · split
        · exact ⟨rfl, rfl, rfl⟩
        · split
          · exact ⟨rfl, rfl, rfl⟩
          · exact ⟨rfl, rfl, rfl⟩
    · split
      · split
        · exact ⟨rfl, rfl, rfl⟩
        · exact ⟨rfl, rfl, rfl⟩
      · exact ⟨rfl, rfl, rfl⟩
  · exact ⟨rfl, rfl, rfl⟩

/-- One step of the buffer in `Values.Encode`. -/
theorem encodeStep_nonempty (buf item : GoString) (hb : buf ≠ []) :
    (if buf.length > 0 then buf ++ [ch '&'] else buf) ++ item = buf ++ [ch '&'] ++ item := by
  have : buf.length > 0 := List.length_pos.2 hb
  rw [if_pos this]

theorem foldl_step_nonempty (items : List GoString) (buf : GoString) (hb : buf ≠ []) :
    items.foldl (fun buf item => (if buf.length > 0 then buf ++ [ch '&'] else buf) ++ item) buf
      = joinAmp (buf :: items) := by
  induction items generalizing buf with
  | nil => rfl
  | cons x rest ih =>
    rw [List.foldl_cons, encodeStep_nonempty buf x hb, ih _ (by simp)]
    cases rest with
    | nil => simp [joinAmp]
    | cons y r => simp [joinAmp]

theorem foldl_step_nil (items : List GoString) (hne : ∀ x ∈ items, x ≠ []) :
    items.foldl (fun buf item => (if buf.length > 0 then buf ++ [ch '&'] else buf) ++ item) []
      = joinAmp items := by
  cases items with
  | nil => rfl
  | cons x rest =>
    rw [List.foldl_cons]
    have hx : x ≠ [] := hne x (List.mem_cons_self _ _)
    simp only [List.length_nil, gt_iff_lt, lt_self_iff_false, if_false, List.nil_append]
    exact foldl_step_nonempty rest x hx

theorem encodeKey_eq (buf ke : GoString) (vs : List GoString) :
    Values.encodeKey buf ke vs =
      (vs.map (fun v => ke ++ [ch '='] ++ QueryEscape v)).foldl
        (fun buf item => (if buf.length > 0 then buf ++ [ch '&'] else buf) ++ item) buf := by
  unfold Values.encodeKey
  rw [List.foldl_map]
  congr 1
  funext b v
  simp only [List.append_assoc]

theorem foldl_flatMap_aux {α β γ : Type} (f : γ → β → γ) (g : α → List β) (l : List α) (c : γ) :
    (l.flatMap g).foldl f c = l.foldl (fun c a => (g a).foldl f c) c := by
  induction l generalizing c with
  | nil => rfl
  | cons a rest ih =>
    rw [List.flatMap_cons, List.foldl_append, List.foldl_cons, ih]

/-- The query that `Values.Encode` returns is the pairs of the parameter set,
each written as escaped name, `=`, escaped value, joined by `&`. -/
theorem Encode_eq_pairs (v : Values) :
    Values.Encode v = joinAmp ((Values.pairs v).map renderPair) := by
  unfold Values.Encode Values.pairs
  rw [List.map_flatMap]
  rw [← foldl_step_nil]
  · rw [foldl_flatMap_aux]
    congr 1
    funext buf k
    rw [encodeKey_eq, List.map_map]
    rfl
  · intro x hx
    rcases List.mem_flatMap.1 hx with ⟨k, _, hk⟩
    rcases List.mem_map.1 hk with ⟨p, _, hp⟩
    rw [← hp]
    simp [renderPair]

theorem mem_pairs_key (v : Values) (p : GoString × GoString) (h : p ∈ Values.pairs v) :
    p.1 ∈ Values.keys v := by
  unfold Values.pairs at h
  rcases List.mem_flatMap.1 h with ⟨k, hk, hp⟩
  rcases List.mem_map.1 hp with ⟨x, _, hx⟩
  rw [← hx]
  exact (mem_sortStrings _ _).1 hk

theorem filter_flatMap_key (l : List GoString) (f : GoString → List GoString) (k : GoString) :
    (l.flatMap (fun j => (f j).map (fun x => (j, x)))).filter (fun p => decide (p.1 = k))
      = (l.filter (fun j => decide (j = k))).flatMap (fun j => (f j).map (fun x => (j, x))) := by
  induction l with
  | nil => rfl
  | cons j rest ih =>
    rw [List.flatMap_cons, List.filter_append, ih]
    by_cases hj : j = k
    · rw [List.filter_cons_of_pos (by simp [hj]), List.flatMap_cons]
      congr 1
      rw [List.filter_eq_self]
      intro p hp
      rcases List.mem_map.1 hp with ⟨x, _, hx⟩
      rw [← hx]
      simp [hj]
    · rw [List.filter_cons_of_neg (by simp [hj])]
      have : List.filter (fun p => decide (p.1 = k)) ((f j).map (fun x => (j, x))) = [] := by
        rw [List.filter_eq_nil_iff]
        intro p hp
        rcases List.mem_map.1 hp with ⟨x, _, hx⟩
        rw [← hx]
        simp [hj]
      rw [this, List.nil_append]

theorem filter_eq_replicate_count (l : List GoString) (k : GoString) :
    l.filter (fun j => decide (j = k)) = List.replicate (l.count k) k := by
  induction l with
  | nil => rfl
  | cons a rest ih =>
    by_cases ha : a = k
    · rw [List.filter_cons_of_pos (by simp [ha]), ih, ha, List.count_cons_self,
        List.replicate_succ]
    · rw [List.filter_cons_of_neg (by simp [ha]), ih, List.count_cons_of_ne (Ne.symm ha)]

/-- The pairs under a name that the map holds once are the values stored under
that name, in their order. -/
theorem pairs_filter_key (v : Values) (k : GoString) (h : (Values.keys v).count k = 1) :
    (Values.pairs v).filter (fun p => decide (p.1 = k))
      = (Values.lookup v k).map (fun x => (k, x)) := by
  unfold Values.pairs
  rw [filter_flatMap_key]
  have hperm : (sortStrings (Values.keys v)).Perm (Values.keys v) := by
    unfold sortStrings
    exact List.perm_insertionSort _ _
  have hf : (sortStrings (Values.keys v)).filter (fun j => decide (j = k)) = [k] := by
    rw [← List.perm_singleton]
    refine (hperm.filter _).trans ?_
    rw [filter_eq_replicate_count, h]
    exact List.Perm.refl _
  rw [hf]
  simp

theorem count_keys_append_new (v : Values) (k : GoString) (vs : List GoString)
    (h : k ∉ Values.keys v) : (Values.keys (v ++ [(k, vs)])).count k = 1 := by
  rw [Values.keys_append, List.count_append, List.count_eq_zero_of_not_mem h]
  simp [Values.keys]

theorem count_keys_append_other (v : Values) (k j : GoString) (vs : List GoString) (h : k ≠ j) :
    (Values.keys (v ++ [(k, vs)])).count j = (Values.keys v).count j := by
  rw [Values.keys_append, List.count_append]
  have : List.count j (Values.keys [(k, vs)]) = 0 :=
    List.count_eq_zero_of_not_mem (by simp [Values.keys, Ne.symm h])
  rw [this, Nat.add_zero]

theorem inSlice_three (key a b c : GoString) :
    inSlice key [a, b, c] = true ↔ key = a ∨ key = b ∨ key = c := by
  simp only [inSlice]
  by_cases h1 : a = key
  · simp [h1]
  · by_cases h2 : b = key
    · simp [h1, h2]
    · by_cases h3 : c = key
      · simp [h1, h2, h3]
      · simp [h1, h2, h3, Ne.symm h1, Ne.symm h2, Ne.symm h3]

theorem inSlice_two (key a b : GoString) :
    inSlice key [a, b] = true ↔ key = a ∨ key = b := by
  simp only [inSlice]
  by_cases h1 : a = key
  · simp [h1]
  · by_cases h2 : b = key
    · simp [h1, h2]
    · simp [h1, h2, Ne.symm h1, Ne.symm h2]

theorem NewService_ok (sPath rMethod aType : GoString)
    (h : (rMethod = lit "GET" ∨ rMethod = lit "POST") ∧
      (aType = lit "" ∨ aType = lit "key" ∨ aType = lit "client")) :
    NewService sPath rMethod aType =
      (some { servicePath := sPath, requestMethod := rMethod, requestType := lit "json",
              authType := aType, apiKey := [], clientId := [], clientSecret := [],
              business := decide (aType ≠ lit ""), params := [] }, none) := by
  obtain ⟨h1, h2⟩ := h
  have hj : inSlice GOOGLEMAPS_RESPONSE_JSON
      [GOOGLEMAPS_RESPONSE_XML, GOOGLEMAPS_RESPONSE_JSON] = true := by decide
  have h1s : inSlice rMethod [lit "POST", lit "GET"] = true :=
    (inSlice_two rMethod (lit "POST") (lit "GET")).2 (Or.symm h1)
  have h2s := (inSlice_three aType GOOGLEMAPS_AUTH_EMPTY GOOGLEMAPS_AUTH_KEY
    GOOGLEMAPS_AUTH_CLIENT).2 h2
  simp only [NewService, setRequestType, SetRequestMethod, SetAuthType, hj, h1s, h2s,
    Bool.not_true, Bool.false_eq_true, if_false]
  rfl

theorem NewService_bad (sPath rMethod aType : GoString)
    (h : ¬ ((rMethod = lit "GET" ∨ rMethod = lit "POST") ∧
      (aType = lit "" ∨ aType = lit "key" ∨ aType = lit "client"))) :
    (NewService sPath rMethod aType).1 = none ∧ (NewService sPath rMethod aType).2 ≠ none := by
  have hm := inSlice_two rMethod (lit "POST") (lit "GET")
  have ha := inSlice_three aType GOOGLEMAPS_AUTH_EMPTY GOOGLEMAPS_AUTH_KEY GOOGLEMAPS_AUTH_CLIENT
  have hj : inSlice GOOGLEMAPS_RESPONSE_JSON
      [GOOGLEMAPS_RESPONSE_XML, GOOGLEMAPS_RESPONSE_JSON] = true := by decide
  by_cases h1 : inSlice rMethod [lit "POST", lit "GET"] = true
  · by_cases h2 : inSlice aType
        [GOOGLEMAPS_AUTH_EMPTY, GOOGLEMAPS_AUTH_KEY, GOOGLEMAPS_AUTH_CLIENT] = true
    · exact absurd ⟨Or.symm (hm.1 h1), ha.1 h2⟩ h
    · simp only [NewService, setRequestType, SetRequestMethod, SetAuthType, hj, h1, h2,
        Bool.not_true, Bool.not_false, Bool.false_eq_true, if_false, if_true]
      simp
  · simp only [NewService, setRequestType, SetRequestMethod, hj, h1,
        Bool.not_true, Bool.not_false, Bool.false_eq_true, if_false, if_true]
    simp

/-- What every exported operation keeps: `business` follows `authType`, the
authentication type is one of the three allowed values and the response
format is `json`. -/
theorem NewService_inv (sPath rMethod aType : GoString) (s0 : Service)
    (h : (NewService sPath rMethod aType).1 = some s0) :
    s0.consistent ∧
    (s0.authType = lit "" ∨ s0.authType = lit "key" ∨ s0.authType = lit "client") ∧
    s0.requestType = lit "json" := by
  by_cases hg : (rMethod = lit "GET" ∨ rMethod = lit "POST") ∧
      (aType = lit "" ∨ aType = lit "key" ∨ aType = lit "client")
  · rw [NewService_ok sPath rMethod aType hg] at h
    simp only [Option.some.injEq] at h
    subst h
    exact ⟨rfl, hg.2, rfl⟩
  · rw [(NewService_bad sPath rMethod aType hg).1] at h
    exact absurd h (by simp)

theorem SetRequestMethod_frame (s : Service) (m : GoString) :
    (SetRequestMethod s m).1 = s ∨ (SetRequestMethod s m).1 = { s with requestMethod := m } := by
  unfold SetRequestMethod
  by_cases h : inSlice m [lit "POST", lit "GET"] = true
  · right; simp [h]
  · left; simp [h]

theorem SetAuthType_frame (s : Service) (a : GoString) :
    (SetAuthType s a).1 = s ∨
    ((a = lit "" ∨ a = lit "key" ∨ a = lit "client") ∧
      (SetAuthType s a).1 = { s with authType := a, business := decide (a ≠ lit "") }) := by
  unfold SetAuthType
  by_cases h : inSlice a [GOOGLEMAPS_AUTH_EMPTY, GOOGLEMAPS_AUTH_KEY, GOOGLEMAPS_AUTH_CLIENT]
      = true
  · right
    refine ⟨(inSlice_three a _ _ _).1 h, ?_⟩
    simp only [h, Bool.not_true, Bool.false_eq_true, if_false]
    rfl
  · left; simp [h]

theorem Op_apply_inv (Error : GoError → GoString) (op : Op) (s : Service)
    (h : s.consistent ∧
      (s.authType = lit "" ∨ s.authType = lit "key" ∨ s.authType = lit "client") ∧
      s.requestType = lit "json") :
    (op.apply Error s).consistent ∧
    ((op.apply Error s).authType = lit "" ∨ (op.apply Error s).authType = lit "key" ∨
      (op.apply Error s).authType = lit "client") ∧
    (op.apply Error s).requestType = lit "json" := by
  have hq : (constructQuery s).service.consistent ∧
      ((constructQuery s).service.authType = lit "" ∨
        (constructQuery s).service.authType = lit "key" ∨
        (constructQuery s).service.authType = lit "client") ∧
      (constructQuery s).service.requestType = lit "json" := by
    obtain ⟨P, hP, _⟩ := constructQuery_service s
    rw [hP]
    exact h
  cases op with
  | SetServicePath x => exact h
  | SetApiKey x => exact h
  | SetClientId x => exact h
  | SetClientSecret x => exact h
  | SetRequestMethod m =>
    have e0 : Op.apply Error (Op.SetRequestMethod m) s = (SetRequestMethod s m).1 := rfl
    rw [e0]
    rcases SetRequestMethod_frame s m with e | e
    · rw [e]; exact h
    · rw [e]; exact h
  | SetAuthType a =>
    have e0 : Op.apply Error (Op.SetAuthType a) s = (SetAuthType s a).1 := rfl
    rw [e0]
    rcases SetAuthType_frame s a with e | ⟨ha, e⟩
    · rw [e]; exact h
    · rw [e]
      exact ⟨rfl, ha, h.2.2⟩
  | AddParam k v => exact h
  | RemoveParam k => exact h
  | String =>
    have e : Op.apply Error Op.String s = (constructQuery s).service := by
      show (s.String Error).1 = _
      unfold Service.String
      cases (constructQuery s).err <;> rfl
    rw [e]; exact hq
  | Execute => exact hq

theorem run_inv (Error : GoError → GoString) (ops : List Op) (s : Service)
    (h : s.consistent ∧
      (s.authType = lit "" ∨ s.authType = lit "key" ∨ s.authType = lit "client") ∧
      s.requestType = lit "json") :
    (run Error ops s).consistent ∧
    ((run Error ops s).authType = lit "" ∨ (run Error ops s).authType = lit "key" ∨
      (run Error ops s).authType = lit "client") ∧
    (run Error ops s).requestType = lit "json" := by
  induction ops generalizing s with
  | nil => exact h
  | cons op rest ih => exact ih (op.apply Error s) (Op_apply_inv Error op s h)

theorem Reachable_inv (Error : GoError → GoString) (s : Service) (h : Reachable Error s) :
    s.consistent ∧
    (s.authType = lit "" ∨ s.authType = lit "key" ∨ s.authType = lit "client") ∧
    s.requestType = lit "json" := by
  obtain ⟨sPath, rMethod, aType, s0, ops, h0, hs⟩ := h
  rw [hs]
  exact run_inv Error ops s0 (NewService_inv sPath rMethod aType s0 h0)

theorem constructQuery_url_eq (s : Service) (h : (constructQuery s).err = none) :
    (constructQuery s).url = tempUrl s ++ (constructQuery s).service.params.Encode := by
  revert h
  unfold constructQuery
  simp only []
  split
  · split
    · split
      · intro h; simp at h
      · split
        · intro h; simp at h
        · split
          · intro h; simp at h
          · intro _; rfl
    · split
      · split
        · intro h; simp at h
        · intro _; rfl
      · intro _; rfl
  · intro _; rfl

theorem sha1_length (msg : List Nat) : (sha1 msg).length = 20 := by
  simp [sha1, wordBytes]

theorem hmacSha1_length (key msg : List Nat) : (hmacSha1 key msg).length = 20 := by
  unfold hmacSha1
  exact sha1_length _

theorem and63_lt (x : Nat) : x &&& 63 < 64 :=
  Nat.lt_of_le_of_lt Nat.and_le_right (by decide)

theorem urlSafe_of_lt : ∀ n, n < 64 →
    inUrlSafeAlphabet (if (if encodeStd n = ch '+' then ch '-' else encodeStd n) = ch '/'
      then ch '_' else (if encodeStd n = ch '+' then ch '-' else encodeStd n)) = true := by
  decide

theorem urlSafe_ne_plus : ∀ c, inUrlSafeAlphabet c = true → c ≠ ch '+' ∧ c ≠ ch '/' := by
  intro c h
  constructor
  · rintro rfl; revert h; decide
  · rintro rfl; revert h; decide

theorem length_twenty (l : List Nat) (h : l.length = 20) :
    ∃ a0 a1 a2 a3 a4 a5 a6 a7 a8 a9 b0 b1 b2 b3 b4 b5 b6 b7 b8 b9,
      l = [a0, a1, a2, a3, a4, a5, a6, a7, a8, a9, b0, b1, b2, b3, b4, b5, b6, b7, b8, b9] := by
  match l, h with
  | [a0, a1, a2, a3, a4, a5, a6, a7, a8, a9, b0, b1, b2, b3, b4, b5, b6, b7, b8, b9], _ =>
    exact ⟨a0, a1, a2, a3, a4, a5, a6, a7, a8, a9, b0, b1, b2, b3, b4, b5, b6, b7, b8, b9, rfl⟩

theorem translateSignature_shape (d : List Nat) (h : d.length = 20) :
    (translateSignature d).length = 28 ∧
    (∀ c ∈ (translateSignature d).take 27, inUrlSafeAlphabet c = true) ∧
    (translateSignature d).drop 27 = [ch '='] := by
  obtain ⟨a0, a1, a2, a3, a4, a5, a6, a7, a8, a9, b0, b1, b2, b3, b4, b5, b6, b7, b8, b9, rfl⟩ :=
    length_twenty d h
  refine ⟨by simp [translateSignature, Replace, EncodeToString], ?_, ?_⟩
  · intro c hc
    simp only [translateSignature, Replace, EncodeToString, List.map_cons, List.map_nil,
      List.take_succ_cons, List.take_zero, List.mem_cons, List.mem_nil_iff, or_false] at hc
    rcases hc with rfl | rfl | rfl | rfl | rfl | rfl | rfl | rfl | rfl | rfl | rfl | rfl | rfl |
      rfl | rfl | rfl | rfl | rfl | rfl | rfl | rfl | rfl | rfl | rfl | rfl | rfl | rfl <;>
    exact urlSafe_of_lt _ (and63_lt _)
  · simp only [translateSignature, Replace, EncodeToString, List.map_cons, List.map_nil,
      List.drop_succ_cons, List.drop_zero]
    decide

namespace Values

theorem any_of_mem (v : Values) (k : GoString) (h : k ∈ keys v) :
    v.any (fun e => decide (e.1 = k)) = true := by
  rcases List.mem_map.1 h with ⟨e, he, hk⟩
  rw [List.any_eq_true]
  exact ⟨e, he, by simp [hk]⟩

theorem keys_update (v : Values) (k : GoString) (vs : List GoString) :
    keys (v.map (fun e => if e.1 = k then (e.1, vs) else e)) = keys v := by
  unfold keys
  rw [List.map_map]
  apply List.map_congr_left
  intro e _
  simp only [Function.comp]
  by_cases h : e.1 = k
  · rw [if_pos h]
  · rw [if_neg h]

theorem find_update (v : Values) (k j : GoString) (vs : List GoString) :
    (v.map (fun e => if e.1 = k then (e.1, vs) else e)).find? (fun e => decide (e.1 = j))
      = (v.find? (fun e => decide (e.1 = j))).map (fun e => if e.1 = k then (e.1, vs) else e) := by
  rw [List.find?_map]
  congr 2
  funext e
  simp only [Function.comp]
  have hf : (if e.1 = k then (e.1, vs) else e).1 = e.1 := by
    by_cases h : e.1 = k
    · rw [if_pos h]
    · rw [if_neg h]
  rw [hf]

theorem lookup_update_self (v : Values) (k : GoString) (vs : List GoString) (h : k ∈ keys v) :
    lookup (v.map (fun e => if e.1 = k then (e.1, vs) else e)) k = vs := by
  unfold lookup
  rw [find_update]
  cases hf : v.find? (fun e => decide (e.1 = k)) with
  | none =>
    rcases List.mem_map.1 h with ⟨e, he, hk⟩
    have := List.find?_eq_none.1 hf e he
    simp [hk] at this
  | some e =>
    have he : e.1 = k := by simpa using List.find?_some hf
    simp only [Option.map_some', if_pos he]

theorem lookup_update_other (v : Values) (k j : GoString) (vs : List GoString) (h : j ≠ k) :
    lookup (v.map (fun e => if e.1 = k then (e.1, vs) else e)) j = lookup v j := by
  unfold lookup
  rw [find_update]
  cases hf : v.find? (fun e => decide (e.1 = j)) with
  | none => rfl
  | some e =>
    have he : e.1 = j := by simpa using List.find?_some hf
    have hek : e.1 ≠ k := fun hh => h (he.symm.trans hh)
    simp only [Option.map_some', if_neg hek]

theorem keys_Add_mem (v : Values) (k x : GoString) (h : k ∈ keys v) :
    keys (v.Add k x) = keys v := by
  unfold Add set
  rw [any_of_mem v k h, if_pos rfl]
  exact keys_update v k _

theorem mem_keys_Add (v : Values) (k x j : GoString) :
    j ∈ keys (v.Add k x) ↔ j = k ∨ j ∈ keys v := by
  by_cases h : k ∈ keys v
  · rw [keys_Add_mem v k x h]
    constructor
    · exact Or.inr
    · rintro (rfl | h1)
      · exact h
      · exact h1
  · rw [Add_of_not_mem v k x h, keys_append, List.mem_append]
    simp [keys, or_comm]

theorem WF_Add (v : Values) (k x : GoString) (h : WF v) : WF (v.Add k x) := by
  unfold WF at *
  by_cases hk : k ∈ keys v
  · rw [keys_Add_mem v k x hk]
    exact h
  · rw [Add_of_not_mem v k x hk, keys_append]
    refine List.Nodup.append h (by simp [keys]) ?_
    intro a ha hb
    have : a = k := by simpa [keys] using hb
    exact hk (this ▸ ha)

theorem lookup_Add_self (v : Values) (k x : GoString) :
    lookup (v.Add k x) k = lookup v k ++ [x] := by
  by_cases h : k ∈ keys v
  · unfold Add set
    rw [any_of_mem v k h, if_pos rfl]
    exact lookup_update_self v k _ h
  · rw [Add_of_not_mem v k x h, lookup_append_new _ _ _ h, lookup_of_not_mem v k h]
    rfl

theorem lookup_Add_other (v : Values) (k x j : GoString) (h : j ≠ k) :
    lookup (v.Add k x) j = lookup v j := by
  by_cases hk : k ∈ keys v
  · unfold Add set
    rw [any_of_mem v k hk, if_pos rfl]
    exact lookup_update_other v k j _ h
  · rw [Add_of_not_mem v k x hk]
    exact lookup_append_other v k j _ h

end Values

theorem strLess_irrefl (a : GoString) : strLess a a = false := by
  cases h : strLess a a
  · rfl
  · have := strLess_asymm a a h
    rw [h] at this
    exact absurd this (by simp)

theorem sortStrings_sorted (l : List GoString) :
    (sortStrings l).Pairwise (fun a b => strLess b a = false) := by
  unfold sortStrings
  haveI : IsTotal GoString (fun a b => strLess b a = false) := ⟨fun a b => strLess_total a b⟩
  haveI : IsTrans GoString (fun a b => strLess b a = false) := ⟨fun a b c => strLe_trans a b c⟩
  exact List.sorted_insertionSort (fun a b => strLess b a = false) l

theorem pairs_sorted (v : Values) :
    ((Values.pairs v).map Prod.fst).Pairwise (fun a b => strLess b a = false) := by
  rw [List.pairwise_map]
  unfold Values.pairs
  rw [List.pairwise_flatMap]
  refine ⟨?_, ?_⟩
  · intro k _
    rw [List.pairwise_map]
    exact List.pairwise_of_forall (fun _ _ => strLess_irrefl k)
  · refine (sortStrings_sorted (Values.keys v)).imp ?_
    intro a b hab p hp q hq
    rcases List.mem_map.1 hp with ⟨x, _, rfl⟩
    rcases List.mem_map.1 hq with ⟨y, _, rfl⟩
    exact hab

theorem AddParam_swap_equiv (v : Values) (hwf : Values.WF v) (k1 k2 v1 v2 : GoString)
    (hne : k1 ≠ k2) :
    Values.equiv (stripReserved ((v.Add k1 v1).Add k2 v2))
      (stripReserved ((v.Add k2 v2).Add k1 v1)) := by
  apply equiv_strip _ _ (Values.WF_Add _ _ _ (Values.WF_Add _ _ _ hwf))
    (Values.WF_Add _ _ _ (Values.WF_Add _ _ _ hwf))
  intro k _
  refine ⟨?_, ?_⟩
  · rw [Values.mem_keys_Add, Values.mem_keys_Add, Values.mem_keys_Add, Values.mem_keys_Add]
    tauto
  · by_cases h1 : k = k1
    · subst h1
      rw [Values.lookup_Add_other _ _ _ _ hne, Values.lookup_Add_self, Values.lookup_Add_self,
        Values.lookup_Add_other _ _ _ _ hne]
    · by_cases h2 : k = k2
      · subst h2
        rw [Values.lookup_Add_self, Values.lookup_Add_other _ _ _ _ h1,
          Values.lookup_Add_other _ _ _ _ h1, Values.lookup_Add_self]
      · rw [Values.lookup_Add_other _ _ _ _ h2, Values.lookup_Add_other _ _ _ _ h1,
          Values.lookup_Add_other _ _ _ _ h1, Values.lookup_Add_other _ _ _ _ h2]

theorem count_eq_one_of_nodup (l : List GoString) (k : GoString) (h : l.Nodup) (hm : k ∈ l) :
    l.count k = 1 := by
  induction l with
  | nil => simp at hm
  | cons a rest ih =>
    rw [List.nodup_cons] at h
    by_cases ha : a = k
    · subst ha
      rw [List.count_cons_self, List.count_eq_zero_of_not_mem h.1]
    · have hr : k ∈ rest := by
        rcases List.mem_cons.1 hm with h1 | h1
        · exact absurd h1.symm ha
        · exact h1
      rw [List.count_cons_of_ne (Ne.symm ha), ih h.2 hr]

/-- After `constructQuery`, a name that is not reserved has the values it had
before the call, and occurs once among the keys when the parameter set is a
map. -/
theorem constructQuery_keeps_name (s : Service) (hwf : Values.WF s.params) (k : GoString)
    (hk : ¬ reserved k) (hmem : k ∈ Values.keys s.params) :
    Values.lookup (constructQuery s).service.params k = Values.lookup s.params k ∧
    (Values.keys (constructQuery s).service.params).count k = 1 := by
  obtain ⟨P, hP, hS⟩ := constructQuery_service s
  rw [hP]
  show Values.lookup P k = _ ∧ (Values.keys P).count k = 1
  have hr := hk
  unfold reserved at hr
  have hcount : ∀ Q : Values, (Values.keys (stripReserved Q)).count k = (Values.keys Q).count k := by
    intro Q
    unfold stripReserved
    rw [Values.keys_Del, Values.keys_Del, Values.keys_Del, List.count_filter, List.count_filter,
      List.count_filter]
    · simpa using fun hh => hr (Or.inl hh)
    · simpa using fun hh => hr (Or.inr (Or.inl hh))
    · simpa using fun hh => hr (Or.inr (Or.inr hh))
  refine ⟨?_, ?_⟩
  · rw [← lookup_strip P k hk, hS, lookup_strip _ k hk]
  · rw [← hcount P, hS, hcount]
    exact count_eq_one_of_nodup _ k hwf hmem

theorem strLess_of_le_of_ne (a b : GoString) (h : strLess b a = false) (hne : a ≠ b) :
    strLess a b = true := by
  cases hab : strLess a b
  · exact absurd (strLess_antisymm a b hab h) hne
  · rfl

theorem strLess_of_lt_of_le (a b c : GoString) (hab : strLess a b = true)
    (hbc : strLess c b = false) : strLess a c = true := by
  cases hac : strLess a c
  · have := strLe_trans b c a hbc hac
    rw [hab] at this
    exact absurd this (by simp)
  · rfl

/-- Where `sort.Strings` puts a new key: after the keys below it and before
the keys above it. -/
theorem orderedInsert_split (k : GoString) : ∀ l : List GoString,
    l.Pairwise (fun a b => strLess b a = false) → k ∉ l →
    ∃ T D, l = T ++ D ∧
      List.orderedInsert (fun a b => strLess b a = false) k l = T ++ k :: D ∧
      (∀ t ∈ T, strLess t k = true) ∧ (∀ d ∈ D, strLess k d = true)
  | [], _, _ => ⟨[], [], rfl, rfl, by simp, by simp⟩
  | b :: l, hs, hk => by
    have hkb : k ≠ b := fun h => hk (h ▸ List.mem_cons_self _ _)
    have hkl : k ∉ l := fun h => hk (List.mem_cons_of_mem _ h)
    rw [List.pairwise_cons] at hs
    by_cases h : strLess b k = false
    · refine ⟨[], b :: l, rfl, ?_, by simp, ?_⟩
      · rw [List.orderedInsert, if_pos h]
        rfl
      · have hlt : strLess k b = true := strLess_of_le_of_ne k b h hkb
        intro d hd
        rcases List.mem_cons.1 hd with rfl | hd
        · exact hlt
        · exact strLess_of_lt_of_le k b d hlt (hs.1 d hd)
    · obtain ⟨T, D, h1, h2, h3, h4⟩ := orderedInsert_split k l hs.2 hkl
      refine ⟨b :: T, D, by rw [h1]; rfl, ?_, ?_, h4⟩
      · rw [List.orderedInsert, if_neg h, h2]
        rfl
      · intro t ht
        rcases List.mem_cons.1 ht with rfl | ht
        · simpa using h
        · exact h3 t ht

theorem sortStrings_append_new (l : List GoString) (k : GoString) :
    sortStrings (l ++ [k])
      = List.orderedInsert (fun a b => strLess b a = false) k (sortStrings l) := by
  rw [sortStrings_perm (l ++ [k]) (k :: l) (List.perm_append_singleton k l)]
  rfl

theorem flatMap_congr_mem {α β : Type} (l : List α) (f g : α → List β)
    (h : ∀ a ∈ l, f a = g a) : l.flatMap f = l.flatMap g := by
  induction l with
  | nil => rfl
  | cons a rest ih =>
    rw [List.flatMap_cons, List.flatMap_cons, h a (List.mem_cons_self _ _),
      ih (fun b hb => h b (List.mem_cons_of_mem _ hb))]

/-- The pairs of a parameter set to which a new name is added: the pair of
the new name stands between the pairs of the names below it and the pairs of
the names above it. -/
theorem pairs_append_new (v : Values) (k x : GoString) (hk : k ∉ Values.keys v) :
    ∃ L R, Values.pairs v = L ++ R ∧
      Values.pairs (v ++ [(k, [x])]) = L ++ [(k, x)] ++ R ∧
      (∀ p ∈ L, strLess p.1 k = true) ∧ (∀ p ∈ R, strLess k p.1 = true) ∧
      (∀ p ∈ Values.pairs v, strLess p.1 k = true → p ∈ L) := by
  have hk2 : k ∉ sortStrings (Values.keys v) := fun h => hk ((mem_sortStrings _ _).1 h)
  obtain ⟨T, D, h1, h2, h3, h4⟩ :=
    orderedInsert_split k (sortStrings (Values.keys v)) (sortStrings_sorted _) hk2
  have hT : ∀ j ∈ T, (Values.lookup (v ++ [(k, [x])]) j).map (fun y => (j, y))
      = (Values.lookup v j).map (fun y => (j, y)) := by
    intro j hj
    have hne : j ≠ k := by
      rintro rfl
      exact hk2 (h1 ▸ List.mem_append_left _ hj)
    rw [Values.lookup_append_other v k j _ hne]
  have hD : ∀ j ∈ D, (Values.lookup (v ++ [(k, [x])]) j).map (fun y => (j, y))
      = (Values.lookup v j).map (fun y => (j, y)) := by
    intro j hj
    have hne : j ≠ k := by
      rintro rfl
      exact hk2 (h1 ▸ List.mem_append_right _ hj)
    rw [Values.lookup_append_other v k j _ hne]
  refine ⟨T.flatMap (fun j => (Values.lookup v j).map (fun y => (j, y))),
    D.flatMap (fun j => (Values.lookup v j).map (fun y => (j, y))), ?_, ?_, ?_, ?_, ?_⟩
  · unfold Values.pairs
    rw [h1, List.flatMap_append]
  · unfold Values.pairs
    rw [Values.keys_append, show Values.keys [(k, [x])] = [k] from rfl,
      sortStrings_append_new, h2, List.flatMap_append, List.flatMap_cons,
      flatMap_congr_mem T _ _ hT, flatMap_congr_mem D _ _ hD,
      Values.lookup_append_new v k _ hk]
    simp only [List.map_cons, List.map_nil, List.append_assoc]
  · intro p hp
    rcases List.mem_flatMap.1 hp with ⟨j, hj, hpj⟩
    rcases List.mem_map.1 hpj with ⟨y, _, rfl⟩
    exact h3 j hj
  · intro p hp
    rcases List.mem_flatMap.1 hp with ⟨j, hj, hpj⟩
    rcases List.mem_map.1 hpj with ⟨y, _, rfl⟩
    exact h4 j hj
  · intro p hp hlt
    unfold Values.pairs at hp
    rw [h1, List.flatMap_append] at hp
    rcases List.mem_append.1 hp with h | h
    · exact h
    · rcases List.mem_flatMap.1 h with ⟨j, hj, hpj⟩
      rcases List.mem_map.1 hpj with ⟨y, _, rfl⟩
      have := strLess_asymm _ _ (h4 j hj)
      rw [hlt] at this
      exact absurd this (by simp)

theorem joinAmp_cons (a : GoString) (M : List GoString) :
    joinAmp (a :: M) = a ++ M.flatMap (fun t => ch '&' :: t) := by
  induction M generalizing a with
  | nil => simp [joinAmp]
  | cons b rest ih =>
    rw [joinAmp, ih b, List.flatMap_cons]
    simp only [List.append_assoc, List.singleton_append, List.cons_append, List.nil_append]

theorem joinAmp_append (L M : List GoString) (hL : L ≠ []) :
    joinAmp (L ++ M) = joinAmp L ++ M.flatMap (fun t => ch '&' :: t) := by
  cases L with
  | nil => exact absurd rfl hL
  | cons a rest =>
    rw [List.cons_append, joinAmp_cons, joinAmp_cons, List.flatMap_append, List.append_assoc]

theorem Cut_question (x y : GoString) (h : ∀ c ∈ x, c ≠ ch '?') :
    Cut (x ++ lit "?" ++ y) (ch '?') = (x, y) := by
  unfold Cut
  have hx : ∀ c ∈ x, (fun c => decide (c ≠ ch '?')) c = true := by
    intro c hc
    simpa using h c hc
  rw [List.append_assoc, List.takeWhile_append, List.dropWhile_append,
    List.takeWhile_eq_self_iff.2 hx, List.dropWhile_eq_nil_iff.2 hx]
  simp [lit, ch, List.takeWhile, List.dropWhile]

theorem plain_path (s : Service) (hsp : plain s.servicePath) (hrt : plain s.requestType) :
    plain (s.servicePath ++ lit "/" ++ s.requestType) := by
  intro c hcm
  rcases List.mem_append.1 hcm with h1 | h1
  · rcases List.mem_append.1 h1 with h2 | h2
    · exact hsp c h2
    · have : c = 47 := by simpa [lit] using h2
      subst this; decide
  · exact hrt c h1

theorem Parse_tempUrl_plain (s : Service) (hsp : plain s.servicePath)
    (hrt : plain s.requestType) :
    Parse (tempUrl s) = some ⟨lit "https", [], lit "maps.googleapis.com",
      lit "/maps/api/" ++ (s.servicePath ++ lit "/" ++ s.requestType), [], []⟩ := by
  unfold tempUrl
  rw [show GOOGLEMAPS_URL ++ s.servicePath ++ lit "/" ++ s.requestType ++ lit "?"
      = GOOGLEMAPS_URL ++ (s.servicePath ++ lit "/" ++ s.requestType) ++ lit "?" by
    simp only [List.append_assoc]]
  exact Parse_plain _ (plain_path s hsp hrt)

theorem no_question_of_plain (x : GoString) (h : plain x) (p : GoString)
    (hp : ∀ c ∈ p, c ≠ ch '?') : ∀ c ∈ p ++ x, c ≠ ch '?' := by
  intro c hc
  rcases List.mem_append.1 hc with h1 | h1
  · exact hp c h1
  · exact (h c h1).2.1

/-! ## The claims -/

/-- C1 (as amended): in CLIENT mode with a non-empty client id, a non-empty
client secret that the decoder accepts and a request URL that `url.Parse`
accepts, for every parameter set: the bytes given to the MAC are the parsed
path, `?` and the encoding of the parameter set from which `client`,
`signature` and `key` were deleted and to which `client` was then added (its
only pair named `client` is `client=clientId`, and it has no pair named
`signature`); and
`constructQuery` succeeds with the URL made of the endpoint, the service path,
`/`, the response format, `?` and the encoding of that set with `signature`
added, the signature being computed over those bytes. -/
theorem client_signs_before_signature_added (s : Service) (hc : s.consistent)
    (hm : s.authType = GOOGLEMAPS_AUTH_CLIENT) (hid : s.clientId ≠ lit "")
    (hsec : s.clientSecret ≠ lit "") (u : URL) (hp : Parse (tempUrl s) = some u)
    (key : List Nat) (hd : DecodeString (translateSecret s.clientSecret) = some key) :
    ∃ (P : Values) (msg sig : GoString),
      P = Values.Add (Values.Del (Values.Del (Values.Del s.params (lit "client"))
            (lit "signature")) (lit "key")) (lit "client") s.clientId ∧
      msg = u.Path ++ lit "?" ++ P.Encode ∧
      sig = translateSignature (hmacSha1 key msg) ∧
      (Values.pairs P).filter (fun p => p.1 = lit "client") = [(lit "client", s.clientId)] ∧
      (∀ p ∈ Values.pairs P, p.1 ≠ lit "signature") ∧
      (constructQuery s).signed = some (key, msg) ∧
      (constructQuery s).err = none ∧
      (constructQuery s).url =
        lit "https://maps.googleapis.com/maps/api/" ++ s.servicePath ++ lit "/" ++ s.requestType
          ++ lit "?" ++ (P.Add (lit "signature") sig).Encode := by
  have hb : s.business = true :=
    (business_of_consistent s hc).2 (by rw [hm]; exact client_ne_empty)
  refine ⟨_, _, _, rfl, rfl, rfl, ?_, ?_, ?_⟩
  · show (Values.pairs ((stripReserved s.params).Add (lit "client") s.clientId)).filter _ = _
    rw [clientParams_eq,
      pairs_filter_key _ _ (count_keys_append_new _ _ _ (client_not_mem_strip s.params)),
      Values.lookup_append_new _ _ _ (client_not_mem_strip s.params)]
    rfl
  · intro p hp hps
    exact signature_not_mem_clientParams s.params s.clientId (hps ▸ mem_pairs_key _ p hp)
  · rw [constructQuery_client s hb hm hid hsec u hp key hd _ rfl _ rfl _ rfl]
    exact ⟨rfl, rfl, rfl⟩

theorem client_signs_before_signature_added_witness :
    clientExample.consistent ∧ clientExample.authType = GOOGLEMAPS_AUTH_CLIENT ∧
    clientExample.clientId ≠ lit "" ∧ clientExample.clientSecret ≠ lit "" ∧
    Parse (tempUrl clientExample) =
      some ⟨lit "https", [], lit "maps.googleapis.com", lit "/maps/api/elevation/json", [], []⟩ ∧
    DecodeString (translateSecret clientExample.clientSecret) =
      some [188, 210, 23, 19, 76, 108, 114, 185, 163, 151, 37, 126, 215, 99, 99, 252, 27, 212,
        61, 172] ∧
    ∃ (P : Values) (msg sig : GoString),
      P = Values.Add (Values.Del (Values.Del (Values.Del clientExample.params (lit "client"))
            (lit "signature")) (lit "key")) (lit "client") clientExample.clientId ∧
      msg = lit "/maps/api/elevation/json" ++ lit "?" ++ P.Encode ∧
      sig = translateSignature (hmacSha1 [188, 210, 23, 19, 76, 108, 114, 185, 163, 151, 37,
        126, 215, 99, 99, 252, 27, 212, 61, 172] msg) ∧
      (Values.pairs P).filter (fun p => p.1 = lit "client")
        = [(lit "client", clientExample.clientId)] ∧
      (∀ p ∈ Values.pairs P, p.1 ≠ lit "signature") ∧
      (constructQuery clientExample).signed = some ([188, 210, 23, 19, 76, 108, 114, 185, 163,
        151, 37, 126, 215, 99, 99, 252, 27, 212, 61, 172], msg) ∧
      (constructQuery clientExample).err = none ∧
      (constructQuery clientExample).url =
        lit "https://maps.googleapis.com/maps/api/" ++ clientExample.servicePath ++ lit "/"
          ++ clientExample.requestType ++ lit "?" ++ (P.Add (lit "signature") sig).Encode :=
  ⟨by decide, by decide, by decide, by decide, by decide, by decide,
    client_signs_before_signature_added clientExample (by decide) (by decide) (by decide)
      (by decide)
      ⟨lit "https", [], lit "maps.googleapis.com", lit "/maps/api/elevation/json", [], []⟩
      (by decide)
      [188, 210, 23, 19, 76, 108, 114, 185, 163, 151, 37, 126, 215, 99, 99, 252, 27, 212, 61, 172]
      (by decide)⟩

/-- C1 (as stated) fails: with the service path `%`, in CLIENT mode with the
client id `foo` and a secret that decodes, `url.Parse` rejects the request URL;
`constructQuery` returns the empty URL and an error, and nothing is given to
the MAC. -/
theorem client_percent_path_not_signed :
    percentPathExample.consistent ∧ percentPathExample.authType = GOOGLEMAPS_AUTH_CLIENT ∧
    percentPathExample.clientId ≠ lit "" ∧
    (DecodeString (translateSecret percentPathExample.clientSecret)).isSome = true ∧
    (constructQuery percentPathExample).signed = none ∧
    (constructQuery percentPathExample).url = lit "" ∧
    (constructQuery percentPathExample).err = some GoError.urlError := by
  decide

/-- C2: values that the caller stored under the reserved names do not reach the
URL.  For every configuration and any two parameter sets (maps) that have the
same names and values outside `client`, `signature` and `key`,
`constructQuery` returns the same URL and the same error (and signs the same
bytes).  In a successful result the query of the URL consists of the pairs of
the parameter set that the call leaves in the service, and among these pairs
those named `key` are exactly `key=apiKey` in KEY mode and none otherwise,
those named `client` are exactly `client=clientId` in CLIENT mode and none
otherwise, and there is exactly one pair named `signature` in CLIENT mode and
none otherwise. -/
theorem reserved_names_never_leak (s : Service) (P Q : Values) (hP : Values.WF P)
    (hQ : Values.WF Q)
    (hPQ : ∀ k, ¬ reserved k → (k ∈ Values.keys P ↔ k ∈ Values.keys Q) ∧
      Values.lookup P k = Values.lookup Q k) :
    ((constructQuery { s with params := P }).url = (constructQuery { s with params := Q }).url ∧
     (constructQuery { s with params := P }).err = (constructQuery { s with params := Q }).err ∧
     (constructQuery { s with params := P }).signed
       = (constructQuery { s with params := Q }).signed) ∧
    (s.consistent → (constructQuery s).err = none →
      (constructQuery s).url = tempUrl s ++
        joinAmp ((Values.pairs (constructQuery s).service.params).map renderPair) ∧
      (s.authType = GOOGLEMAPS_AUTH_KEY →
        (Values.pairs (constructQuery s).service.params).filter (fun p => p.1 = lit "key")
          = [(lit "key", s.apiKey)]) ∧
      (s.authType ≠ GOOGLEMAPS_AUTH_KEY →
        ∀ p ∈ Values.pairs (constructQuery s).service.params, p.1 ≠ lit "key") ∧
      (s.authType = GOOGLEMAPS_AUTH_CLIENT →
        (Values.pairs (constructQuery s).service.params).filter (fun p => p.1 = lit "client")
          = [(lit "client", s.clientId)]) ∧
      (s.authType ≠ GOOGLEMAPS_AUTH_CLIENT →
        ∀ p ∈ Values.pairs (constructQuery s).service.params, p.1 ≠ lit "client") ∧
      (s.authType = GOOGLEMAPS_AUTH_CLIENT →
        ∃ sig, (Values.pairs (constructQuery s).service.params).filter
          (fun p => p.1 = lit "signature") = [(lit "signature", sig)]) ∧
      (s.authType ≠ GOOGLEMAPS_AUTH_CLIENT →
        ∀ p ∈ Values.pairs (constructQuery s).service.params, p.1 ≠ lit "signature")) := by
  refine ⟨constructQuery_equiv s P Q (equiv_strip P Q hP hQ hPQ), ?_⟩
  intro hc herr
  have habsent : ∀ (v : Values) (k : GoString), k ∉ Values.keys v →
      ∀ p ∈ Values.pairs v, p.1 ≠ k := by
    intro v k hk p hp hpk
    exact hk (hpk ▸ mem_pairs_key v p hp)
  by_cases hcl : s.authType = GOOGLEMAPS_AUTH_CLIENT
  · have hb : s.business = true :=
      (business_of_consistent s hc).2 (by rw [hcl]; exact client_ne_empty)
    have hnk : s.authType ≠ GOOGLEMAPS_AUTH_KEY := by
      rw [hcl]; exact fun h => key_ne_client h.symm
    by_cases hmiss : s.clientId = lit "" ∨ s.clientSecret = lit ""
    · rw [constructQuery_client_missing s hb hcl hmiss] at herr
      simp at herr
    · have hid : s.clientId ≠ lit "" := fun h => hmiss (Or.inl h)
      have hsec : s.clientSecret ≠ lit "" := fun h => hmiss (Or.inr h)
      cases hp : Parse (tempUrl s) with
      | none =>
        rw [constructQuery_client_parse s hb hcl hid hsec hp] at herr
        simp at herr
      | some u =>
        cases hd : DecodeString (translateSecret s.clientSecret) with
        | none =>
          rw [constructQuery_client_decode s hb hcl hid hsec u hp hd] at herr
          simp at herr
        | some key =>
          rw [constructQuery_client s hb hcl hid hsec u hp key hd _ rfl _ rfl _ rfl]
          simp only []
          rw [signedParams_eq, ← Encode_eq_pairs]
          have hcs : lit "client" ∉ Values.keys (stripReserved s.params) :=
            client_not_mem_strip _
          have hss : lit "signature" ∉
              Values.keys (stripReserved s.params ++ [(lit "client", [s.clientId])]) :=
            not_mem_keys_append _ _ _ _ (signature_not_mem_strip _)
              (Ne.symm client_ne_signature)
          refine ⟨rfl, fun h => absurd h hnk, fun _ => ?_, fun _ => ?_, fun h => absurd hcl h,
            fun _ => ⟨translateSignature (hmacSha1 key (u.Path ++ lit "?" ++
              (Values.Add (stripReserved s.params) (lit "client") s.clientId).Encode)), ?_⟩,
            fun h => absurd hcl h⟩
          · exact habsent _ _ (not_mem_keys_append _ _ _ _
              (not_mem_keys_append _ _ _ _ (key_not_mem_strip _) (Ne.symm client_ne_key))
              (Ne.symm signature_ne_key))
          · rw [pairs_filter_key _ _ (by
                rw [count_keys_append_other _ _ _ _ (Ne.symm client_ne_signature)]
                exact count_keys_append_new _ _ _ hcs),
              Values.lookup_append_other _ _ _ _ client_ne_signature,
              Values.lookup_append_new _ _ _ hcs]
            rfl
          · rw [pairs_filter_key _ _ (count_keys_append_new _ _ _ hss),
              Values.lookup_append_new _ _ _ hss]
            rfl
  · by_cases hk : s.authType = GOOGLEMAPS_AUTH_KEY
    · have hb : s.business = true :=
        (business_of_consistent s hc).2 (by rw [hk]; exact key_ne_empty)
      by_cases hkey : s.apiKey = lit ""
      · rw [constructQuery_key_missing s hb hk hkey] at herr
        simp at herr
      · rw [constructQuery_key s hb hk hkey]
        simp only []
        rw [keyParams_eq, ← Encode_eq_pairs]
        refine ⟨rfl, fun _ => ?_, fun h => absurd hk h, fun h => absurd h hcl, fun _ => ?_,
          fun h => absurd h hcl, fun _ => ?_⟩
        · rw [pairs_filter_key _ _ (count_keys_append_new _ _ _ (key_not_mem_strip _)),
            Values.lookup_append_new _ _ _ (key_not_mem_strip _)]
          rfl
        · exact habsent _ _
            (not_mem_keys_append _ _ _ _ (client_not_mem_strip _) client_ne_key)
        · exact habsent _ _
            (not_mem_keys_append _ _ _ _ (signature_not_mem_strip _) signature_ne_key)
    · have hq : constructQuery s = ⟨{ s with params := stripReserved s.params },
          tempUrl s ++ (stripReserved s.params).Encode, none, none⟩ := by
        unfold constructQuery
        simp only [if_neg hcl, if_neg hk]
        split <;> rfl
      rw [hq]
      simp only []
      rw [← Encode_eq_pairs]
      exact ⟨rfl, fun h => absurd h hk, fun _ => habsent _ _ (key_not_mem_strip _),
        fun h => absurd h hcl, fun _ => habsent _ _ (client_not_mem_strip _),
        fun h => absurd h hcl, fun _ => habsent _ _ (signature_not_mem_strip _)⟩

theorem injected_params_agree (k : GoString) (hk : ¬ reserved k) :
    (k ∈ Values.keys injectedParamsA ↔ k ∈ Values.keys injectedParamsB) ∧
    Values.lookup injectedParamsA k = Values.lookup injectedParamsB k := by
  unfold reserved at hk
  have h1 : lit "client" ≠ k := fun h => hk (Or.inl h.symm)
  have h3 : lit "key" ≠ k := fun h => hk (Or.inr (Or.inr h.symm))
  by_cases hs : lit "sensor" = k
  · subst hs
    decide
  · constructor
    · simp [Values.keys, injectedParamsA, injectedParamsB, Ne.symm h1, Ne.symm h3, Ne.symm hs]
    · simp [Values.lookup, injectedParamsA, injectedParamsB, List.find?, h1, h3, hs]

theorem reserved_names_never_leak_witness :
    Values.WF injectedParamsA ∧ Values.WF injectedParamsB ∧
    (∀ k, ¬ reserved k →
      (k ∈ Values.keys injectedParamsA ↔ k ∈ Values.keys injectedParamsB) ∧
      Values.lookup injectedParamsA k = Values.lookup injectedParamsB k) ∧
    ((constructQuery { keyExample with params := injectedParamsA }).url = (constructQuery { keyExample with params := injectedParamsB }).url ∧
     (constructQuery { keyExample with params := injectedParamsA }).err = (constructQuery { keyExample with params := injectedParamsB }).err ∧
     (constructQuery { keyExample with params := injectedParamsA }).signed
       = (constructQuery { keyExample with params := injectedParamsB }).signed) ∧
    (keyExample.consistent → (constructQuery keyExample).err = none →
      (constructQuery keyExample).url = tempUrl keyExample ++
        joinAmp ((Values.pairs (constructQuery keyExample).service.params).map renderPair) ∧
      (keyExample.authType = GOOGLEMAPS_AUTH_KEY →
        (Values.pairs (constructQuery keyExample).service.params).filter (fun p => p.1 = lit "key")
          = [(lit "key", keyExample.apiKey)]) ∧
      (keyExample.authType ≠ GOOGLEMAPS_AUTH_KEY →
        ∀ p ∈ Values.pairs (constructQuery keyExample).service.params, p.1 ≠ lit "key") ∧
      (keyExample.authType = GOOGLEMAPS_AUTH_CLIENT →
        (Values.pairs (constructQuery keyExample).service.params).filter (fun p => p.1 = lit "client")
          = [(lit "client", keyExample.clientId)]) ∧
      (keyExample.authType ≠ GOOGLEMAPS_AUTH_CLIENT →
        ∀ p ∈ Values.pairs (constructQuery keyExample).service.params, p.1 ≠ lit "client") ∧
      (keyExample.authType = GOOGLEMAPS_AUTH_CLIENT →
        ∃ sig, (Values.pairs (constructQuery keyExample).service.params).filter
          (fun p => p.1 = lit "signature") = [(lit "signature", sig)]) ∧
      (keyExample.authType ≠ GOOGLEMAPS_AUTH_CLIENT →
        ∀ p ∈ Values.pairs (constructQuery keyExample).service.params, p.1 ≠ lit "signature")) :=
  ⟨by decide, by decide, injected_params_agree,
    reserved_names_never_leak keyExample injectedParamsA injectedParamsB (by decide)
      (by decide) injected_params_agree⟩

/-- C3 (as amended): for the service that `NewService("elevation", "GET",
"client")` returns, with the parameters `sensor=false` and
`locations=40.714728,-73.998672` added through `AddParam`, the client id `foo`
and the client secret `vNIXE0xscrmjlyV-12Nj_BvUPaw=`, the bytes that
`constructQuery` gives to the MAC are
`/maps/api/elevation/json?client=foo&locations=40.714728%2C-73.998672&sensor=false`:
the comma of the value is percent-encoded. -/
theorem reference_payload :
    (NewService (lit "elevation") (lit "GET") GOOGLEMAPS_AUTH_CLIENT).1.map
      (fun s => SetClientSecret (SetClientId (AddParam (AddParam s (lit "sensor") (lit "false"))
        (lit "locations") (lit "40.714728,-73.998672")) (lit "foo"))
        (lit "vNIXE0xscrmjlyV-12Nj_BvUPaw=")) = some clientExample ∧
    (constructQuery clientExample).err = none ∧
    (constructQuery clientExample).signed.map Prod.snd =
      some (lit "/maps/api/elevation/json?client=foo&locations=40.714728%2C-73.998672&sensor=false") := by
  decide

/-- C3 (as stated) fails: the bytes given to the MAC for the reference
configuration are not
`/maps/api/elevation/json?client=foo&locations=40.714728,-73.998672&sensor=false`. -/
theorem reference_payload_has_no_comma :
    (NewService (lit "elevation") (lit "GET") GOOGLEMAPS_AUTH_CLIENT).1.map
      (fun s => SetClientSecret (SetClientId (AddParam (AddParam s (lit "sensor") (lit "false"))
        (lit "locations") (lit "40.714728,-73.998672")) (lit "foo"))
        (lit "vNIXE0xscrmjlyV-12Nj_BvUPaw=")) = some clientExample ∧
    (constructQuery clientExample).signed.map Prod.snd ≠
      some (lit "/maps/api/elevation/json?client=foo&locations=40.714728,-73.998672&sensor=false") := by
  decide

/-- C4 (as amended): in CLIENT mode with credentials that are accepted, for
every service path and response format without `%`, `?`, `#` and control bytes,
the bytes given to the MAC are `/maps/api/`, the service path, `/`, the
response format, `?` and the encoded parameters, and the URL returned is
`https://maps.googleapis.com` followed by the same path and `?` and the encoded
parameters with the signature: the path signed is the path of the URL. -/
theorem plain_path_signed_as_sent (s : Service) (hc : s.consistent)
    (hm : s.authType = GOOGLEMAPS_AUTH_CLIENT) (hid : s.clientId ≠ lit "")
    (hsec : s.clientSecret ≠ lit "") (hsp : plain s.servicePath) (hrt : plain s.requestType)
    (key : List Nat) (hd : DecodeString (translateSecret s.clientSecret) = some key) :
    ∃ (P : Values) (msg sig : GoString),
      P = Values.Add (stripReserved s.params) (lit "client") s.clientId ∧
      msg = lit "/maps/api/" ++ s.servicePath ++ lit "/" ++ s.requestType ++ lit "?" ++ P.Encode ∧
      sig = translateSignature (hmacSha1 key msg) ∧
      (constructQuery s).signed = some (key, msg) ∧
      (constructQuery s).err = none ∧
      (constructQuery s).url =
        lit "https://maps.googleapis.com" ++
          (lit "/maps/api/" ++ s.servicePath ++ lit "/" ++ s.requestType ++ lit "?")
          ++ (P.Add (lit "signature") sig).Encode := by
  have hb : s.business = true :=
    (business_of_consistent s hc).2 (by rw [hm]; exact client_ne_empty)
  have hx : plain (s.servicePath ++ lit "/" ++ s.requestType) := by
    intro c hcm
    rcases List.mem_append.1 hcm with h1 | h1
    · rcases List.mem_append.1 h1 with h2 | h2
      · exact hsp c h2
      · have : c = 47 := by simpa [lit] using h2
        subst this; decide
    · exact hrt c h1
  have hp : Parse (tempUrl s) = some ⟨lit "https", [], lit "maps.googleapis.com",
      lit "/maps/api/" ++ (s.servicePath ++ lit "/" ++ s.requestType), [], []⟩ := by
    unfold tempUrl
    rw [show GOOGLEMAPS_URL ++ s.servicePath ++ lit "/" ++ s.requestType ++ lit "?"
        = GOOGLEMAPS_URL ++ (s.servicePath ++ lit "/" ++ s.requestType) ++ lit "?" by
      simp only [List.append_assoc]]
    exact Parse_plain _ hx
  refine ⟨_, _, _, rfl, rfl, rfl, ?_⟩
  have hmsg : lit "/maps/api/" ++ s.servicePath ++ lit "/" ++ s.requestType ++ lit "?"
        ++ (Values.Add (stripReserved s.params) (lit "client") s.clientId).Encode
      = (URL.mk (lit "https") [] (lit "maps.googleapis.com")
          (lit "/maps/api/" ++ (s.servicePath ++ lit "/" ++ s.requestType)) [] []).Path
        ++ lit "?" ++ (Values.Add (stripReserved s.params) (lit "client") s.clientId).Encode := by
    simp only [List.append_assoc]
  rw [constructQuery_client s hb hm hid hsec _ hp key hd _ rfl _ hmsg _ rfl]
  refine ⟨rfl, rfl, ?_⟩
  · have hurl : GOOGLEMAPS_URL = lit "https://maps.googleapis.com" ++ lit "/maps/api/" := by
      decide
    simp only [tempUrl, hurl, List.append_assoc]

theorem plain_path_signed_as_sent_witness :
    clientExample.consistent ∧ clientExample.authType = GOOGLEMAPS_AUTH_CLIENT ∧
    clientExample.clientId ≠ lit "" ∧ clientExample.clientSecret ≠ lit "" ∧
    plain clientExample.servicePath ∧ plain clientExample.requestType ∧
    DecodeString (translateSecret clientExample.clientSecret) =
      some [188, 210, 23, 19, 76, 108, 114, 185, 163, 151, 37, 126, 215, 99, 99, 252, 27, 212,
        61, 172] ∧
    ∃ (P : Values) (msg sig : GoString),
      P = Values.Add (stripReserved clientExample.params) (lit "client") clientExample.clientId ∧
      msg = lit "/maps/api/" ++ clientExample.servicePath ++ lit "/" ++ clientExample.requestType
        ++ lit "?" ++ P.Encode ∧
      sig = translateSignature (hmacSha1 [188, 210, 23, 19, 76, 108, 114, 185, 163, 151, 37,
        126, 215, 99, 99, 252, 27, 212, 61, 172] msg) ∧
      (constructQuery clientExample).signed = some ([188, 210, 23, 19, 76, 108, 114, 185, 163,
        151, 37, 126, 215, 99, 99, 252, 27, 212, 61, 172], msg) ∧
      (constructQuery clientExample).err = none ∧
      (constructQuery clientExample).url =
        lit "https://maps.googleapis.com" ++
          (lit "/maps/api/" ++ clientExample.servicePath ++ lit "/" ++ clientExample.requestType
            ++ lit "?")
          ++ (P.Add (lit "signature") sig).Encode :=
  ⟨by decide, by decide, by decide, by decide, by decide, by decide, by decide,
    plain_path_signed_as_sent clientExample (by decide) (by decide) (by decide) (by decide)
      (by decide) (by decide) _ (by decide)⟩

/-- C4 (as stated) fails: with the service path `a%20b` the URL returned begins
with `https://maps.googleapis.com/maps/api/a%20b/json?`, but the bytes given to
the MAC begin with `/maps/api/a b/json?`, the unescaped path, and not with
`/maps/api/a%20b/json?`. -/
theorem escaped_path_signed_unescaped :
    escapedPathExample.consistent ∧ escapedPathExample.authType = GOOGLEMAPS_AUTH_CLIENT ∧
    (constructQuery escapedPathExample).err = none ∧
    (constructQuery escapedPathExample).url.take 48 =
      lit "https://maps.googleapis.com/maps/api/a%20b/json?" ∧
    (constructQuery escapedPathExample).signed =
      some ([188, 210, 23, 19, 76, 108, 114, 185, 163, 151, 37, 126, 215, 99, 99, 252, 27, 212,
        61, 172],
        lit "/maps/api/a b/json?client=foo&locations=40.714728%2C-73.998672&sensor=false") ∧
    ¬ (lit "/maps/api/" ++ escapedPathExample.servicePath ++ lit "/"
        ++ escapedPathExample.requestType ++ lit "?" <+:
      lit "/maps/api/a b/json?client=foo&locations=40.714728%2C-73.998672&sensor=false") := by
  decide

/-- C5: in KEY mode with a non-empty API key, `constructQuery` succeeds for
every parameter set and returns the endpoint, the service path, `/`, the
response format, `?` and the encoding of the parameter set from which
`client`, `signature` and `key` were deleted and to which `key` was then added
with the API key. -/
theorem key_mode_url (s : Service) (hc : s.consistent) (hm : s.authType = GOOGLEMAPS_AUTH_KEY)
    (hk : s.apiKey ≠ lit "") :
    (constructQuery s).err = none ∧
    (constructQuery s).url =
      lit "https://maps.googleapis.com/maps/api/" ++ s.servicePath ++ lit "/" ++ s.requestType
        ++ lit "?" ++
        (Values.Add (Values.Del (Values.Del (Values.Del s.params (lit "client")) (lit "signature"))
          (lit "key")) (lit "key") s.apiKey).Encode := by
  have hb : s.business = true :=
    (business_of_consistent s hc).2 (by rw [hm]; exact key_ne_empty)
  rw [constructQuery_key s hb hm hk]
  exact ⟨rfl, rfl⟩

theorem key_mode_url_witness :
    keyExample.consistent ∧ keyExample.authType = GOOGLEMAPS_AUTH_KEY ∧
    keyExample.apiKey ≠ lit "" ∧
    (constructQuery keyExample).err = none ∧
    (constructQuery keyExample).url =
      lit "https://maps.googleapis.com/maps/api/" ++ keyExample.servicePath ++ lit "/"
        ++ keyExample.requestType ++ lit "?" ++
        (Values.Add (Values.Del (Values.Del (Values.Del keyExample.params (lit "client"))
          (lit "signature")) (lit "key")) (lit "key") keyExample.apiKey).Encode :=
  ⟨by decide, by decide, by decide,
    key_mode_url keyExample (by decide) (by decide) (by decide)⟩

/-- C6: in EMPTY mode, whatever the three credentials hold, `constructQuery`
succeeds for every parameter set and returns the endpoint, the service path,
`/`, the response format, `?` and the encoding of the parameter set from which
`client`, `signature` and `key` were deleted; that encoding consists of the
pairs of the set joined by `&`, and no pair is named `key`, `client` or
`signature`. -/
theorem empty_mode_url (s : Service) (hc : s.consistent)
    (hm : s.authType = GOOGLEMAPS_AUTH_EMPTY) :
    (constructQuery s).err = none ∧
    (constructQuery s).url =
      lit "https://maps.googleapis.com/maps/api/" ++ s.servicePath ++ lit "/" ++ s.requestType
        ++ lit "?" ++
        (Values.Del (Values.Del (Values.Del s.params (lit "client")) (lit "signature"))
          (lit "key")).Encode ∧
    (Values.Del (Values.Del (Values.Del s.params (lit "client")) (lit "signature"))
        (lit "key")).Encode =
      joinAmp ((Values.pairs (Values.Del (Values.Del (Values.Del s.params (lit "client"))
        (lit "signature")) (lit "key"))).map renderPair) ∧
    (∀ p ∈ Values.pairs (Values.Del (Values.Del (Values.Del s.params (lit "client"))
        (lit "signature")) (lit "key")), ¬ reserved p.1) := by
  have hb : s.business = false := by
    unfold Service.consistent at hc
    rw [hc, hm]
    decide
  rw [constructQuery_not_business s hb]
  refine ⟨rfl, rfl, Encode_eq_pairs _, ?_⟩
  intro p hp
  exact ((mem_keys_strip s.params p.1).1 (mem_pairs_key _ p hp)).2

theorem empty_mode_url_witness :
    emptyExample.consistent ∧ emptyExample.authType = GOOGLEMAPS_AUTH_EMPTY ∧
    (constructQuery emptyExample).err = none ∧
    (constructQuery emptyExample).url =
      lit "https://maps.googleapis.com/maps/api/" ++ emptyExample.servicePath ++ lit "/"
        ++ emptyExample.requestType ++ lit "?" ++
        (Values.Del (Values.Del (Values.Del emptyExample.params (lit "client")) (lit "signature"))
          (lit "key")).Encode ∧
    (Values.Del (Values.Del (Values.Del emptyExample.params (lit "client")) (lit "signature"))
        (lit "key")).Encode =
      joinAmp ((Values.pairs (Values.Del (Values.Del (Values.Del emptyExample.params
        (lit "client")) (lit "signature")) (lit "key"))).map renderPair) ∧
    (∀ p ∈ Values.pairs (Values.Del (Values.Del (Values.Del emptyExample.params (lit "client"))
        (lit "signature")) (lit "key")), ¬ reserved p.1) :=
  ⟨by decide, by decide, empty_mode_url emptyExample (by decide) (by decide)⟩

/-- C7: in KEY mode `constructQuery` returns an error exactly when the API key
is empty, and then the URL is empty; in CLIENT mode it returns an error and an
empty URL whenever the client id or the client secret is empty, and nothing
has been given to the MAC. -/
theorem missing_credentials_rejected (s : Service) (hc : s.consistent) :
    (s.authType = GOOGLEMAPS_AUTH_KEY →
      ((constructQuery s).err ≠ none ↔ s.apiKey = lit "") ∧
      (s.apiKey = lit "" → (constructQuery s).url = lit "")) ∧
    (s.authType = GOOGLEMAPS_AUTH_CLIENT → (s.clientId = lit "" ∨ s.clientSecret = lit "") →
      (constructQuery s).err ≠ none ∧ (constructQuery s).url = lit "" ∧
      (constructQuery s).signed = none) := by
  constructor
  · intro hm
    have hb : s.business = true :=
      (business_of_consistent s hc).2 (by rw [hm]; exact key_ne_empty)
    by_cases hk : s.apiKey = lit ""
    · rw [constructQuery_key_missing s hb hm hk]
      exact ⟨⟨fun _ => hk, fun _ => by simp⟩, fun _ => rfl⟩
    · rw [constructQuery_key s hb hm hk]
      exact ⟨⟨fun h => absurd rfl h, fun h => absurd h hk⟩, fun h => absurd h hk⟩
  · intro hm hmiss
    have hb : s.business = true :=
      (business_of_consistent s hc).2 (by rw [hm]; exact client_ne_empty)
    rw [constructQuery_client_missing s hb hm hmiss]
    exact ⟨by simp, rfl, rfl⟩

theorem missing_credentials_rejected_witness :
    keyExample.consistent ∧
    (keyExample.authType = GOOGLEMAPS_AUTH_KEY →
      ((constructQuery keyExample).err ≠ none ↔ keyExample.apiKey = lit "") ∧
      (keyExample.apiKey = lit "" → (constructQuery keyExample).url = lit "")) ∧
    (keyExample.authType = GOOGLEMAPS_AUTH_CLIENT →
      (keyExample.clientId = lit "" ∨ keyExample.clientSecret = lit "") →
      (constructQuery keyExample).err ≠ none ∧ (constructQuery keyExample).url = lit "" ∧
      (constructQuery keyExample).signed = none) :=
  ⟨by decide, missing_credentials_rejected keyExample (by decide)⟩

/-- C8 (as amended): in CLIENT mode, if the client secret, after every `-` is
replaced by `+` and every `_` by `/` and after carriage returns and line feeds
are dropped, is not valid padded standard base64, then `constructQuery` returns
an error and the empty URL, and nothing is given to the MAC. -/
theorem undecodable_secret_rejected (s : Service) (hc : s.consistent)
    (hm : s.authType = GOOGLEMAPS_AUTH_CLIENT)
    (hv : validStdBase64 ((translateSecret s.clientSecret).filter (fun c => c ≠ 10 ∧ c ≠ 13))
      = false) :
    (constructQuery s).err ≠ none ∧ (constructQuery s).url = lit "" ∧
    (constructQuery s).signed = none := by
  have hb : s.business = true :=
    (business_of_consistent s hc).2 (by rw [hm]; exact client_ne_empty)
  have hd : DecodeString (translateSecret s.clientSecret) = none := by
    cases h : DecodeString (translateSecret s.clientSecret) with
    | none => rfl
    | some bytes =>
      have := DecodeString_valid _ bytes h
      rw [hv] at this
      exact absurd this (by simp)
  by_cases hmiss : s.clientId = lit "" ∨ s.clientSecret = lit ""
  · rw [constructQuery_client_missing s hb hm hmiss]
    exact ⟨by simp, rfl, rfl⟩
  · have hid : s.clientId ≠ lit "" := fun h => hmiss (Or.inl h)
    have hsec : s.clientSecret ≠ lit "" := fun h => hmiss (Or.inr h)
    cases hp : Parse (tempUrl s) with
    | none =>
      rw [constructQuery_client_parse s hb hm hid hsec hp]
      exact ⟨by simp, rfl, rfl⟩
    | some u =>
      rw [constructQuery_client_decode s hb hm hid hsec u hp hd]
      exact ⟨by simp, rfl, rfl⟩

theorem undecodable_secret_rejected_witness :
    (SetClientSecret clientExample (lit "not base64!")).consistent ∧
    (SetClientSecret clientExample (lit "not base64!")).authType = GOOGLEMAPS_AUTH_CLIENT ∧
    validStdBase64 ((translateSecret (SetClientSecret clientExample (lit "not base64!")).clientSecret).filter
      (fun c => c ≠ 10 ∧ c ≠ 13)) = false ∧
    (constructQuery (SetClientSecret clientExample (lit "not base64!"))).err ≠ none ∧
    (constructQuery (SetClientSecret clientExample (lit "not base64!"))).url = lit "" ∧
    (constructQuery (SetClientSecret clientExample (lit "not base64!"))).signed = none :=
  ⟨by decide, by decide, by decide,
    undecodable_secret_rejected (SetClientSecret clientExample (lit "not base64!"))
      (by decide) (by decide) (by decide)⟩

/-- C8 (as stated) fails: the secret `AAAA` followed by a line feed is not
valid padded standard base64 (five bytes, one of them outside the alphabet),
and no replacement changes it; the decoder skips the line feed, and
`constructQuery` returns a signed URL and no error. -/
theorem newline_secret_signed :
    newlineSecretExample.consistent ∧
    newlineSecretExample.authType = GOOGLEMAPS_AUTH_CLIENT ∧
    newlineSecretExample.clientId ≠ lit "" ∧ newlineSecretExample.clientSecret ≠ lit "" ∧
    translateSecret newlineSecretExample.clientSecret = lit "AAAA\n" ∧
    validStdBase64 (translateSecret newlineSecretExample.clientSecret) = false ∧
    (constructQuery newlineSecretExample).err = none ∧
    (constructQuery newlineSecretExample).url ≠ lit "" ∧
    (constructQuery newlineSecretExample).signed =
      some ([0, 0, 0], lit "/maps/api/elevation/json?client=foo&locations=40.714728%2C-73.998672&sensor=false") := by
  decide

/-- C9 (as amended): for a service whose `business` flag tracks its
authentication type, `constructQuery` succeeds exactly when, in KEY mode, the
API key is not empty and, in CLIENT mode, the client id and the client secret
are not empty, `url.Parse` accepts the request URL and the decoder accepts the
translated secret; and `url.Parse` accepts the request URL whenever the service
path and the response format contain no `%`, `?`, `#` and no control byte. -/
theorem constructQuery_succeeds_iff (s : Service) (hc : s.consistent) :
    ((constructQuery s).err = none ↔
      (s.authType = GOOGLEMAPS_AUTH_KEY → s.apiKey ≠ lit "") ∧
      (s.authType = GOOGLEMAPS_AUTH_CLIENT →
        s.clientId ≠ lit "" ∧ s.clientSecret ≠ lit "" ∧ (Parse (tempUrl s)).isSome = true ∧
        (DecodeString (translateSecret s.clientSecret)).isSome = true)) ∧
    (plain s.servicePath → plain s.requestType → (Parse (tempUrl s)).isSome = true) := by
  constructor
  · by_cases hcl : s.authType = GOOGLEMAPS_AUTH_CLIENT
    · have hb : s.business = true :=
        (business_of_consistent s hc).2 (by rw [hcl]; exact client_ne_empty)
      have hnk : s.authType ≠ GOOGLEMAPS_AUTH_KEY := by
        rw [hcl]; exact fun h => key_ne_client h.symm
      by_cases hmiss : s.clientId = lit "" ∨ s.clientSecret = lit ""
      · rw [constructQuery_client_missing s hb hcl hmiss]
        constructor
        · intro h; simp at h
        · intro h
          have := h.2 hcl
          rcases hmiss with h1 | h1
          · exact absurd h1 this.1
          · exact absurd h1 this.2.1
      · have hid : s.clientId ≠ lit "" := fun h => hmiss (Or.inl h)
        have hsec : s.clientSecret ≠ lit "" := fun h => hmiss (Or.inr h)
        cases hp : Parse (tempUrl s) with
        | none =>
          rw [constructQuery_client_parse s hb hcl hid hsec hp]
          constructor
          · intro h; simp at h
          · intro h
            have := (h.2 hcl).2.2.1
            simp at this
        | some u =>
          cases hd : DecodeString (translateSecret s.clientSecret) with
          | none =>
            rw [constructQuery_client_decode s hb hcl hid hsec u hp hd]
            constructor
            · intro h; simp at h
            · intro h
              have := (h.2 hcl).2.2.2
              simp at this
          | some key =>
            rw [constructQuery_client s hb hcl hid hsec u hp key hd _ rfl _ rfl _ rfl]
            constructor
            · intro _
              exact ⟨fun h => absurd h hnk, fun _ => ⟨hid, hsec, rfl, rfl⟩⟩
            · intro _; rfl
    · by_cases hk : s.authType = GOOGLEMAPS_AUTH_KEY
      · have hb : s.business = true :=
          (business_of_consistent s hc).2 (by rw [hk]; exact key_ne_empty)
        by_cases hkey : s.apiKey = lit ""
        · rw [constructQuery_key_missing s hb hk hkey]
          constructor
          · intro h; simp at h
          · intro h; exact absurd hkey (h.1 hk)
        · rw [constructQuery_key s hb hk hkey]
          constructor
          · intro _; exact ⟨fun _ => hkey, fun h => absurd h hcl⟩
          · intro _; rfl
      · have herr : (constructQuery s).err = none := by
          unfold constructQuery
          simp only [if_neg hcl, if_neg hk]
          split <;> rfl
        rw [herr]
        constructor
        · intro _; exact ⟨fun h => absurd h hk, fun h => absurd h hcl⟩
        · intro _; rfl
  · intro hsp hrt
    have hx : plain (s.servicePath ++ lit "/" ++ s.requestType) := by
      intro c hcm
      rcases List.mem_append.1 hcm with h1 | h1
      · rcases List.mem_append.1 h1 with h2 | h2
        · exact hsp c h2
        · have : c = 47 := by simpa [lit] using h2
          subst this; decide
      · exact hrt c h1
    have := Parse_plain _ hx
    unfold tempUrl
    rw [show GOOGLEMAPS_URL ++ s.servicePath ++ lit "/" ++ s.requestType ++ lit "?"
        = GOOGLEMAPS_URL ++ (s.servicePath ++ lit "/" ++ s.requestType) ++ lit "?" by
      simp only [List.append_assoc], this]
    rfl

theorem constructQuery_succeeds_iff_witness :
    clientExample.consistent ∧
    ((constructQuery clientExample).err = none ↔
      (clientExample.authType = GOOGLEMAPS_AUTH_KEY → clientExample.apiKey ≠ lit "") ∧
      (clientExample.authType = GOOGLEMAPS_AUTH_CLIENT →
        clientExample.clientId ≠ lit "" ∧ clientExample.clientSecret ≠ lit "" ∧
        (Parse (tempUrl clientExample)).isSome = true ∧
        (DecodeString (translateSecret clientExample.clientSecret)).isSome = true)) ∧
    (plain clientExample.servicePath → plain clientExample.requestType →
      (Parse (tempUrl clientExample)).isSome = true) :=
  ⟨by decide, constructQuery_succeeds_iff clientExample (by decide)⟩

/-- C9 (as stated) fails: with the service path `geocode%zz`, in CLIENT mode
with a non-empty client id and a non-empty secret that is valid base64,
`constructQuery` returns an error, the one of `url.Parse`. -/
theorem bad_escape_path_fails :
    badEscapeExample.consistent ∧ badEscapeExample.authType = GOOGLEMAPS_AUTH_CLIENT ∧
    badEscapeExample.clientId ≠ lit "" ∧ badEscapeExample.clientSecret ≠ lit "" ∧
    validStdBase64 (translateSecret badEscapeExample.clientSecret) = true ∧
    (DecodeString (translateSecret badEscapeExample.clientSecret)).isSome = true ∧
    (constructQuery badEscapeExample).err = some GoError.urlError ∧
    (constructQuery badEscapeExample).url = lit "" := by
  decide

/-- C10: a second call of `constructQuery` on the service that the first call
left behind, with nothing done in between, returns the same URL and the same
error as the first call (and gives the same bytes to the MAC), for every
service state. -/
theorem build_twice_identical (s : Service) :
    (constructQuery (constructQuery s).service).url = (constructQuery s).url ∧
    (constructQuery (constructQuery s).service).err = (constructQuery s).err ∧
    (constructQuery (constructQuery s).service).signed = (constructQuery s).signed := by
  rw [constructQuery_twice]
  exact ⟨rfl, rfl, rfl⟩

/-- C11, as stated, fails for a reserved name: after `AddParam("signature",
"a")` and `AddParam("signature", "b")` on the service of the EMPTY-mode test,
the build succeeds and the URL has no pair named `signature` at all. -/
theorem reserved_name_pairs_absent :
    reservedTwiceExample.consistent ∧ Values.WF reservedTwiceExample.params ∧
    Values.lookup reservedTwiceExample.params (lit "signature") = [lit "a", lit "b"] ∧
    (constructQuery reservedTwiceExample).err = none ∧
    (constructQuery reservedTwiceExample).url =
      lit "https://maps.googleapis.com/maps/api/distancematrix/json?destinations=Berlin%2C+Germany&origins=Sofia%2C+Bulgaria&sensor=false" ∧
    (Values.pairs (constructQuery reservedTwiceExample).service.params).filter
      (fun p => p.1 = lit "signature") = [] := by
  decide

/-- C11, amended: for a parameter set that is a map, adding values under two
different names in either order gives the same URL, the same error and the
same signed bytes. For one name other than `client`, `signature` and `key`,
the pairs with that name in the built query are the values the name had
before, then the two added values in the order of the calls. In every built
URL the query is the pairs joined by `&`, and their names are in ascending
bytewise order. -/
theorem AddParam_order (s : Service) (hwf : Values.WF s.params) (k1 k2 v1 v2 : GoString)
    (hne : k1 ≠ k2) (k w1 w2 : GoString) (hk : ¬ reserved k) :
    ((constructQuery (AddParam (AddParam s k1 v1) k2 v2)).url
        = (constructQuery (AddParam (AddParam s k2 v2) k1 v1)).url ∧
      (constructQuery (AddParam (AddParam s k1 v1) k2 v2)).err
        = (constructQuery (AddParam (AddParam s k2 v2) k1 v1)).err ∧
      (constructQuery (AddParam (AddParam s k1 v1) k2 v2)).signed
        = (constructQuery (AddParam (AddParam s k2 v2) k1 v1)).signed) ∧
    (Values.pairs (constructQuery (AddParam (AddParam s k w1) k w2)).service.params).filter
        (fun p => p.1 = k)
      = (Values.lookup s.params k ++ [w1, w2]).map (fun x => (k, x)) ∧
    (∀ t : Service, (constructQuery t).err = none →
      (constructQuery t).url
        = tempUrl t ++ joinAmp ((Values.pairs (constructQuery t).service.params).map renderPair) ∧
      ((Values.pairs (constructQuery t).service.params).map Prod.fst).Pairwise
        (fun a b => strLess b a = false)) := by
  refine ⟨?_, ?_, ?_⟩
  · exact constructQuery_equiv s _ _ (AddParam_swap_equiv s.params hwf k1 k2 v1 v2 hne)
  · have hwf2 : Values.WF (AddParam (AddParam s k w1) k w2).params :=
      Values.WF_Add _ _ _ (Values.WF_Add _ _ _ hwf)
    have hmem : k ∈ Values.keys (AddParam (AddParam s k w1) k w2).params :=
      (Values.mem_keys_Add _ _ _ _).2 (Or.inl rfl)
    have hkeep := constructQuery_keeps_name (AddParam (AddParam s k w1) k w2) hwf2 k hk hmem
    rw [pairs_filter_key _ k hkeep.2, hkeep.1]
    show (Values.lookup ((s.params.Add k w1).Add k w2) k).map _ = _
    rw [Values.lookup_Add_self, Values.lookup_Add_self, List.append_assoc]
    rfl
  · intro t ht
    rw [constructQuery_url_eq t ht, Encode_eq_pairs]
    exact ⟨rfl, pairs_sorted _⟩

theorem AddParam_order_witness :
    Values.WF keyExample.params ∧ lit "zoom" ≠ lit "address" ∧ ¬ reserved (lit "sensor") ∧
    Values.lookup keyExample.params (lit "sensor") = [lit "false"] ∧
    (((constructQuery (AddParam (AddParam keyExample (lit "zoom") (lit "3")) (lit "address") (lit "Sofia"))).url
        = (constructQuery (AddParam (AddParam keyExample (lit "address") (lit "Sofia")) (lit "zoom") (lit "3"))).url ∧
      (constructQuery (AddParam (AddParam keyExample (lit "zoom") (lit "3")) (lit "address") (lit "Sofia"))).err
        = (constructQuery (AddParam (AddParam keyExample (lit "address") (lit "Sofia")) (lit "zoom") (lit "3"))).err ∧
      (constructQuery (AddParam (AddParam keyExample (lit "zoom") (lit "3")) (lit "address") (lit "Sofia"))).signed
        = (constructQuery (AddParam (AddParam keyExample (lit "address") (lit "Sofia")) (lit "zoom") (lit "3"))).signed) ∧
    (Values.pairs (constructQuery (AddParam (AddParam keyExample (lit "sensor") (lit "true")) (lit "sensor") (lit "no"))).service.params).filter
        (fun p => p.1 = (lit "sensor"))
      = (Values.lookup keyExample.params (lit "sensor") ++ [(lit "true"), (lit "no")]).map (fun x => ((lit "sensor"), x)) ∧
    (∀ t : Service, (constructQuery t).err = none →
      (constructQuery t).url
        = tempUrl t ++ joinAmp ((Values.pairs (constructQuery t).service.params).map renderPair) ∧
      ((Values.pairs (constructQuery t).service.params).map Prod.fst).Pairwise
        (fun a b => strLess b a = false))) :=
  ⟨by decide, by decide, by decide, by decide,
    AddParam_order keyExample (by decide) (lit "zoom") (lit "address") (lit "3") (lit "Sofia")
      (by decide) (lit "sensor") (lit "true") (lit "no") (by decide)⟩

/-- C12, as stated, fails: after a successful build in KEY mode the parameter
set still holds the entry `key` that the call added, so it is not the stripped
parameter set. -/
theorem key_entry_stays_in_params :
    keyExample.consistent ∧ keyExample.authType = GOOGLEMAPS_AUTH_KEY ∧
    (constructQuery keyExample).err = none ∧
    (constructQuery keyExample).service.params ≠ stripReserved keyExample.params ∧
    Values.lookup (constructQuery keyExample).service.params (lit "key")
      = [lit "TEST_API_KEY"] ∧
    Values.lookup (stripReserved keyExample.params) (lit "key") = [] := by
  decide

/-- C12, amended: `constructQuery` changes nothing but the parameter set,
and the parameter set after the call is, case by case, the stripped set (the
set before the call with `client`, `signature` and `key` deleted) plus the
entries the call itself added, which stay in the map. With `business` false,
with an authentication type that is neither `client` nor `key`, and when a
credential is missing, it is the stripped set. After a KEY build with an API
key it is the stripped set with `key=[apiKey]` added. In CLIENT mode with both
credentials it holds `client=[clientId]`; when the build then fails it is the
stripped set with that entry added, and when it succeeds it is that set with
`signature=[sig]` added. Deleting the three names gives the stripped set
again. -/
theorem constructQuery_side_effect (s : Service) :
    (constructQuery s).service = { s with params := (constructQuery s).service.params } ∧
    stripReserved (constructQuery s).service.params = stripReserved s.params ∧
    (s.business = false → (constructQuery s).service.params = stripReserved s.params) ∧
    (s.business = true → s.authType ≠ GOOGLEMAPS_AUTH_CLIENT →
      s.authType ≠ GOOGLEMAPS_AUTH_KEY →
      (constructQuery s).service.params = stripReserved s.params) ∧
    (s.business = true → s.authType = GOOGLEMAPS_AUTH_KEY →
      (s.apiKey = lit "" →
        (constructQuery s).err ≠ none ∧
        (constructQuery s).service.params = stripReserved s.params) ∧
      (s.apiKey ≠ lit "" →
        (constructQuery s).err = none ∧
        (constructQuery s).service.params
          = (stripReserved s.params).Add (lit "key") s.apiKey ∧
        (constructQuery s).service.params
          = stripReserved s.params ++ [(lit "key", [s.apiKey])] ∧
        Values.lookup (constructQuery s).service.params (lit "key") = [s.apiKey] ∧
        (constructQuery s).service.params ≠ stripReserved s.params)) ∧
    (s.business = true → s.authType = GOOGLEMAPS_AUTH_CLIENT →
      ((s.clientId = lit "" ∨ s.clientSecret = lit "") →
        (constructQuery s).err ≠ none ∧
        (constructQuery s).service.params = stripReserved s.params) ∧
      (s.clientId ≠ lit "" → s.clientSecret ≠ lit "" →
        Values.lookup (constructQuery s).service.params (lit "client") = [s.clientId] ∧
        (constructQuery s).service.params ≠ stripReserved s.params ∧
        ((constructQuery s).err ≠ none →
          (constructQuery s).service.params
            = (stripReserved s.params).Add (lit "client") s.clientId ∧
          (constructQuery s).service.params
            = stripReserved s.params ++ [(lit "client", [s.clientId])]) ∧
        ((constructQuery s).err = none →
          ∃ key msg, (constructQuery s).signed = some (key, msg) ∧
            (constructQuery s).service.params
              = ((stripReserved s.params).Add (lit "client") s.clientId).Add (lit "signature")
                  (translateSignature (hmacSha1 key msg)) ∧
            (constructQuery s).service.params
              = stripReserved s.params ++ [(lit "client", [s.clientId])]
                  ++ [(lit "signature", [translateSignature (hmacSha1 key msg)])] ∧
            Values.lookup (constructQuery s).service.params (lit "signature")
              = [translateSignature (hmacSha1 key msg)]))) := by
  have hne : ∀ (v : Values) (e : GoString × List GoString), v ++ [e] ≠ v := by
    intro v e h
    have := congrArg List.length h
    simp at this
  have hcl : ∀ x : GoString,
      Values.lookup (stripReserved s.params ++ [(lit "client", [x])]) (lit "client") = [x] :=
    fun x => Values.lookup_append_new _ _ _ (client_not_mem_strip s.params)
  refine ⟨?_, ?_, ?_, ?_, ?_, ?_⟩
  · obtain ⟨P, hP, _⟩ := constructQuery_service s
    rw [hP]
  · obtain ⟨P, hP, hS⟩ := constructQuery_service s
    rw [hP]
    exact hS
  · intro hb
    rw [constructQuery_not_business s hb]
  · intro hb h1 h2
    simp only [constructQuery, hb, if_true, if_neg h1, if_neg h2]
  · intro hb ha
    refine ⟨?_, ?_⟩
    · intro hk
      rw [constructQuery_key_missing s hb ha hk]
      exact ⟨by simp, rfl⟩
    · intro hk
      rw [constructQuery_key s hb ha hk]
      refine ⟨rfl, rfl, keyParams_eq _ _, ?_, ?_⟩
      · show Values.lookup ((stripReserved s.params).Add (lit "key") s.apiKey) _ = _
        rw [keyParams_eq]
        exact Values.lookup_append_new _ _ _ (key_not_mem_strip s.params)
      · show (stripReserved s.params).Add (lit "key") s.apiKey ≠ _
        rw [keyParams_eq]
        exact hne _ _
  · intro hb ha
    refine ⟨?_, ?_⟩
    · intro hk
      rw [constructQuery_client_missing s hb ha hk]
      exact ⟨by simp, rfl⟩
    · intro hid hsec
      cases hp : Parse (tempUrl s) with
      | none =>
        rw [constructQuery_client_parse s hb ha hid hsec hp]
        refine ⟨?_, ?_, fun _ => ⟨rfl, clientParams_eq _ _⟩, fun h => ?_⟩
        · show Values.lookup ((stripReserved s.params).Add (lit "client") s.clientId) _ = _
          rw [clientParams_eq]
          exact hcl _
        · show (stripReserved s.params).Add (lit "client") s.clientId ≠ _
          rw [clientParams_eq]
          exact hne _ _
        · simp at h
      | some u =>
        cases hd : DecodeString (translateSecret s.clientSecret) with
        | none =>
          rw [constructQuery_client_decode s hb ha hid hsec u hp hd]
          refine ⟨?_, ?_, fun _ => ⟨rfl, clientParams_eq _ _⟩, fun h => ?_⟩
          · show Values.lookup ((stripReserved s.params).Add (lit "client") s.clientId) _ = _
            rw [clientParams_eq]
            exact hcl _
          · show (stripReserved s.params).Add (lit "client") s.clientId ≠ _
            rw [clientParams_eq]
            exact hne _ _
          · simp at h
        | some k =>
          rw [constructQuery_client s hb ha hid hsec u hp k hd _ rfl _ rfl _ rfl]
          refine ⟨?_, ?_, fun h => absurd rfl h, fun _ => ⟨_, _, rfl, rfl, ?_, ?_⟩⟩
          · show Values.lookup (((stripReserved s.params).Add (lit "client") s.clientId).Add
              (lit "signature") _) _ = _
            rw [signedParams_eq,
              Values.lookup_append_other _ _ _ _ client_ne_signature]
            exact hcl _
          · show ((stripReserved s.params).Add (lit "client") s.clientId).Add
              (lit "signature") _ ≠ _
            rw [signedParams_eq, List.append_assoc]
            intro h
            have := congrArg List.length h
            simp at this
          · exact signedParams_eq _ _ _
          · show Values.lookup (((stripReserved s.params).Add (lit "client") s.clientId).Add
              (lit "signature") _) _ = _
            rw [Values.Add_of_not_mem _ _ _ (signature_not_mem_clientParams s.params s.clientId),
              Values.lookup_append_new _ _ _
                (signature_not_mem_clientParams s.params s.clientId)]

theorem constructQuery_side_effect_witness :
    clientExample.business = true ∧ clientExample.authType = GOOGLEMAPS_AUTH_CLIENT ∧
    clientExample.clientId ≠ lit "" ∧ clientExample.clientSecret ≠ lit "" ∧
    (constructQuery clientExample).err = none ∧
    Values.lookup (constructQuery clientExample).service.params (lit "client") = [lit "foo"] ∧
    (∃ key msg, (constructQuery clientExample).signed = some (key, msg) ∧
      (constructQuery clientExample).service.params
        = ((stripReserved clientExample.params).Add (lit "client")
            clientExample.clientId).Add (lit "signature")
              (translateSignature (hmacSha1 key msg)) ∧
      (constructQuery clientExample).service.params
        = stripReserved clientExample.params ++ [(lit "client", [clientExample.clientId])]
            ++ [(lit "signature", [translateSignature (hmacSha1 key msg)])] ∧
      Values.lookup (constructQuery clientExample).service.params (lit "signature")
        = [translateSignature (hmacSha1 key msg)]) :=
  ⟨by decide, by decide, by decide, by decide, by decide,
    (((constructQuery_side_effect clientExample).2.2.2.2.2 (by decide) (by decide)).2
      (by decide) (by decide)).1,
    (((constructQuery_side_effect clientExample).2.2.2.2.2 (by decide) (by decide)).2
      (by decide) (by decide)).2.2.2 (by decide)⟩

/-- C13: every signature produced in CLIENT mode is URL-safe base64 of a
20-byte digest. For every key and message the signature text, the standard
padded base64 encoding of the HMAC-SHA1 digest with `+` turned into `-` and
`/` into `_`, has length 28; its first 27 characters are letters, digits, `-`
or `_` (never `+` or `/`) and its last character is `=`. In a CLIENT-mode
build with a decodable secret this text is the one value stored under
`signature`. -/
theorem signature_url_safe_base64 (s : Service) (hc : s.consistent)
    (hm : s.authType = GOOGLEMAPS_AUTH_CLIENT) (hid : s.clientId ≠ lit "")
    (hsec : s.clientSecret ≠ lit "") (u : URL) (hp : Parse (tempUrl s) = some u)
    (key : List Nat) (hd : DecodeString (translateSecret s.clientSecret) = some key) :
    (∀ (k : List Nat) (m : GoString),
      (hmacSha1 k m).length = 20 ∧
      translateSignature (hmacSha1 k m)
        = Replace (Replace (EncodeToString (hmacSha1 k m)) (ch '+') (ch '-')) (ch '/') (ch '_') ∧
      (translateSignature (hmacSha1 k m)).length = 28 ∧
      (∀ c ∈ (translateSignature (hmacSha1 k m)).take 27,
        inUrlSafeAlphabet c = true ∧ c ≠ ch '+' ∧ c ≠ ch '/') ∧
      (translateSignature (hmacSha1 k m)).drop 27 = [ch '=']) ∧
    (∃ msg : GoString,
      (constructQuery s).signed = some (key, msg) ∧
      (constructQuery s).err = none ∧
      Values.lookup (constructQuery s).service.params (lit "signature")
        = [translateSignature (hmacSha1 key msg)]) := by
  have hb : s.business = true :=
    (business_of_consistent s hc).2 (by rw [hm]; exact client_ne_empty)
  refine ⟨?_, ?_⟩
  · intro k m
    have hs := translateSignature_shape (hmacSha1 k m) (hmacSha1_length k m)
    exact ⟨hmacSha1_length k m, rfl, hs.1,
      fun c hc => ⟨hs.2.1 c hc, urlSafe_ne_plus c (hs.2.1 c hc)⟩, hs.2.2⟩
  · rw [constructQuery_client s hb hm hid hsec u hp key hd _ rfl _ rfl _ rfl]
    refine ⟨_, rfl, rfl, ?_⟩
    show Values.lookup (((stripReserved s.params).Add (lit "client") s.clientId).Add
      (lit "signature") _) (lit "signature") = _
    rw [Values.Add_of_not_mem _ _ _ (signature_not_mem_clientParams s.params s.clientId),
      Values.lookup_append_new _ _ _ (signature_not_mem_clientParams s.params s.clientId)]

theorem signature_url_safe_base64_witness :
    clientExample.consistent ∧ clientExample.authType = GOOGLEMAPS_AUTH_CLIENT ∧
    clientExample.clientId ≠ lit "" ∧ clientExample.clientSecret ≠ lit "" ∧
    Parse (tempUrl clientExample) =
      some ⟨lit "https", [], lit "maps.googleapis.com", lit "/maps/api/elevation/json", [], []⟩ ∧
    DecodeString (translateSecret clientExample.clientSecret) =
      some [188, 210, 23, 19, 76, 108, 114, 185, 163, 151, 37, 126, 215, 99, 99, 252, 27, 212,
        61, 172] ∧
    ((∀ (k : List Nat) (m : GoString),
      (hmacSha1 k m).length = 20 ∧
      translateSignature (hmacSha1 k m)
        = Replace (Replace (EncodeToString (hmacSha1 k m)) (ch '+') (ch '-')) (ch '/') (ch '_') ∧
      (translateSignature (hmacSha1 k m)).length = 28 ∧
      (∀ c ∈ (translateSignature (hmacSha1 k m)).take 27,
        inUrlSafeAlphabet c = true ∧ c ≠ ch '+' ∧ c ≠ ch '/') ∧
      (translateSignature (hmacSha1 k m)).drop 27 = [ch '=']) ∧
    (∃ msg : GoString,
      (constructQuery clientExample).signed = some ([188, 210, 23, 19, 76, 108, 114, 185, 163,
        151, 37, 126, 215, 99, 99, 252, 27, 212, 61, 172], msg) ∧
      (constructQuery clientExample).err = none ∧
      Values.lookup (constructQuery clientExample).service.params (lit "signature")
        = [translateSignature (hmacSha1 [188, 210, 23, 19, 76, 108, 114, 185, 163, 151, 37,
            126, 215, 99, 99, 252, 27, 212, 61, 172] msg)])) :=
  ⟨by decide, by decide, by decide, by decide, by decide, by decide,
    signature_url_safe_base64 clientExample (by decide) (by decide) (by decide)
      (by decide)
      ⟨lit "https", [], lit "maps.googleapis.com", lit "/maps/api/elevation/json", [], []⟩
      (by decide)
      [188, 210, 23, 19, 76, 108, 114, 185, 163, 151, 37, 126, 215, 99, 99, 252, 27, 212, 61, 172]
      (by decide)⟩

/-- C14: the client secret is read in the URL-safe alphabet. Giving the
service the secret with every `-` already turned into `+` and every `_` into
`/` leaves the URL, the error, the signed bytes and the parameter set of
`constructQuery` unchanged, and whenever a signature is computed its key is
the standard base64 decoding of that translated secret. -/
theorem secret_read_url_safe (s : Service) (hc : s.consistent)
    (ha : s.authType = GOOGLEMAPS_AUTH_CLIENT) :
    (constructQuery { s with clientSecret := translateSecret s.clientSecret }).url
      = (constructQuery s).url ∧
    (constructQuery { s with clientSecret := translateSecret s.clientSecret }).err
      = (constructQuery s).err ∧
    (constructQuery { s with clientSecret := translateSecret s.clientSecret }).signed
      = (constructQuery s).signed ∧
    (constructQuery { s with clientSecret := translateSecret s.clientSecret }).service.params
      = (constructQuery s).service.params ∧
    (∀ key msg, (constructQuery s).signed = some (key, msg) →
      DecodeString (translateSecret s.clientSecret) = some key) := by
  have hb : s.business = true := (business_of_consistent s hc).2 (by rw [ha]; decide)
  have hT : translateSecret (translateSecret s.clientSecret) = translateSecret s.clientSecret := by
    unfold translateSecret Replace
    simp only [List.map_map]
    apply List.map_congr_left
    intro c _
    simp only [Function.comp]
    by_cases h1 : c = ch '-'
    · subst h1; decide
    · by_cases h2 : c = ch '_'
      · subst h2; decide
      · simp only [if_neg h1, if_neg h2]
  have hE : translateSecret s.clientSecret = lit "" ↔ s.clientSecret = lit "" := by
    unfold translateSecret Replace
    show _ = [] ↔ _ = []
    simp
  have hkey : ∀ key msg, (constructQuery s).signed = some (key, msg) →
      DecodeString (translateSecret s.clientSecret) = some key := by
    intro key msg h
    by_cases hk : s.clientId = lit "" ∨ s.clientSecret = lit ""
    · rw [constructQuery_client_missing s hb ha hk] at h
      simp at h
    · have hid : s.clientId ≠ lit "" := fun h => hk (Or.inl h)
      have hsec : s.clientSecret ≠ lit "" := fun h => hk (Or.inr h)
      cases hp : Parse (tempUrl s) with
      | none =>
        rw [constructQuery_client_parse s hb ha hid hsec hp] at h
        simp at h
      | some u =>
        cases hd : DecodeString (translateSecret s.clientSecret) with
        | none =>
          rw [constructQuery_client_decode s hb ha hid hsec u hp hd] at h
          simp at h
        | some k =>
          rw [constructQuery_client s hb ha hid hsec u hp k hd _ rfl _ rfl _ rfl] at h
          simp only [Option.some.injEq, Prod.mk.injEq] at h
          rw [h.1]
  refine ⟨?_, ?_, ?_, ?_, hkey⟩ <;>
  · by_cases hk : s.clientId = lit "" ∨ s.clientSecret = lit ""
    · have hk2 : s.clientId = lit "" ∨ translateSecret s.clientSecret = lit "" :=
        hk.imp id hE.2
      rw [constructQuery_client_missing s hb ha hk,
        constructQuery_client_missing { s with clientSecret := translateSecret s.clientSecret }
          hb ha hk2]
    · have hid : s.clientId ≠ lit "" := fun h => hk (Or.inl h)
      have hsec : s.clientSecret ≠ lit "" := fun h => hk (Or.inr h)
      have hsec2 : translateSecret s.clientSecret ≠ lit "" := fun h => hsec (hE.1 h)
      cases hp : Parse (tempUrl s) with
      | none =>
        rw [constructQuery_client_parse s hb ha hid hsec hp,
          constructQuery_client_parse { s with clientSecret := translateSecret s.clientSecret }
            hb ha hid hsec2 hp]
      | some u =>
        cases hd : DecodeString (translateSecret s.clientSecret) with
        | none =>
          rw [constructQuery_client_decode s hb ha hid hsec u hp hd,
            constructQuery_client_decode
              { s with clientSecret := translateSecret s.clientSecret }
              hb ha hid hsec2 u hp (by rw [hT]; exact hd)]
        | some k =>
          rw [constructQuery_client s hb ha hid hsec u hp k hd _ rfl _ rfl _ rfl,
            constructQuery_client { s with clientSecret := translateSecret s.clientSecret }
              hb ha hid hsec2 u hp k (by rw [hT]; exact hd) _ rfl _ rfl _ rfl]
          try rfl

theorem secret_read_url_safe_witness :
    clientExample.consistent ∧ clientExample.authType = GOOGLEMAPS_AUTH_CLIENT ∧
    clientExample.clientSecret = lit "vNIXE0xscrmjlyV-12Nj_BvUPaw=" ∧
    translateSecret clientExample.clientSecret = lit "vNIXE0xscrmjlyV+12Nj/BvUPaw=" ∧
    ((constructQuery
        { clientExample with clientSecret := translateSecret clientExample.clientSecret }).url
      = (constructQuery clientExample).url ∧
    (constructQuery
        { clientExample with clientSecret := translateSecret clientExample.clientSecret }).err
      = (constructQuery clientExample).err ∧
    (constructQuery
        { clientExample with clientSecret := translateSecret clientExample.clientSecret }).signed
      = (constructQuery clientExample).signed ∧
    (constructQuery
        { clientExample with
          clientSecret := translateSecret clientExample.clientSecret }).service.params
      = (constructQuery clientExample).service.params ∧
    (∀ key msg, (constructQuery clientExample).signed = some (key, msg) →
      DecodeString (translateSecret clientExample.clientSecret) = some key)) :=
  ⟨by decide, by decide, by decide, by decide,
    secret_read_url_safe clientExample (by decide) (by decide)⟩

/-- C15: in every state reachable from a successful `NewService` by the
exported operations (failed setter calls included), `business` is true
exactly when `authType` is not the empty value, and `authType` is one of
`""`, `"key"`, `"client"`. -/
theorem reachable_business_tracks_authType (Error : GoError → GoString) (s : Service)
    (h : Reachable Error s) :
    (s.business = true ↔ s.authType ≠ lit "") ∧
    (s.authType = lit "" ∨ s.authType = lit "key" ∨ s.authType = lit "client") := by
  have hi := Reachable_inv Error s h
  exact ⟨business_of_consistent s hi.1, hi.2.1⟩

theorem reachable_business_tracks_authType_witness :
    Reachable errorText (run errorText sessionOps newExample) ∧
    (run errorText sessionOps newExample).authType = lit "key" ∧
    (((run errorText sessionOps newExample).business = true ↔
        (run errorText sessionOps newExample).authType ≠ lit "") ∧
      ((run errorText sessionOps newExample).authType = lit "" ∨
        (run errorText sessionOps newExample).authType = lit "key" ∨
        (run errorText sessionOps newExample).authType = lit "client")) :=
  ⟨⟨lit "geocode", lit "GET", lit "", newExample, sessionOps, by decide, rfl⟩, by decide,
    reachable_business_tracks_authType errorText (run errorText sessionOps newExample)
      ⟨lit "geocode", lit "GET", lit "", newExample, sessionOps, by decide, rfl⟩⟩

/-- C16: `SetAuthType(a)` succeeds exactly when `a` is `""`, `"key"` or
`"client"` (so `"KEY"` and `"Client"` are rejected); on success the
authentication type is `a`, `business` is `a != ""` and no other field
changes; on failure an error is returned and the service is unchanged. -/
theorem SetAuthType_accepts_exactly (s : Service) (a : GoString) :
    ((SetAuthType s a).2 = none ↔ (a = lit "" ∨ a = lit "key" ∨ a = lit "client")) ∧
    ((SetAuthType s a).2 = none →
      (SetAuthType s a).1 = { s with authType := a, business := decide (a ≠ lit "") }) ∧
    ((SetAuthType s a).2 ≠ none → (SetAuthType s a).1 = s) ∧
    (SetAuthType s (lit "KEY")).2 ≠ none ∧ (SetAuthType s (lit "Client")).2 ≠ none := by
  have hin := inSlice_three a GOOGLEMAPS_AUTH_EMPTY GOOGLEMAPS_AUTH_KEY GOOGLEMAPS_AUTH_CLIENT
  have hrej : ∀ b : GoString,
      inSlice b [GOOGLEMAPS_AUTH_EMPTY, GOOGLEMAPS_AUTH_KEY, GOOGLEMAPS_AUTH_CLIENT] = false →
      (SetAuthType s b).2 ≠ none := by
    intro b hb
    unfold SetAuthType
    simp [hb]
  refine ⟨?_, ?_, ?_, hrej _ (by decide), hrej _ (by decide)⟩
  · unfold SetAuthType
    by_cases h : inSlice a [GOOGLEMAPS_AUTH_EMPTY, GOOGLEMAPS_AUTH_KEY, GOOGLEMAPS_AUTH_CLIENT]
        = true
    · simp only [h, Bool.not_true, Bool.false_eq_true, if_false, true_iff]
      exact hin.1 h
    · simp only [h, Bool.not_false, if_true]
      constructor
      · intro hh; simp at hh
      · intro hh; exact absurd (hin.2 hh) h
  · unfold SetAuthType
    by_cases h : inSlice a [GOOGLEMAPS_AUTH_EMPTY, GOOGLEMAPS_AUTH_KEY, GOOGLEMAPS_AUTH_CLIENT]
        = true
    · simp only [h, Bool.not_true, Bool.false_eq_true, if_false]
      intro _
      rfl
    · simp only [h, Bool.not_false, if_true]
      intro hh; simp at hh
  · unfold SetAuthType
    by_cases h : inSlice a [GOOGLEMAPS_AUTH_EMPTY, GOOGLEMAPS_AUTH_KEY, GOOGLEMAPS_AUTH_CLIENT]
        = true
    · simp only [h, Bool.not_true, Bool.false_eq_true, if_false]
      intro hh; exact absurd rfl hh
    · simp only [h, Bool.not_false, if_true]
      intro _; trivial

/-- C17: `NewService(sPath, rMethod, aType)` returns a service exactly when
`rMethod` is `"GET"` or `"POST"` and `aType` is `""`, `"key"` or `"client"`;
otherwise it returns an error and no service. The service returned has the
given path, method and authentication type, response format `"json"`, empty
credentials and an empty parameter set. `SetRequestMethod` accepts exactly
`"GET"` and `"POST"` and leaves the service unchanged when it rejects. -/
theorem NewService_accepts_exactly (sPath rMethod aType : GoString) :
    (((NewService sPath rMethod aType).1.isSome ∧ (NewService sPath rMethod aType).2 = none) ↔
      ((rMethod = lit "GET" ∨ rMethod = lit "POST") ∧
        (aType = lit "" ∨ aType = lit "key" ∨ aType = lit "client"))) ∧
    (¬ ((rMethod = lit "GET" ∨ rMethod = lit "POST") ∧
        (aType = lit "" ∨ aType = lit "key" ∨ aType = lit "client")) →
      (NewService sPath rMethod aType).1 = none ∧ (NewService sPath rMethod aType).2 ≠ none) ∧
    (((rMethod = lit "GET" ∨ rMethod = lit "POST") ∧
        (aType = lit "" ∨ aType = lit "key" ∨ aType = lit "client")) →
      NewService sPath rMethod aType =
        (some { servicePath := sPath, requestMethod := rMethod, requestType := lit "json",
                authType := aType, apiKey := [], clientId := [], clientSecret := [],
                business := decide (aType ≠ lit ""), params := [] }, none)) ∧
    (∀ (s : Service) (m : GoString),
      ((SetRequestMethod s m).2 = none ↔ (m = lit "GET" ∨ m = lit "POST")) ∧
      ((SetRequestMethod s m).2 = none →
        (SetRequestMethod s m).1 = { s with requestMethod := m }) ∧
      ((SetRequestMethod s m).2 ≠ none → (SetRequestMethod s m).1 = s)) := by
  have hgood := NewService_ok sPath rMethod aType
  have hbad := NewService_bad sPath rMethod aType
  refine ⟨⟨?_, ?_⟩, hbad, hgood, ?_⟩
  · intro h
    by_contra hn
    have := (hbad hn).1
    rw [this] at h
    exact absurd h.1 (by simp)
  · intro h
    rw [hgood h]
    exact ⟨rfl, rfl⟩
  · intro s m
    have hm2 := inSlice_two m (lit "POST") (lit "GET")
    unfold SetRequestMethod
    by_cases h : inSlice m [lit "POST", lit "GET"] = true
    · simp only [h, Bool.not_true, Bool.false_eq_true, if_false]
      exact ⟨⟨fun _ => Or.symm (hm2.1 h), fun _ => trivial⟩,
        fun _ => trivial, fun hh => absurd rfl hh⟩
    · simp only [h, Bool.not_false, if_true]
      refine ⟨⟨fun hh => ?_, fun hh => absurd (hm2.2 (Or.symm hh)) h⟩, fun hh => ?_,
        fun _ => trivial⟩
      · simp at hh
      · simp at hh

/-- C18: deleting `client`, `signature` and `key` a second time changes
nothing; what is left has none of the three names, has every other name
exactly when the parameter set had it, and holds under every other name the
values that the parameter set held. -/
theorem strip_idempotent (v : Values) :
    stripReserved (stripReserved v) = stripReserved v ∧
    Values.Del (Values.Del (Values.Del (stripReserved v) (lit "client")) (lit "signature"))
      (lit "key") = stripReserved v ∧
    stripReserved v = Values.Del (Values.Del (Values.Del v (lit "client")) (lit "signature"))
      (lit "key") ∧
    lit "client" ∉ Values.keys (stripReserved v) ∧
    lit "signature" ∉ Values.keys (stripReserved v) ∧
    lit "key" ∉ Values.keys (stripReserved v) ∧
    (∀ k, k ≠ lit "client" → k ≠ lit "signature" → k ≠ lit "key" →
      (k ∈ Values.keys (stripReserved v) ↔ k ∈ Values.keys v) ∧
      Values.lookup (stripReserved v) k = Values.lookup v k ∧
      (stripReserved v).filter (fun e => e.1 = k) = v.filter (fun e => e.1 = k)) := by
  refine ⟨stripReserved_idem v, stripReserved_idem v, rfl, client_not_mem_strip v,
    signature_not_mem_strip v, key_not_mem_strip v, ?_⟩
  intro k h1 h2 h3
  have hr : ¬ reserved k := by
    unfold reserved
    tauto
  refine ⟨?_, lookup_strip v k hr, ?_⟩
  · rw [mem_keys_strip]
    tauto
  · unfold stripReserved Values.Del
    rw [List.filter_filter, List.filter_filter, List.filter_filter]
    apply List.filter_congr
    intro e _
    by_cases he : e.1 = k
    · simp [he, h1, h2, h3]
    · simp [he]

/-- C19, as stated, fails: with the service path `a?b` the CLIENT-mode build
succeeds, the signed text is `/maps/api/a?client=foo&...`, whose query begins
with `client=foo`, while the query of the returned URL (the text after its
first `?`) begins with `b/json?`; the returned query is not the signed query
with a pair inserted after its beginning. -/
theorem question_path_query_differs :
    questionPathExample.consistent ∧ questionPathExample.authType = GOOGLEMAPS_AUTH_CLIENT ∧
    (constructQuery questionPathExample).err = none ∧
    (constructQuery questionPathExample).signed =
      some ([188, 210, 23, 19, 76, 108, 114, 185, 163, 151, 37, 126, 215, 99, 99, 252, 27, 212,
        61, 172],
        lit "/maps/api/a?client=foo&locations=40.714728%2C-73.998672&sensor=false") ∧
    (Cut (lit "/maps/api/a?client=foo&locations=40.714728%2C-73.998672&sensor=false")
        (ch '?')).2 = lit "client=foo&locations=40.714728%2C-73.998672&sensor=false" ∧
    (constructQuery questionPathExample).url.take 46 =
      lit "https://maps.googleapis.com/maps/api/a?b/json?" ∧
    ((Cut (constructQuery questionPathExample).url (ch '?')).2).take 7 = lit "b/json?" ∧
    ¬ ∃ A X B : GoString, A ≠ [] ∧
      (Cut (constructQuery questionPathExample).url (ch '?')).2 = A ++ X ++ B ∧
      (Cut (lit "/maps/api/a?client=foo&locations=40.714728%2C-73.998672&sensor=false")
        (ch '?')).2 = A ++ B := by
  refine ⟨by decide, by decide, by decide, by decide, by decide, by decide, by decide, ?_⟩
  rintro ⟨A, X, B, hA, h1, h2⟩
  have e1 : ((Cut (constructQuery questionPathExample).url (ch '?')).2).head? = some (ch 'b') := by
    decide
  have e2 : ((Cut (lit "/maps/api/a?client=foo&locations=40.714728%2C-73.998672&sensor=false")
      (ch '?')).2).head? = some (ch 'c') := by
    decide
  rw [h1] at e1
  rw [h2] at e2
  cases A with
  | nil => exact hA rfl
  | cons a rest =>
    simp only [List.cons_append, List.head?_cons, Option.some.injEq] at e1 e2
    rw [e1] at e2
    exact absurd e2 (by decide)

/-- C19, amended: in a successful CLIENT-mode build whose service path and
response format have no `%`, `?`, `#` or control byte, the query of the
returned URL (the text after its first `?`) is the signed query (the text
after the first `?` of the signed bytes) with the one pair
`&signature=<escaped signature>` inserted: the pairs before it have names
below `signature` and include `client=clientId`, so the pair is never first,
and the pairs after it have names above `signature`. -/
theorem signature_pair_inserted (s : Service) (hc : s.consistent)
    (hm : s.authType = GOOGLEMAPS_AUTH_CLIENT) (hid : s.clientId ≠ lit "")
    (hsec : s.clientSecret ≠ lit "") (hsp : plain s.servicePath) (hrt : plain s.requestType)
    (key : List Nat) (hd : DecodeString (translateSecret s.clientSecret) = some key) :
    ∃ (P : Values) (msg sig : GoString) (L R : List (GoString × GoString)),
      P = Values.Add (stripReserved s.params) (lit "client") s.clientId ∧
      msg = lit "/maps/api/" ++ (s.servicePath ++ lit "/" ++ s.requestType) ++ lit "?"
        ++ P.Encode ∧
      sig = translateSignature (hmacSha1 key msg) ∧
      (constructQuery s).signed = some (key, msg) ∧
      (constructQuery s).err = none ∧
      (Cut msg (ch '?')).2 = P.Encode ∧
      (Cut (constructQuery s).url (ch '?')).2 = (P.Add (lit "signature") sig).Encode ∧
      Values.pairs P = L ++ R ∧
      Values.pairs (P.Add (lit "signature") sig) = L ++ [(lit "signature", sig)] ++ R ∧
      (lit "client", s.clientId) ∈ L ∧
      (∀ p ∈ L, strLess p.1 (lit "signature") = true) ∧
      (∀ p ∈ R, strLess (lit "signature") p.1 = true) ∧
      joinAmp (L.map renderPair) ≠ [] ∧
      P.Encode = joinAmp (L.map renderPair)
        ++ (R.map renderPair).flatMap (fun t => ch '&' :: t) ∧
      (P.Add (lit "signature") sig).Encode = joinAmp (L.map renderPair)
        ++ (lit "&signature=" ++ QueryEscape sig)
        ++ (R.map renderPair).flatMap (fun t => ch '&' :: t) := by
  have hb : s.business = true :=
    (business_of_consistent s hc).2 (by rw [hm]; exact client_ne_empty)
  have hp := Parse_tempUrl_plain s hsp hrt
  have hq1 : ∀ c ∈ lit "/maps/api/" ++ (s.servicePath ++ lit "/" ++ s.requestType),
      c ≠ ch '?' :=
    no_question_of_plain _ (plain_path s hsp hrt) _ (by decide)
  have hq2 : ∀ c ∈ GOOGLEMAPS_URL ++ (s.servicePath ++ lit "/" ++ s.requestType),
      c ≠ ch '?' :=
    no_question_of_plain _ (plain_path s hsp hrt) _ (by decide)
  obtain ⟨L, R, h1, h2, h3, h4, h5⟩ := pairs_append_new
    ((stripReserved s.params).Add (lit "client") s.clientId) (lit "signature")
    (translateSignature (hmacSha1 key
      (lit "/maps/api/" ++ (s.servicePath ++ lit "/" ++ s.requestType) ++ lit "?"
        ++ ((stripReserved s.params).Add (lit "client") s.clientId).Encode)))
    (signature_not_mem_clientParams s.params s.clientId)
  rw [← Values.Add_of_not_mem _ _ _ (signature_not_mem_clientParams s.params s.clientId)] at h2
  have hcl : (lit "client", s.clientId) ∈ L := by
    have hlt : strLess (lit "client") (lit "signature") = true := by decide
    apply h5 _ _ hlt
    have hf : (Values.pairs ((stripReserved s.params).Add (lit "client") s.clientId)).filter
        (fun p => decide (p.1 = lit "client")) = [(lit "client", s.clientId)] := by
      rw [clientParams_eq,
        pairs_filter_key _ _ (count_keys_append_new _ _ _ (client_not_mem_strip s.params)),
        Values.lookup_append_new _ _ _ (client_not_mem_strip s.params)]
      rfl
    have hmem : (lit "client", s.clientId) ∈ [(lit "client", s.clientId)] :=
      List.mem_singleton.2 rfl
    rw [← hf] at hmem
    exact (List.mem_filter.1 hmem).1
  have hL : L.map renderPair ≠ [] := by
    intro h
    rw [List.map_eq_nil_iff] at h
    rw [h] at hcl
    exact absurd hcl (List.not_mem_nil _)
  have hA : joinAmp (L.map renderPair) ≠ [] := by
    obtain ⟨a, rest, hl⟩ := List.exists_cons_of_ne_nil hL
    rw [hl, joinAmp_cons]
    intro h
    have ha : a ∈ L.map renderPair := hl ▸ List.mem_cons_self _ _
    rcases List.mem_map.1 ha with ⟨p, _, rfl⟩
    have := (List.append_eq_nil.1 h).1
    unfold renderPair at this
    simp at this
  refine ⟨_, _, _, L, R, rfl, rfl, rfl, ?_, ?_, ?_, ?_, h1, h2, hcl, h3, h4, hA, ?_, ?_⟩
  · rw [constructQuery_client s hb hm hid hsec _ hp key hd _ rfl _ rfl _ rfl]
  · rw [constructQuery_client s hb hm hid hsec _ hp key hd _ rfl _ rfl _ rfl]
  · exact congrArg Prod.snd (Cut_question _ _ hq1)
  · rw [constructQuery_client s hb hm hid hsec _ hp key hd _ rfl _ rfl _ rfl]
    show (Cut (tempUrl s ++ _) (ch '?')).2 = _
    have ht : tempUrl s = GOOGLEMAPS_URL ++ (s.servicePath ++ lit "/" ++ s.requestType)
        ++ lit "?" := by
      unfold tempUrl
      simp only [List.append_assoc]
    rw [ht]
    exact congrArg Prod.snd (Cut_question _ _ hq2)
  · rw [Encode_eq_pairs, h1, List.map_append, joinAmp_append _ _ hL]
  · rw [Encode_eq_pairs, h2, List.map_append, List.map_append, List.append_assoc,
      joinAmp_append _ _ hL, List.flatMap_append]
    have hs : renderPair (lit "signature", translateSignature (hmacSha1 key
        (lit "/maps/api/" ++ (s.servicePath ++ lit "/" ++ s.requestType) ++ lit "?"
          ++ ((stripReserved s.params).Add (lit "client") s.clientId).Encode)))
        = lit "signature=" ++ QueryEscape (translateSignature (hmacSha1 key
        (lit "/maps/api/" ++ (s.servicePath ++ lit "/" ++ s.requestType) ++ lit "?"
          ++ ((stripReserved s.params).Add (lit "client") s.clientId).Encode))) := by
      unfold renderPair
      rw [show QueryEscape (lit "signature") = lit "signature" by decide]
      rfl
    simp only [List.map_cons, List.map_nil, List.flatMap_cons, List.flatMap_nil,
      List.append_nil, hs, List.append_assoc]
    rfl

theorem signature_pair_inserted_witness :
    lateNameExample.consistent ∧ lateNameExample.authType = GOOGLEMAPS_AUTH_CLIENT ∧
    lateNameExample.clientId ≠ lit "" ∧ lateNameExample.clientSecret ≠ lit "" ∧
    plain lateNameExample.servicePath ∧ plain lateNameExample.requestType ∧
    DecodeString (translateSecret lateNameExample.clientSecret) =
      some [188, 210, 23, 19, 76, 108, 114, 185, 163, 151,
        37, 126, 215, 99, 99, 252, 27, 212, 61, 172] ∧
    Values.lookup lateNameExample.params (lit "zoom") = [lit "3"] ∧
    strLess (lit "signature") (lit "zoom") = true ∧
    ∃ (P : Values) (msg sig : GoString) (L R : List (GoString × GoString)),
      P = Values.Add (stripReserved lateNameExample.params) (lit "client") lateNameExample.clientId ∧
      msg = lit "/maps/api/" ++ (lateNameExample.servicePath ++ lit "/" ++ lateNameExample.requestType) ++ lit "?"
        ++ P.Encode ∧
      sig = translateSignature (hmacSha1 [188, 210, 23, 19, 76, 108, 114, 185, 163, 151,
        37, 126, 215, 99, 99, 252, 27, 212, 61, 172] msg) ∧
      (constructQuery lateNameExample).signed = some ([188, 210, 23, 19, 76, 108, 114, 185, 163, 151,
        37, 126, 215, 99, 99, 252, 27, 212, 61, 172], msg) ∧
      (constructQuery lateNameExample).err = none ∧
      (Cut msg (ch '?')).2 = P.Encode ∧
      (Cut (constructQuery lateNameExample).url (ch '?')).2 = (P.Add (lit "signature") sig).Encode ∧
      Values.pairs P = L ++ R ∧
      Values.pairs (P.Add (lit "signature") sig) = L ++ [(lit "signature", sig)] ++ R ∧
      (lit "client", lateNameExample.clientId) ∈ L ∧
      (∀ p ∈ L, strLess p.1 (lit "signature") = true) ∧
      (∀ p ∈ R, strLess (lit "signature") p.1 = true) ∧
      joinAmp (L.map renderPair) ≠ [] ∧
      P.Encode = joinAmp (L.map renderPair)
        ++ (R.map renderPair).flatMap (fun t => ch '&' :: t) ∧
      (P.Add (lit "signature") sig).Encode = joinAmp (L.map renderPair)
        ++ (lit "&signature=" ++ QueryEscape sig)
        ++ (R.map renderPair).flatMap (fun t => ch '&' :: t) :=
  ⟨by decide, by decide, by decide, by decide, by decide, by decide, by decide, by decide,
    by decide,
    signature_pair_inserted lateNameExample (by decide) (by decide) (by decide) (by decide)
      (by decide) (by decide) _ (by decide)⟩

/-- C20: the response format cannot be changed through the exported
operations. In every state reachable from a successful `NewService` the
response format is `"json"`, so every URL that `constructQuery` returns is
`"https://maps.googleapis.com/maps/api/" + servicePath + "/json?"` followed
by the encoded parameters; `setRequestType` accepts exactly `"json"` and
`"xml"`, and leaves the service unchanged when it rejects. -/
theorem response_format_fixed (Error : GoError → GoString) (s : Service)
    (h : Reachable Error s) :
    s.requestType = lit "json" ∧
    ((constructQuery s).err = none →
      (constructQuery s).url = lit "https://maps.googleapis.com/maps/api/" ++ s.servicePath
        ++ lit "/json?" ++ (constructQuery s).service.params.Encode) ∧
    (∀ (t : Service) (r : GoString),
      ((setRequestType t r).2 = none ↔ (r = lit "json" ∨ r = lit "xml")) ∧
      ((setRequestType t r).2 = none → (setRequestType t r).1 = { t with requestType := r }) ∧
      ((setRequestType t r).2 ≠ none → (setRequestType t r).1 = t)) := by
  have hi := (Reachable_inv Error s h).2.2
  refine ⟨hi, ?_, ?_⟩
  · intro he
    rw [constructQuery_url_eq s he]
    unfold tempUrl
    rw [hi]
    simp only [List.append_assoc]
    rfl
  · intro t r
    have hr := inSlice_two r GOOGLEMAPS_RESPONSE_XML GOOGLEMAPS_RESPONSE_JSON
    unfold setRequestType
    by_cases h : inSlice r [GOOGLEMAPS_RESPONSE_XML, GOOGLEMAPS_RESPONSE_JSON] = true
    · simp only [h, Bool.not_true, Bool.false_eq_true, if_false]
      exact ⟨⟨fun _ => Or.symm (hr.1 h), fun _ => trivial⟩, fun _ => trivial,
        fun hh => absurd rfl hh⟩
    · simp only [h, Bool.not_false, if_true]
      refine ⟨⟨fun hh => ?_, fun hh => absurd (hr.2 (Or.symm hh)) h⟩, fun hh => ?_,
        fun _ => trivial⟩
      · simp at hh
      · simp at hh

theorem response_format_fixed_witness :
    Reachable errorText (run errorText sessionOps newExample) ∧
    (constructQuery (run errorText sessionOps newExample)).url =
      lit "https://maps.googleapis.com/maps/api/elevation/json?key=TEST_API_KEY" ∧
    ((run errorText sessionOps newExample).requestType = lit "json" ∧
    ((constructQuery (run errorText sessionOps newExample)).err = none →
      (constructQuery (run errorText sessionOps newExample)).url =
        lit "https://maps.googleapis.com/maps/api/" ++
          (run errorText sessionOps newExample).servicePath
        ++ lit "/json?" ++
          (constructQuery (run errorText sessionOps newExample)).service.params.Encode) ∧
    (∀ (t : Service) (r : GoString),
      ((setRequestType t r).2 = none ↔ (r = lit "json" ∨ r = lit "xml")) ∧
      ((setRequestType t r).2 = none → (setRequestType t r).1 = { t with requestType := r }) ∧
      ((setRequestType t r).2 ≠ none → (setRequestType t r).1 = t))) :=
  ⟨⟨lit "geocode", lit "GET", lit "", newExample, sessionOps, by decide, rfl⟩, by decide,
    response_format_fixed errorText (run errorText sessionOps newExample)
      ⟨lit "geocode", lit "GET", lit "", newExample, sessionOps, by decide, rfl⟩⟩

end GoogleMaps
